import Mathlib

/-!
# Card diffs to Slack attachments

A shallow embedding of
`server/services/notify/notifysubscriptions/diff2slackattachments.go`.

Conventions of the embedding.

* Go strings are modelled by `String` (valid UTF-8 text); the string helpers
  work on the list of characters.
* The process-wide `templateCache` is passed explicitly: every function that
  reads or writes it takes the cache and returns the new cache.
* A Go call has three possible outcomes: it returns with a nil error, it
  returns a non-nil error, or it panics (nil pointer dereference, call of a
  nil function value). `Outcome` records which. Helpers that cannot return an
  error use `Option`, where `none` is the panic.
* `opts.Logger` only receives events; the calls `Logger.Debug` and
  `Logger.Trace` do not influence any returned value and are left out.
* The parser of `text/template` and `generateMarkdownDiff` are collaborators
  outside this file; they are parameters of the functions that use them.
-/

namespace Boards

/-! ## Data model -/

/-- Modelled from the spec: `model.BlockType`, the enumeration of block types
(`card`, `comment`, `attachment`, `image`, `text`, `divider`, ...). Every type
that the code does not name is an `other`. -/
inductive BlockType where
  | TypeCard
  | TypeComment
  | TypeAttachment
  | TypeImage
  | TypeText
  | TypeDivider
  | other (name : String)
deriving DecidableEq, Repr

/-- Modelled from the spec: `model.Block` is declared outside the sources at
hand; a block snapshot has an identifier, a title and a deletion marker
(`DeleteAt`, zero when the block is live). Its field `Type` is called
`BlockType` here; it is read by `formatMessage` only, and a block written
without it is a card. -/
structure Block where
  ID : String
  Title : String
  DeleteAt : Int
  BlockType : BlockType := BlockType.TypeCard
deriving DecidableEq, Repr

/-- Modelled from the spec: `model.Board`, of which only the identifier and the
title are read here. -/
structure Board where
  ID : String
  Title : String
deriving DecidableEq, Repr

/-- Modelled from the spec: `PropDiff`, a named property with its old and new
textual value. -/
structure PropDiff where
  Name : String
  OldValue : String
  NewValue : String
deriving DecidableEq, Repr

/-- Modelled from the spec: `StringMap`, the author set of a diff, an unordered
set whose iteration order is left to the implementation. It is kept as the list
of its (key, value) entries in the order in which the iteration at hand yields
them, so one set is given by any permutation of its entries. -/
abbrev StringMap := List (String × String)

/-- Modelled from the spec: `StringMap.Values`, the values in the order in
which the iteration yields them. -/
def StringMap.Values (m : StringMap) : List String := m.map Prod.snd

/-- Modelled from the spec: `Diff`, a comparison node. `NewBlock` and
`OldBlock` are optional (nil pointers in Go); `Board` and `Card` are the
back-references, always present; `Diffs` are the child nodes, of the same
shape. -/
structure Diff where
  Board : Board
  Card : Block
  Authors : StringMap
  BlockType : BlockType
  OldBlock : Option Block
  NewBlock : Option Block
  PropDiffs : List PropDiff
  Diffs : List Diff

/-- The type `mm_model.SlackAttachmentField`; `Value` is always a string here. -/
structure SlackAttachmentField where
  Title : String
  Value : String
  Short : Bool
deriving DecidableEq, Repr

/-- The type `mm_model.SlackAttachment`, restricted to the fields this file
writes; all other fields keep their zero value. -/
structure SlackAttachment where
  Fallback : String
  Pretext : String
  TitleLink : String
  Fields : List SlackAttachmentField
deriving DecidableEq, Repr

/-- The type `DiffConvOpts`. The two link builders are function values that may
be nil. A link builder receives a block pointer that may be nil. -/
structure DiffConvOpts where
  Language : String
  MakeCardLink : Option (Option Block → Board → Block → String)
  MakeBoardLink : Option (Board → String)

/-- Go `error` values produced by this file. -/
inductive Err where
  /-- The error `cannot parse markdown template '<key>' for notifications: ...`. -/
  | cannotParse (key : String)
  /-- The error of `Template.Execute` on the template named `key`. -/
  | execute (key : String)
  /-- The error `cannot write notification for card <id>: <inner>`. -/
  | cannotWrite (cardID : String) (inner : Err)
deriving DecidableEq, Repr

/-- How a Go call ends. -/
inductive Outcome (α : Type) where
  /-- Normal return, nil error. -/
  | ok (v : α)
  /-- Normal return, non-nil error. -/
  | err (e : Err)
  /-- Run-time panic. -/
  | panic
deriving DecidableEq, Repr

/-! ## String helpers -/

/-- Go `unicode.IsSpace`. -/
def isSpace (c : Char) : Bool :=
  c = '\t' || c = '\n' || c = Char.ofNat 0x0B || c = Char.ofNat 0x0C || c = '\r' || c = ' '
    || c = Char.ofNat 0x85 || c = Char.ofNat 0xA0 || c = Char.ofNat 0x1680
    || (0x2000 ≤ c.toNat && c.toNat ≤ 0x200A)
    || c = Char.ofNat 0x2028 || c = Char.ofNat 0x2029 || c = Char.ofNat 0x202F
    || c = Char.ofNat 0x205F || c = Char.ofNat 0x3000

/-- Go `strings.TrimSpace` on the characters of a string. -/
def trimSpaceChars (cs : List Char) : List Char :=
  ((cs.dropWhile isSpace).reverse.dropWhile isSpace).reverse

/-- Go `strings.TrimSpace`. -/
def trimSpace (s : String) : String := ⟨trimSpaceChars s.data⟩

/-- The characters of `strings.ReplaceAll(s, "\n", "¶ ")`. -/
def replaceNewlinesChars : List Char → List Char
  | [] => []
  | c :: cs =>
    if c = '\n' then '¶' :: ' ' :: replaceNewlinesChars cs
    else c :: replaceNewlinesChars cs

/-- Modelled from the spec: the package-level helper `stripNewlines` is not
among the sources at hand; it collapses newlines to the separator glyph and
trims surrounding whitespace. The template helper of the same name in
`getTemplate` has this body:
`strings.TrimSpace(strings.ReplaceAll(s, "\n", "¶ "))`. -/
def stripNewlines (s : String) : String :=
  ⟨trimSpaceChars (replaceNewlinesChars s.data)⟩

/-- The character class `[a-zA-Z0-9_\-]`. -/
def isMentionChar (c : Char) : Bool :=
  ('a' ≤ c && c ≤ 'z') || ('A' ≤ c && c ≤ 'Z') || ('0' ≤ c && c ≤ '9') || c = '_' || c = '-'

/-- Whether the regular expression `@[a-zA-Z0-9_\-]+` matches somewhere in the
characters: an `@` immediately followed by a character of the class. -/
def mentionMatchChars : List Char → Bool
  | [] => false
  | c :: cs => (c = '@' && (match cs with | [] => false | d :: _ => isMentionChar d))
      || mentionMatchChars cs

/-- The call `mentionPattern.MatchString(s)`. -/
def mentionPatternMatchString (s : String) : Bool := mentionMatchChars s.data

/-- The function `makeAuthorsList`. -/
def makeAuthorsList (authors : StringMap) (empty : String) : String :=
  if authors.length = 0 then empty
  else
    (authors.Values.foldl
      (fun (acc : String × String) name => (acc.1 ++ acc.2 ++ "@" ++ trimSpace name, ", "))
      ("", "")).1

/-! ## Templates -/

/-- The three notification templates, as written in the source. -/
def defAddCardNotify : String :=
  "\x7b\x7b.Authors | printAuthors \"알 수 없는 사용자\" \x7d\x7d님이 카드 [\x7b\x7b.Card.Title\x7d\x7d](\x7b\x7b. | makeLink\x7d\x7d)를 추가했습니다.\n"

/-- Template of the notification for a modified card. -/
def defModifyCardNotify : String :=
  "###### \x7b\x7b.Authors | printAuthors \"알 수 없는 사용자\" \x7d\x7d님이 보드 \x7b\x7b. | makeBoardLink\x7d\x7d에서 카드 [\x7b\x7b.Card.Title\x7d\x7d](\x7b\x7b. | makeLink\x7d\x7d)를 수정했습니다.\n"

/-- Template of the notification for a deleted card. -/
def defDeleteCardNotify : String :=
  "\x7b\x7b.Authors | printAuthors \"알 수 없는 사용자\" \x7d\x7d님이 카드 [\x7b\x7b.Card.Title\x7d\x7d](\x7b\x7b. | makeLink\x7d\x7d)를 삭제했습니다.\n"

/-- A node of a parsed template: literal text, or one of the actions that the
notification templates use. -/
inductive Node where
  /-- Literal text between actions. -/
  | text (s : String)
  /-- The action `.Authors | printAuthors "<empty>"`. -/
  | printAuthors (empty : String)
  /-- The action `.Card.Title`. -/
  | cardTitle
  /-- The action `. | makeLink`. -/
  | makeLink
  /-- The action `. | makeBoardLink`. -/
  | makeBoardLink
deriving DecidableEq, Repr

/-- Parse tree of `defAddCardNotify`. -/
def addCardTree : List Node :=
  [.printAuthors "알 수 없는 사용자", .text "님이 카드 [", .cardTitle, .text "](", .makeLink,
   .text ")를 추가했습니다.\n"]

/-- Parse tree of `defModifyCardNotify`. -/
def modifyCardTree : List Node :=
  [.text "###### ", .printAuthors "알 수 없는 사용자", .text "님이 보드 ", .makeBoardLink,
   .text "에서 카드 [", .cardTitle, .text "](", .makeLink, .text ")를 수정했습니다.\n"]

/-- Parse tree of `defDeleteCardNotify`. -/
def deleteCardTree : List Node :=
  [.printAuthors "알 수 없는 사용자", .text "님이 카드 [", .cardTitle, .text "](", .makeLink,
   .text ")를 삭제했습니다.\n"]

/-- The call `t.Parse(s)` of `text/template`: the three notification templates
parse to their trees; every other source is left to the library parser
`parse`, which answers `none` for a source that does not parse. -/
def templateParse (parse : String → Option (List Node)) (s : String) : Option (List Node) :=
  if s = defAddCardNotify then some addCardTree
  else if s = defModifyCardNotify then some modifyCardTree
  else if s = defDeleteCardNotify then some deleteCardTree
  else parse s

/-- A compiled template: its name, its parse tree and the link builders that
`getTemplate` bound into its function map when it was compiled. A bound card
link builder answers `none` when the call panics. -/
structure Template where
  name : String
  tree : List Node
  makeCardLink : Option Block → Board → Block → Option String
  makeBoardLink : Board → String

/-- The variable `templateCache`: compiled templates by key. -/
abbrev TemplateCache := List (String × Template)

/-- The default card link builder of `getTemplate`: the backticked title of the
block; it dereferences the block, so it panics on a nil block. -/
def defaultMakeCardLink (block : Option Block) (_board : Board) (_card : Block) : Option String :=
  match block with
  | none => none
  | some b => some ("`" ++ b.Title ++ "`")

/-- The default board link builder of `getTemplate`: the backticked title. -/
def defaultMakeBoardLink (board : Board) : String := "`" ++ board.Title ++ "`"

/-- The function `getTemplate`: the cached template of the key, or a newly
compiled one, which is then stored. -/
def getTemplate (parse : String → Option (List Node)) (name : String) (opts : DiffConvOpts)
    (defn : String) (cache : TemplateCache) : Except Err Template × TemplateCache :=
  let key := name ++ "&" ++ opts.Language
  match cache.lookup key with
  | some t => (.ok t, cache)
  | none =>
    let makeCardLink : Option Block → Board → Block → Option String :=
      match opts.MakeCardLink with
      | none => defaultMakeCardLink
      | some f => fun block board card => some (f block board card)
    let makeBoardLink : Board → String :=
      match opts.MakeBoardLink with
      | none => defaultMakeBoardLink
      | some f => f
    match templateParse parse defn with
    | none => (.error (.cannotParse key), cache)
    | some tree =>
      let t : Template :=
        { name := key, tree := tree, makeCardLink := makeCardLink, makeBoardLink := makeBoardLink }
      (.ok t, (key, t) :: cache)

/-- Output of one node of a template on a diff; `none` when the action fails
(a panic inside a bound function is turned into an error by the library). -/
def execNode (t : Template) (data : Diff) : Node → Option String
  | .text s => some s
  | .printAuthors empty => some (makeAuthorsList data.Authors empty)
  | .cardTitle => some data.Card.Title
  | .makeLink => t.makeCardLink data.NewBlock data.Board data.Card
  | .makeBoardLink => some (t.makeBoardLink data.Board)

/-- Output of a list of nodes, in order; the first failing action aborts. -/
def execNodes (t : Template) (data : Diff) : List Node → Option String
  | [] => some ""
  | n :: rest =>
    match execNode t data n with
    | none => none
    | some s =>
      match execNodes t data rest with
      | none => none
      | some r => some (s ++ r)

/-- The call `t.Execute(w, data)` on an empty buffer: the text written. -/
def Template.Execute (t : Template) (data : Diff) : Except Err String :=
  match execNodes t data t.tree with
  | none => .error (.execute t.name)
  | some s => .ok s

/-- The function `execTemplate`, writing into an empty buffer. -/
def execTemplate (parse : String → Option (List Node)) (name : String) (opts : DiffConvOpts)
    (defn : String) (data : Diff) (cache : TemplateCache) : Except Err String × TemplateCache :=
  match getTemplate parse name opts defn cache with
  | (.error e, cache1) => (.error e, cache1)
  | (.ok t, cache1) => (t.Execute data, cache1)

/-! ## Field generators -/

/-- The function `appendTitleChanges`. It reads both blocks of the diff without
a nil check. -/
def appendTitleChanges (fields : List SlackAttachmentField) (cardDiff : Diff) :
    Option (List SlackAttachmentField) :=
  match cardDiff.NewBlock, cardDiff.OldBlock with
  | some newBlock, some oldBlock =>
    if newBlock.Title ≠ oldBlock.Title then
      some (fields ++ [
        { Short := false
          Title := "제목"
          Value := stripNewlines newBlock.Title ++ "  ~~`" ++ stripNewlines oldBlock.Title ++ "`~~" }])
    else some fields
  | _, _ => none

/-- Body of the loop of `appendPropertyChanges` for one property diff. -/
def appendPropertyChange (fields : List SlackAttachmentField) (propDiff : PropDiff) :
    List SlackAttachmentField :=
  if propDiff.NewValue = propDiff.OldValue then fields
  else
    let val :=
      if propDiff.OldValue ≠ "" then
        stripNewlines propDiff.NewValue ++ "  ~~`" ++ stripNewlines propDiff.OldValue ++ "`~~"
      else propDiff.NewValue
    fields ++ [{ Short := false, Title := propDiff.Name, Value := val }]

/-- The function `appendPropertyChanges`. -/
def appendPropertyChanges (fields : List SlackAttachmentField) (cardDiff : Diff) :
    List SlackAttachmentField :=
  if cardDiff.PropDiffs.length = 0 then fields
  else cardDiff.PropDiffs.foldl appendPropertyChange fields

/-- The characters of `fmt.Sprintf(format, msg)` for a format whose only verb
is one `%s`: the verb is replaced by the argument. -/
def sprintfChars (msg : List Char) : List Char → List Char
  | [] => []
  | c :: rest =>
    match c, rest with
    | '%', 's' :: rest2 => msg ++ rest2
    | _, _ => c :: sprintfChars msg rest

/-- The call `fmt.Sprintf(format, msg)` with one string argument. -/
def sprintf (format msg : String) : String := ⟨sprintfChars msg.data format.data⟩

/-- Whether a block pointer is nil or points to a block marked deleted:
`b == nil || b.DeleteAt != 0`. -/
def nilOrDeleted (b : Option Block) : Bool :=
  match b with
  | none => true
  | some blk => blk.DeleteAt ≠ 0

/-- Body of the loop of `appendCommentChanges` for one child. -/
def appendCommentChange (fields : List SlackAttachmentField) (child : Diff) :
    List SlackAttachmentField :=
  if child.BlockType = .TypeComment then
    let fm0 : String × String := ("", "")
    let fm1 : String × String :=
      match child.NewBlock, child.OldBlock with
      | some newBlock, none => ("%s", newBlock.Title)
      | _, _ => fm0
    let fm2 : String × String :=
      match nilOrDeleted child.NewBlock, child.OldBlock with
      | true, some oldBlock => ("~~`%s`~~", stripNewlines oldBlock.Title)
      | _, _ => fm1
    if fm2.1 ≠ "" then
      fields ++ [
        { Short := false
          Title := makeAuthorsList child.Authors "알 수 없는 사용자" ++ "님의 댓글"
          Value := sprintf fm2.1 fm2.2 }]
    else fields
  else fields

/-- The function `appendCommentChanges`. It is not called by
`cardDiff2SlackAttachment`. -/
def appendCommentChanges (fields : List SlackAttachmentField) (cardDiff : Diff) :
    List SlackAttachmentField :=
  cardDiff.Diffs.foldl appendCommentChange fields

/-- Body of the loop of `appendAttachmentChanges` for one child. The `else`
branch reads `child.OldBlock.Title` without a nil check. -/
def appendAttachmentChange (fields : List SlackAttachmentField) (child : Diff) :
    Option (List SlackAttachmentField) :=
  if child.BlockType = .TypeAttachment then
    let fm : Option (String × String) :=
      match child.NewBlock, child.OldBlock with
      | some newBlock, none => some ("첨부 파일 추가: **`%s`**", newBlock.Title)
      | _, some oldBlock => some ("첨부 파일 삭제: ~~`%s`~~", stripNewlines oldBlock.Title)
      | none, none => none
    match fm with
    | none => none
    | some (format, msg) =>
      if format ≠ "" then
        some (fields ++ [
          { Short := false
            Title := makeAuthorsList child.Authors "알 수 없는 사용자" ++ "님이 변경함"
            Value := sprintf format msg }])
      else some fields
  else some fields

/-- The function `appendAttachmentChanges`. -/
def appendAttachmentChanges (fields : List SlackAttachmentField) (cardDiff : Diff) :
    Option (List SlackAttachmentField) :=
  cardDiff.Diffs.foldlM appendAttachmentChange fields

/-- First half of the loop body of `appendContentChanges`: the pair
`(oldTitle, newTitle)` that reaches `generateMarkdownDiff` for this child, or
`none` when the switch on the block type ends the iteration (`continue`). -/
def contentTitles (child : Diff) : Option (String × String) :=
  let opAdd : Bool := child.OldBlock.isNone && child.NewBlock.isSome
  let opDelete : Bool := !opAdd && nilOrDeleted child.NewBlock
  let opString : String := if opAdd then "추가됨" else if opDelete then "삭제됨" else "수정됨"
  let oldTitle : String := match child.OldBlock with | some b => b.Title | none => ""
  let newTitle : String := match child.NewBlock with | some b => b.Title | none => ""
  match child.BlockType with
  | .TypeDivider => none
  | .TypeComment => none
  | .TypeImage => some ("", if newTitle = "" then "이미지가 " ++ opString ++ "." else newTitle)
  | .TypeAttachment => some ("", if newTitle = "" then "첨부 파일이 " ++ opString ++ "." else newTitle)
  | _ =>
    let newTitle1 : String := if !opAdd && opDelete then "" else newTitle
    let oldTitle2 : String := if !opAdd then stripNewlines oldTitle else oldTitle
    let newTitle2 : String := if !opAdd then stripNewlines newTitle1 else newTitle1
    if newTitle2 = oldTitle2 then none else some (oldTitle2, newTitle2)

/-- Second half of the loop body of `appendContentChanges`: the field for the
pair of texts, if any. -/
def contentField (generateMarkdownDiff : String → String → String) (oldTitle newTitle : String) :
    Option SlackAttachmentField :=
  let markdown := generateMarkdownDiff oldTitle newTitle
  if markdown = "" then none
  else if mentionPatternMatchString newTitle || mentionPatternMatchString oldTitle then none
  else some { Short := false, Title := "설명", Value := markdown }

/-- The field that `appendContentChanges` emits for one child, if any. -/
def contentChange (generateMarkdownDiff : String → String → String) (child : Diff) :
    Option SlackAttachmentField :=
  match contentTitles child with
  | none => none
  | some (oldTitle, newTitle) => contentField generateMarkdownDiff oldTitle newTitle

/-- Body of the loop of `appendContentChanges` for one child. -/
def appendContentChange (generateMarkdownDiff : String → String → String)
    (fields : List SlackAttachmentField) (child : Diff) : List SlackAttachmentField :=
  match contentChange generateMarkdownDiff child with
  | none => fields
  | some f => fields ++ [f]

/-- The function `appendContentChanges`. -/
def appendContentChanges (generateMarkdownDiff : String → String → String)
    (fields : List SlackAttachmentField) (cardDiff : Diff) : List SlackAttachmentField :=
  cardDiff.Diffs.foldl (appendContentChange generateMarkdownDiff) fields

/-! ## The attachment builder -/

/-- The call `opts.MakeCardLink(cardDiff.Card, cardDiff.Board, cardDiff.Card)`
in `cardDiff2SlackAttachment`; `none` when the function value is nil. -/
def titleLink (opts : DiffConvOpts) (cardDiff : Diff) : Option String :=
  match opts.MakeCardLink with
  | none => none
  | some f => some (f (some cardDiff.Card) cardDiff.Board cardDiff.Card)

/-- The field list of a modified card: the four generators in sequence,
starting from the empty list. -/
def modifiedFields (generateMarkdownDiff : String → String → String) (cardDiff : Diff) :
    Option (List SlackAttachmentField) :=
  match appendTitleChanges [] cardDiff with
  | none => none
  | some fields1 =>
    let fields2 := appendPropertyChanges fields1 cardDiff
    match appendAttachmentChanges fields2 cardDiff with
    | none => none
    | some fields3 => some (appendContentChanges generateMarkdownDiff fields3 cardDiff)

/-- The function `cardDiff2SlackAttachment`: the attachment (nil when there is
nothing to report), the error, and the template cache after the call. -/
def cardDiff2SlackAttachment (parse : String → Option (List Node))
    (generateMarkdownDiff : String → String → String) (cardDiff : Diff) (opts : DiffConvOpts)
    (cache : TemplateCache) : Outcome (Option SlackAttachment) × TemplateCache :=
  if cardDiff.NewBlock.isNone && cardDiff.OldBlock.isNone then (.ok none, cache)
  else if cardDiff.NewBlock.isSome && cardDiff.OldBlock.isNone then
    match execTemplate parse "AddCardNotify" opts defAddCardNotify cardDiff cache with
    | (.error e, cache1) => (.err e, cache1)
    | (.ok pretext, cache1) =>
      match titleLink opts cardDiff with
      | none => (.panic, cache1)
      | some link =>
        (.ok (some { Pretext := pretext, Fallback := pretext, TitleLink := link, Fields := [] }),
          cache1)
  else if nilOrDeleted cardDiff.NewBlock && cardDiff.OldBlock.isSome then
    match execTemplate parse "DeleteCardNotify" opts defDeleteCardNotify cardDiff cache with
    | (.error e, cache1) => (.err e, cache1)
    | (.ok pretext, cache1) =>
      match titleLink opts cardDiff with
      | none => (.panic, cache1)
      | some link =>
        (.ok (some { Pretext := pretext, Fallback := pretext, TitleLink := link, Fields := [] }),
          cache1)
  else
    -- at this point new and old block are non-nil; the arguments of the
    -- logger call read `cardDiff.NewBlock.ID`
    match cardDiff.NewBlock with
    | none => (.panic, cache)
    | some newBlock =>
      match execTemplate parse "ModifyCardNotify" opts defModifyCardNotify cardDiff cache with
      | (.error e, cache1) => (.err (.cannotWrite newBlock.ID e), cache1)
      | (.ok pretext, cache1) =>
        match titleLink opts cardDiff with
        | none => (.panic, cache1)
        | some link =>
          match modifiedFields generateMarkdownDiff cardDiff with
          | none => (.panic, cache1)
          | some fields =>
            if fields.length = 0 then (.ok none, cache1)
            else
              (.ok (some { Pretext := pretext, Fallback := pretext, TitleLink := link,
                           Fields := fields }), cache1)

/-! ## The batch converter -/

/-- The loop of `Diffs2SlackAttachments` over the remaining diffs, with the
attachments and the errors (`merr`) gathered so far. The answer is `none` when
a call of `cardDiff2SlackAttachment` panics. -/
def diffsLoop (parse : String → Option (List Node))
    (generateMarkdownDiff : String → String → String) (opts : DiffConvOpts) :
    List Diff → List SlackAttachment → List Err → TemplateCache →
      Option (List SlackAttachment × List Err) × TemplateCache
  | [], attachments, merr, cache => (some (attachments, merr), cache)
  | d :: rest, attachments, merr, cache =>
    if d.BlockType = .TypeCard then
      match cardDiff2SlackAttachment parse generateMarkdownDiff d opts cache with
      | (.panic, cache1) => (none, cache1)
      | (.err e, cache1) =>
        diffsLoop parse generateMarkdownDiff opts rest attachments (merr ++ [e]) cache1
      | (.ok none, cache1) =>
        diffsLoop parse generateMarkdownDiff opts rest attachments merr cache1
      | (.ok (some a), cache1) =>
        diffsLoop parse generateMarkdownDiff opts rest (attachments ++ [a]) merr cache1
    else diffsLoop parse generateMarkdownDiff opts rest attachments merr cache

/-- The function `Diffs2SlackAttachments`: the attachments and the errors
gathered in `merr`, whose `ErrorOrNil` is nil exactly when the list is empty;
`none` when the call panics. -/
def Diffs2SlackAttachments (parse : String → Option (List Node))
    (generateMarkdownDiff : String → String → String) (diffs : List Diff) (opts : DiffConvOpts)
    (cache : TemplateCache) : Option (List SlackAttachment × List Err) × TemplateCache :=
  diffsLoop parse generateMarkdownDiff opts diffs [] [] cache

/-! ## Mention messages

The file `server/services/notify/plugindelivery/message.go`. -/

/-- The template of the message for a mention in a comment. -/
def defCommentTemplate : String :=
  "@%s님이 @%s님을 카드 [%s](%s) 댓글에서 언급했습니다 (보드: [%s](%s))\n> %s"

/-- The template of the message for a mention in a description. -/
def defDescriptionTemplate : String :=
  "@%s님이 @%s님을 카드 [%s](%s)에서 언급했습니다 (보드: [%s](%s))\n> %s"

/-- The characters of `fmt.Sprintf(format, args...)` for string arguments and a
format whose only verbs are `%s`: each verb takes the next argument, and a verb
without an argument prints `%!s(MISSING)`. -/
def sprintfArgsChars : List Char → List String → List Char
  | [], _ => []
  | [c], _ => [c]
  | c :: d :: rest, args =>
    if c = '%' ∧ d = 's' then
      match args with
      | a :: args2 => a.data ++ sprintfArgsChars rest args2
      | [] => "%!s(MISSING)".data ++ sprintfArgsChars rest []
    else c :: sprintfArgsChars (d :: rest) args

/-- The call `fmt.Sprintf(format, args...)` with string arguments. -/
def sprintfArgs (format : String) (args : List String) : String :=
  ⟨sprintfArgsChars format.data args⟩

/-- The function `formatMessage`. It reads `block.Type` without a nil check;
`none` is the panic on a nil block. -/
def formatMessage (author mentionedUser extract card link : String) (block : Option Block)
    (boardLink board : String) : Option String :=
  match block with
  | none => none
  | some b =>
    let template := if b.BlockType = .TypeComment then defCommentTemplate else defDescriptionTemplate
    some (sprintfArgs template [author, mentionedUser, card, link, board, boardLink, extract])

/-! ## BlockSuite documents

The files `server/model/blocksuite_doc.go` and
`server/services/store/sqlstore/blocksuite.go`. Bytes are natural numbers; a
byte slice is `none` when it is nil. -/

/-- The error type `ErrInvalidBlockSuiteDoc`. -/
structure ErrInvalidBlockSuiteDoc where
  msg : String
deriving DecidableEq, Repr

/-- The function `NewErrInvalidBlockSuiteDoc`. -/
def NewErrInvalidBlockSuiteDoc (msg : String) : ErrInvalidBlockSuiteDoc := { msg := msg }

/-- The method `ErrInvalidBlockSuiteDoc.Error`. -/
def ErrInvalidBlockSuiteDoc.Error (e : ErrInvalidBlockSuiteDoc) : String :=
  "invalid blocksuite document: " ++ e.msg

/-- The type `BlockSuiteDoc`. -/
structure BlockSuiteDoc where
  DocID : String
  CardID : String
  BoardID : String
  Snapshot : Option (List Nat)
  CreatedAt : Int
  UpdatedAt : Int
  CreatedBy : String
  UpdatedBy : String
deriving DecidableEq, Repr

/-- The method `BlockSuiteDoc.IsValid`; `none` is the nil error. -/
def BlockSuiteDoc.IsValid (d : BlockSuiteDoc) : Option ErrInvalidBlockSuiteDoc :=
  if d.DocID = "" then some (NewErrInvalidBlockSuiteDoc "doc_id cannot be empty")
  else if d.CardID = "" then some (NewErrInvalidBlockSuiteDoc "card_id cannot be empty")
  else if d.BoardID = "" then some (NewErrInvalidBlockSuiteDoc "board_id cannot be empty")
  else if d.Snapshot = none then some (NewErrInvalidBlockSuiteDoc "snapshot cannot be nil")
  else none

/-- The type `BlockSuiteDocPatch`: three pointers that may be nil. The snapshot
pointer points to a byte slice, which may itself be nil. -/
structure BlockSuiteDocPatch where
  Snapshot : Option (Option (List Nat))
  UpdatedAt : Option Int
  UpdatedBy : Option String
deriving DecidableEq, Repr

/-- The method `BlockSuiteDoc.Patch`: the document after the call. -/
def BlockSuiteDoc.Patch (d : BlockSuiteDoc) (patch : BlockSuiteDocPatch) : BlockSuiteDoc :=
  let d1 : BlockSuiteDoc :=
    match patch.Snapshot with
    | some snapshot => { d with Snapshot := snapshot }
    | none => d
  let d2 : BlockSuiteDoc :=
    match patch.UpdatedAt with
    | some updatedAt => { d1 with UpdatedAt := updatedAt }
    | none => d1
  match patch.UpdatedBy with
  | some updatedBy => { d2 with UpdatedBy := updatedBy }
  | none => d2

/-- Modelled from the spec: the database types of `model` are declared outside
the sources at hand; the store names three of them. -/
inductive DBType where
  | PostgresDBType
  | MysqlDBType
  | SqliteDBType
  | other (name : String)
deriving DecidableEq, Repr

/-- A query that `UpsertBlockSuiteDoc` issues. -/
inductive Query where
  /-- The query whether a block of type card with this identifier exists. -/
  | cardExists (cardID : String)
  /-- The insert with the upsert clause of the database type. -/
  | upsert (dbType : DBType) (doc : BlockSuiteDoc)
deriving DecidableEq, Repr

/-- The errors that `UpsertBlockSuiteDoc` returns. -/
inductive UpsertErr where
  /-- The error of `IsValid`. -/
  | invalid (e : ErrInvalidBlockSuiteDoc)
  /-- The error `card not found: <id>`. -/
  | cardNotFound (cardID : String)
  /-- The error `unsupported database type: <type>`. -/
  | unsupportedDB (dbType : DBType)
  /-- An error of the database driver. -/
  | driver (msg : String)
deriving DecidableEq, Repr

/-- The database as the store sees it: the answer to the card query (a row, no
row, or an error) and to the execution of the upsert (nil or an error). -/
structure Database where
  cardExists : String → Except String Bool
  exec : DBType → BlockSuiteDoc → Option String

/-- The method `SQLStore.UpsertBlockSuiteDoc`: the error (`none` for nil) and
the queries issued, in order. -/
def UpsertBlockSuiteDoc (db : Database) (dbType : DBType) (doc : BlockSuiteDoc) :
    Option UpsertErr × List Query :=
  match doc.IsValid with
  | some err => (some (.invalid err), [])
  | none =>
    match db.cardExists doc.CardID with
    | .ok false => (some (.cardNotFound doc.CardID), [.cardExists doc.CardID])
    | .error msg => (some (.driver msg), [.cardExists doc.CardID])
    | .ok true =>
      match dbType with
      | .other _ => (some (.unsupportedDB dbType), [.cardExists doc.CardID])
      | _ =>
        match db.exec dbType doc with
        | some msg => (some (.driver msg), [.cardExists doc.CardID, .upsert dbType doc])
        | none => (none, [.cardExists doc.CardID, .upsert dbType doc])

/-! ## Specification-side definitions -/

/-- The four states of the attachment builder. -/
inductive CardState where
  | SKIP
  | ADDED
  | DELETED
  | MODIFIED
deriving DecidableEq, Repr

/-- The transition rule as the specification words it: both blocks null is
`SKIP`; else new present and old null is `ADDED`; else (new null or new
deleted) and old present is `DELETED`; else `MODIFIED`. -/
def transitionRule (d : Diff) : CardState :=
  match d.NewBlock, d.OldBlock with
  | none, none => .SKIP
  | some _, none => .ADDED
  | none, some _ => .DELETED
  | some newBlock, some _ => if newBlock.DeleteAt ≠ 0 then .DELETED else .MODIFIED

/-- What the specification says of the `ADDED` and `DELETED` states: render the
template of the state, use the text as pretext and fallback, set the title
link, leave the field list empty, and return the attachment. -/
def renderNotice (parse : String → Option (List Node)) (name defn : String) (d : Diff)
    (opts : DiffConvOpts) (cache : TemplateCache) :
    Outcome (Option SlackAttachment) × TemplateCache :=
  match execTemplate parse name opts defn d cache with
  | (.error e, cache1) => (.err e, cache1)
  | (.ok pretext, cache1) =>
    match titleLink opts d with
    | none => (.panic, cache1)
    | some link =>
      (.ok (some { Pretext := pretext, Fallback := pretext, TitleLink := link, Fields := [] }),
        cache1)

/-- What the specification says of the `MODIFIED` state: render the modify-card
template, set the title link, run the field generators, and discard the
attachment when no field results. -/
def renderModified (parse : String → Option (List Node))
    (generateMarkdownDiff : String → String → String) (d : Diff)
    (opts : DiffConvOpts) (cache : TemplateCache) :
    Outcome (Option SlackAttachment) × TemplateCache :=
  match execTemplate parse "ModifyCardNotify" opts defModifyCardNotify d cache with
  | (.error e, cache1) =>
    (.err (.cannotWrite (match d.NewBlock with | some b => b.ID | none => "") e), cache1)
  | (.ok pretext, cache1) =>
    match titleLink opts d with
    | none => (.panic, cache1)
    | some link =>
      match modifiedFields generateMarkdownDiff d with
      | none => (.panic, cache1)
      | some [] => (.ok none, cache1)
      | some (f :: fs) =>
        (.ok (some { Pretext := pretext, Fallback := pretext, TitleLink := link,
                     Fields := f :: fs }), cache1)

/-- Cache invariant: the link builder bound into every cached template answers
on every block that is present. It holds of the empty cache and `getTemplate`
keeps it. -/
def CacheWF (cache : TemplateCache) : Prop :=
  ∀ key t, cache.lookup key = some t →
    ∀ (b : Block) (board : Board) (card : Block), (t.makeCardLink (some b) board card).isSome = true

/-- Cache condition: every cached template was compiled with a link builder
that the caller supplied, so that the bound builder answers on a nil block
too. It holds of the empty cache. -/
def CacheSupplied (cache : TemplateCache) : Prop :=
  ∀ key t, cache.lookup key = some t →
    ∀ (b : Option Block) (board : Board) (card : Block), (t.makeCardLink b board card).isSome = true

/-- The names and parse trees of the three notification templates. -/
def notifyTemplates : List (String × List Node) :=
  [("AddCardNotify", addCardTree), ("ModifyCardNotify", modifyCardTree),
   ("DeleteCardNotify", deleteCardTree)]

/-- Cache condition: what is cached under the key of a notification template
was compiled from the source of that template. It holds of the empty cache and
`cardDiff2SlackAttachment` keeps it. -/
def CacheFromDefaults (cache : TemplateCache) : Prop :=
  ∀ name tree, (name, tree) ∈ notifyTemplates →
    ∀ lang t, cache.lookup (name ++ "&" ++ lang) = some t → t.tree = tree

/-- Whether a child diff is of block type comment. -/
def isCommentChild (c : Diff) : Bool := decide (c.BlockType = .TypeComment)

/-- A diff with its comment children removed; everything else is kept. -/
def Diff.withoutComments (d : Diff) : Diff :=
  { d with Diffs := d.Diffs.filter (fun c => !isCommentChild c) }

/-- The field of one property diff as the amended specification words it: none
when the value did not change; otherwise the property name with the new value
alone when the old value is empty, and else the normalized new value, two
spaces and the normalized old value struck through. -/
def propertyField (p : PropDiff) : Option SlackAttachmentField :=
  if p.NewValue = p.OldValue then none
  else if p.OldValue = "" then some { Title := p.Name, Value := p.NewValue, Short := false }
  else
    some { Title := p.Name
           Value := stripNewlines p.NewValue ++ "  ~~`" ++ stripNewlines p.OldValue ++ "`~~"
           Short := false }

/-- The pair (old text, new text) of a child diff as the specification words
it for the block types that are diffed as text: for an addition the raw titles
(the old one empty); otherwise both normalized, the new one empty for a
deletion. -/
def specTexts (child : Diff) : String × String :=
  let oldRaw : String := match child.OldBlock with | some b => b.Title | none => ""
  let newRaw : String := match child.NewBlock with | some b => b.Title | none => ""
  match child.OldBlock, child.NewBlock with
  | none, some _ => ("", newRaw)
  | _, _ =>
    if nilOrDeleted child.NewBlock then (stripNewlines oldRaw, "")
    else (stripNewlines oldRaw, stripNewlines newRaw)

/-- The author list as the specification words it: `@` and the trimmed
identifier for each author in display order, separated by a comma and a
space. -/
def authorsListSpec : List String → String
  | [] => ""
  | [v] => "@" ++ trimSpace v
  | v :: w :: rest => "@" ++ trimSpace v ++ ", " ++ authorsListSpec (w :: rest)

/-- The cache key of a pair (name, language). -/
def cacheKey (name language : String) : String := name ++ "&" ++ language

/-- The outcomes of `cardDiff2SlackAttachment` for the card diffs of a batch,
in input order, each call on the cache that the calls before it left. -/
def cardOutcomes (parse : String → Option (List Node))
    (generateMarkdownDiff : String → String → String) (opts : DiffConvOpts) :
    List Diff → TemplateCache → List (Outcome (Option SlackAttachment))
  | [], _ => []
  | d :: rest, cache =>
    if d.BlockType = .TypeCard then
      (cardDiff2SlackAttachment parse generateMarkdownDiff d opts cache).1 ::
        cardOutcomes parse generateMarkdownDiff opts rest
          (cardDiff2SlackAttachment parse generateMarkdownDiff d opts cache).2
    else cardOutcomes parse generateMarkdownDiff opts rest cache

/-- The attachment of an outcome, if it has one. -/
def Outcome.attachment? : Outcome (Option SlackAttachment) → Option SlackAttachment
  | .ok (some a) => some a
  | _ => none

/-- The error of an outcome, if it is one. -/
def Outcome.error? : Outcome (Option SlackAttachment) → Option Err
  | .err e => some e
  | _ => none

/-- Whether an outcome is a panic. -/
def Outcome.isPanic : Outcome (Option SlackAttachment) → Bool
  | .panic => true
  | _ => false

/-! ## Example inputs -/

/-- A board. -/
def exBoard : Board := { ID := "b1", Title := "Roadmap" }

/-- A live card. -/
def exCard : Block := { ID := "c1", Title := "Fix bug", DeleteAt := 0 }

/-- A library parser that knows no further template. -/
def exParse : String → Option (List Node) := fun _ => none

/-- A text diff that shows the old text struck through before the new text and
reports no difference for equal texts. -/
def exMarkdownDiff (oldText newText : String) : String :=
  if oldText = newText then "" else "~~" ++ oldText ++ "~~ " ++ newText

/-- Options with a card link builder. -/
def exOpts : DiffConvOpts :=
  { Language := "en"
    MakeCardLink := some (fun _ _ card => "https://boards.example/" ++ card.ID)
    MakeBoardLink := none }

/-- Options whose card link builder answers the empty string. -/
def exOptsEmptyLink : DiffConvOpts :=
  { Language := "en", MakeCardLink := some (fun _ _ _ => ""), MakeBoardLink := none }

/-- Options without link builders. -/
def exOptsNoLinks : DiffConvOpts :=
  { Language := "en", MakeCardLink := none, MakeBoardLink := none }

/-- A diff of a newly added card. -/
def exAddedDiff : Diff :=
  { Board := exBoard, Card := exCard, Authors := [("u1", "alice")], BlockType := .TypeCard
    OldBlock := none, NewBlock := some exCard, PropDiffs := [], Diffs := [] }

/-- A diff of a removed card: the new block is null. -/
def exDeletedDiff : Diff :=
  { Board := exBoard, Card := exCard, Authors := [], BlockType := .TypeCard
    OldBlock := some exCard, NewBlock := none, PropDiffs := [], Diffs := [] }

/-- A child diff: a comment that was added. -/
def exCommentChild : Diff :=
  { Board := exBoard, Card := exCard, Authors := [("u2", "bob")], BlockType := .TypeComment
    OldBlock := none, NewBlock := some { ID := "k1", Title := "looks good", DeleteAt := 0 }
    PropDiffs := [], Diffs := [] }

/-- A child diff: a divider that was removed. -/
def exDividerChild : Diff :=
  { Board := exBoard, Card := exCard, Authors := [], BlockType := .TypeDivider
    OldBlock := some { ID := "k2", Title := "", DeleteAt := 0 }, NewBlock := none
    PropDiffs := [], Diffs := [] }

/-- A child diff: a text block whose text was edited. -/
def exTextChild : Diff :=
  { Board := exBoard, Card := exCard, Authors := [], BlockType := .TypeText
    OldBlock := some { ID := "k3", Title := "first\ndraft", DeleteAt := 0 }
    NewBlock := some { ID := "k3", Title := "final", DeleteAt := 0 }
    PropDiffs := [], Diffs := [] }

/-- A child diff: an image whose old caption mentions a user. -/
def exImageChild : Diff :=
  { Board := exBoard, Card := exCard, Authors := [], BlockType := .TypeImage
    OldBlock := some { ID := "k4", Title := "photo by @bob", DeleteAt := 0 }
    NewBlock := some { ID := "k4", Title := "photo", DeleteAt := 0 }
    PropDiffs := [], Diffs := [] }

/-- A card diff in which nothing reportable changed: same title, a property
with equal values, and a comment and a divider as children. -/
def exUnchangedDiff : Diff :=
  { Board := exBoard, Card := exCard, Authors := [], BlockType := .TypeCard
    OldBlock := some exCard, NewBlock := some exCard
    PropDiffs := [{ Name := "Status", OldValue := "A", NewValue := "A" }]
    Diffs := [exCommentChild, exDividerChild] }

/-- A card diff with a new title, a changed property, a comment and an edited
text block. -/
def exModifiedDiff : Diff :=
  { Board := exBoard, Card := exCard, Authors := [("u1", "alice")], BlockType := .TypeCard
    OldBlock := some { ID := "c1", Title := "T1", DeleteAt := 0 }
    NewBlock := some { ID := "c1", Title := "T2", DeleteAt := 0 }
    PropDiffs := [{ Name := "Status", OldValue := "A", NewValue := "B" }]
    Diffs := [exCommentChild, exTextChild] }

/-- A card diff whose only property diff has a new value with a newline. -/
def exNewlinePropDiff : Diff :=
  { Board := exBoard, Card := exCard, Authors := [], BlockType := .TypeCard
    OldBlock := some exCard, NewBlock := some exCard
    PropDiffs := [{ Name := "Status", OldValue := "A", NewValue := "B\nC" }]
    Diffs := [] }

/-- A child diff: an attachment that was renamed; both blocks are present and
the new block is not deleted. -/
def exRenamedAttachmentChild : Diff :=
  { Board := exBoard, Card := exCard, Authors := [("u1", "alice")], BlockType := .TypeAttachment
    OldBlock := some { ID := "f1", Title := "draft.pdf", DeleteAt := 0 }
    NewBlock := some { ID := "f1", Title := "final.pdf", DeleteAt := 0 }
    PropDiffs := [], Diffs := [] }

/-- A child diff of type attachment with both blocks null. -/
def exNullAttachmentChild : Diff :=
  { Board := exBoard, Card := exCard, Authors := [], BlockType := .TypeAttachment
    OldBlock := none, NewBlock := none, PropDiffs := [], Diffs := [] }

/-- A child diff of type image with both blocks null. -/
def exNullImageChild : Diff :=
  { Board := exBoard, Card := exCard, Authors := [], BlockType := .TypeImage
    OldBlock := none, NewBlock := none, PropDiffs := [], Diffs := [] }

/-- A child diff of type text with both blocks null. -/
def exNullTextChild : Diff :=
  { Board := exBoard, Card := exCard, Authors := [], BlockType := .TypeText
    OldBlock := none, NewBlock := none, PropDiffs := [], Diffs := [] }

/-- A diff of a board, not of a card. -/
def exBoardDiff : Diff :=
  { Board := exBoard, Card := exCard, Authors := [], BlockType := .other "board"
    OldBlock := none, NewBlock := some exCard, PropDiffs := [], Diffs := [] }

/-- Options for another language, with the card link builder of `exOpts`. -/
def exOptsKo : DiffConvOpts :=
  { Language := "ko", MakeCardLink := exOpts.MakeCardLink, MakeBoardLink := none }

/-- A template source that does not parse: its action is not closed. -/
def exBadSource : String := "\x7b\x7b.Card.Title"

/-- The add-card template as `getTemplate` compiles it for `exOpts`. -/
def exAddTemplate : Template :=
  { name := "AddCardNotify&en"
    tree := addCardTree
    makeCardLink := fun _ _ card => some ("https://boards.example/" ++ card.ID)
    makeBoardLink := defaultMakeBoardLink }

/-- Options with the language `ko&v2`. -/
def exOptsKoV2 : DiffConvOpts :=
  { Language := "ko&v2", MakeCardLink := exOpts.MakeCardLink, MakeBoardLink := none }

/-- Options with the language `v2`. -/
def exOptsV2 : DiffConvOpts :=
  { Language := "v2", MakeCardLink := exOpts.MakeCardLink, MakeBoardLink := none }

/-- A diff of a newly added card whose new block has another title than the
card that the diff refers to. -/
def exAddedOtherTitleDiff : Diff :=
  { Board := exBoard, Card := exCard, Authors := [("u1", "alice")], BlockType := .TypeCard
    OldBlock := none, NewBlock := some { ID := "c1", Title := "Renamed", DeleteAt := 0 }
    PropDiffs := [], Diffs := [] }

/-- A child diff: an attachment that was added. -/
def exNewAttachmentChild : Diff :=
  { Board := exBoard, Card := exCard, Authors := [("u1", "alice")], BlockType := .TypeAttachment
    OldBlock := none, NewBlock := some { ID := "f2", Title := "spec.pdf", DeleteAt := 0 }
    PropDiffs := [], Diffs := [] }

/-- A card diff whose only change is the added attachment. -/
def exAttachmentAddedDiff : Diff :=
  { Board := exBoard, Card := exCard, Authors := [("u1", "alice")], BlockType := .TypeCard
    OldBlock := some exCard, NewBlock := some exCard
    PropDiffs := [], Diffs := [exNewAttachmentChild] }

/-! ## Auxiliary lemmas -/

/-! ### Mentions survive normalization -/

theorem isMentionChar_toNat (c : Char) (h : isMentionChar c = true) :
    45 ≤ c.toNat ∧ c.toNat ≤ 122 := by
  simp only [isMentionChar, Bool.or_eq_true, Bool.and_eq_true, decide_eq_true_eq] at h
  have e1 : ('a' : Char).toNat = 97 := rfl
  have e2 : ('z' : Char).toNat = 122 := rfl
  have e3 : ('A' : Char).toNat = 65 := rfl
  have e4 : ('Z' : Char).toNat = 90 := rfl
  have e5 : ('0' : Char).toNat = 48 := rfl
  have e6 : ('9' : Char).toNat = 57 := rfl
  have hle : ∀ a b : Char, a ≤ b → a.toNat ≤ b.toNat := fun a b hab => hab
  rcases h with (((⟨h1, h2⟩ | ⟨h1, h2⟩) | ⟨h1, h2⟩) | h) | h
  · have := hle _ _ h1; have := hle _ _ h2; omega
  · have := hle _ _ h1; have := hle _ _ h2; omega
  · have := hle _ _ h1; have := hle _ _ h2; omega
  · subst h; decide
  · subst h; decide

theorem isSpace_toNat (c : Char) (h : isSpace c = true) : c.toNat ≤ 32 ∨ 133 ≤ c.toNat := by
  simp only [isSpace, Bool.or_eq_true, Bool.and_eq_true, decide_eq_true_eq] at h
  rcases h with (((((((((((((h | h) | h) | h) | h) | h) | h) | h) | h) | h) | h) | h) | h) | h) | h
  all_goals first
    | (subst h; decide)
    | omega

theorem isMentionChar_not_isSpace (c : Char) (h : isMentionChar c = true) : isSpace c = false := by
  cases hs : isSpace c with
  | false => rfl
  | true =>
    have h1 := isMentionChar_toNat c h
    have h2 := isSpace_toNat c hs
    omega



/-- The check of the character that follows an `@`. -/
theorem mentionMatchChars_cons (c : Char) (cs : List Char) :
    mentionMatchChars (c :: cs) =
      ((c = '@' && (match cs with | [] => false | d :: _ => isMentionChar d))
        || mentionMatchChars cs) := rfl

theorem mentionMatchChars_replace (cs : List Char) (h : mentionMatchChars cs = true) :
    mentionMatchChars (replaceNewlinesChars cs) = true := by
  induction cs with
  | nil => simp [mentionMatchChars] at h
  | cons c rest ih =>
    rw [mentionMatchChars_cons] at h
    by_cases hc : c = '\n'
    · subst hc
      have hr : mentionMatchChars rest = true := by simpa using h
      simp only [replaceNewlinesChars, if_true, mentionMatchChars_cons, ih hr, Bool.or_true]
    · simp only [replaceNewlinesChars, hc, if_false, mentionMatchChars_cons]
      rcases Bool.or_eq_true _ _ ▸ h with h1 | h1
      · simp only [Bool.and_eq_true, decide_eq_true_eq] at h1
        obtain ⟨hat, hd⟩ := h1
        cases rest with
        | nil => simp at hd
        | cons d rest2 =>
          have hdn : d ≠ '\n' := by
            intro hdn
            subst hdn
            simp [isMentionChar] at hd
          simp only [replaceNewlinesChars, hdn, if_false, hat, decide_True, Bool.true_and]
          simp only at hd
          simp [hd]
      · simp [ih h1]

theorem mentionMatchChars_dropWhile (cs : List Char) (h : mentionMatchChars cs = true) :
    mentionMatchChars (cs.dropWhile isSpace) = true := by
  induction cs with
  | nil => simp [mentionMatchChars] at h
  | cons c rest ih =>
    by_cases hc : isSpace c = true
    · have hne : c ≠ '@' := by
        intro hat
        subst hat
        simp [isSpace] at hc
      rw [mentionMatchChars_cons] at h
      have hr : mentionMatchChars rest = true := by simpa [hne] using h
      simp only [List.dropWhile_cons, hc, if_true]
      exact ih hr
    · simp only [List.dropWhile_cons, hc, if_false, Bool.false_eq_true]
      exact h

theorem mentionMatchChars_concat_space (cs : List Char) (x : Char) (hx : isSpace x = true) :
    mentionMatchChars (cs ++ [x]) = mentionMatchChars cs := by
  have hxm : isMentionChar x = false := by
    cases hm : isMentionChar x with
    | false => rfl
    | true => rw [isMentionChar_not_isSpace x hm] at hx; exact absurd hx (by simp)
  induction cs with
  | nil => simp [mentionMatchChars]
  | cons c rest ih =>
    rw [List.cons_append, mentionMatchChars_cons, mentionMatchChars_cons, ih]
    cases rest with
    | nil => simp [hxm]
    | cons d rest2 => simp

theorem mentionMatchChars_rdropWhile (cs : List Char) (h : mentionMatchChars cs = true) :
    mentionMatchChars ((cs.reverse.dropWhile isSpace).reverse) = true := by
  induction cs using List.reverseRecOn with
  | nil => simp [mentionMatchChars] at h
  | append_singleton l x ih =>
    by_cases hx : isSpace x = true
    · rw [mentionMatchChars_concat_space l x hx] at h
      simpa [List.reverse_append, List.dropWhile_cons, hx] using ih h
    · simpa [List.reverse_append, List.dropWhile_cons, hx] using h

theorem mentionMatchChars_trimSpace (cs : List Char) (h : mentionMatchChars cs = true) :
    mentionMatchChars (trimSpaceChars cs) = true :=
  mentionMatchChars_rdropWhile _ (mentionMatchChars_dropWhile cs h)

theorem mention_stripNewlines (s : String) (h : mentionPatternMatchString s = true) :
    mentionPatternMatchString (stripNewlines s) = true :=
  mentionMatchChars_trimSpace _ (mentionMatchChars_replace _ h)

/-! ### Newlines do not survive normalization -/

theorem not_mem_replaceNewlinesChars (cs : List Char) : '\n' ∉ replaceNewlinesChars cs := by
  induction cs with
  | nil => simp [replaceNewlinesChars]
  | cons c rest ih =>
    by_cases hc : c = '\n'
    · simp only [replaceNewlinesChars, hc, if_true, List.mem_cons, not_or]
      exact ⟨by decide, by decide, ih⟩
    · simp only [replaceNewlinesChars, hc, if_false, List.mem_cons, not_or]
      exact ⟨fun h => hc h.symm, ih⟩

theorem mem_trimSpaceChars (c : Char) (cs : List Char) (h : c ∈ trimSpaceChars cs) : c ∈ cs := by
  unfold trimSpaceChars at h
  rw [List.mem_reverse] at h
  have h1 := (List.dropWhile_sublist isSpace).subset h
  rw [List.mem_reverse] at h1
  exact (List.dropWhile_sublist isSpace).subset h1

theorem not_mem_stripNewlines (s : String) : '\n' ∉ (stripNewlines s).data := by
  intro h
  exact not_mem_replaceNewlinesChars s.data (mem_trimSpaceChars _ _ h)

/-! ### The transition rule -/

theorem transitionRule_skip_iff (d : Diff) :
    transitionRule d = .SKIP ↔ d.NewBlock = none ∧ d.OldBlock = none := by
  unfold transitionRule
  cases hn : d.NewBlock <;> cases ho : d.OldBlock <;> simp
  split <;> simp

theorem transitionRule_added_iff (d : Diff) :
    transitionRule d = .ADDED ↔ d.NewBlock ≠ none ∧ d.OldBlock = none := by
  unfold transitionRule
  cases hn : d.NewBlock <;> cases ho : d.OldBlock <;> simp
  split <;> simp

theorem transitionRule_deleted_iff (d : Diff) :
    transitionRule d = .DELETED ↔
      (d.NewBlock = none ∨ ∃ b, d.NewBlock = some b ∧ b.DeleteAt ≠ 0) ∧ d.OldBlock ≠ none := by
  unfold transitionRule
  cases hn : d.NewBlock <;> cases ho : d.OldBlock <;> simp

theorem transitionRule_modified_iff (d : Diff) :
    transitionRule d = .MODIFIED ↔
      ∃ nb ob, d.NewBlock = some nb ∧ d.OldBlock = some ob ∧ nb.DeleteAt = 0 := by
  unfold transitionRule
  cases hn : d.NewBlock <;> cases ho : d.OldBlock <;> simp

theorem cardDiff2SlackAttachment_added (parse : String → Option (List Node))
    (gen : String → String → String) (d : Diff) (opts : DiffConvOpts) (cache : TemplateCache)
    (hnew : d.NewBlock ≠ none) (hold : d.OldBlock = none) :
    cardDiff2SlackAttachment parse gen d opts cache =
      renderNotice parse "AddCardNotify" defAddCardNotify d opts cache := by
  obtain ⟨nb, hnb⟩ := Option.ne_none_iff_exists'.mp hnew
  unfold cardDiff2SlackAttachment renderNotice
  simp [hnb, hold]

theorem cardDiff2SlackAttachment_deleted (parse : String → Option (List Node))
    (gen : String → String → String) (d : Diff) (opts : DiffConvOpts) (cache : TemplateCache)
    (hnew : d.NewBlock = none ∨ ∃ b, d.NewBlock = some b ∧ b.DeleteAt ≠ 0)
    (hold : d.OldBlock ≠ none) :
    cardDiff2SlackAttachment parse gen d opts cache =
      renderNotice parse "DeleteCardNotify" defDeleteCardNotify d opts cache := by
  obtain ⟨ob, hob⟩ := Option.ne_none_iff_exists'.mp hold
  unfold cardDiff2SlackAttachment renderNotice
  rcases hnew with hn | ⟨b, hb, hdel⟩
  · simp [hn, hob, nilOrDeleted]
  · simp [hb, hob, nilOrDeleted, hdel]

theorem cardDiff2SlackAttachment_modified (parse : String → Option (List Node))
    (gen : String → String → String) (d : Diff) (opts : DiffConvOpts) (cache : TemplateCache)
    (nb ob : Block) (hnew : d.NewBlock = some nb) (hold : d.OldBlock = some ob)
    (hlive : nb.DeleteAt = 0) :
    cardDiff2SlackAttachment parse gen d opts cache = renderModified parse gen d opts cache := by
  unfold cardDiff2SlackAttachment renderModified
  simp only [hnew, hold, nilOrDeleted, hlive, Option.isNone_some, Option.isSome_some,
    Bool.and_self, Bool.false_eq_true, if_false, ne_eq, not_true_eq_false, decide_False,
    Bool.false_and, Bool.and_false]
  rcases execTemplate parse "ModifyCardNotify" opts defModifyCardNotify d cache with ⟨r, c1⟩
  cases r with
  | error e => rfl
  | ok pretext =>
    cases titleLink opts d with
    | none => rfl
    | some link =>
      cases modifiedFields gen d with
      | none => rfl
      | some fields => cases fields <;> simp

theorem templateParse_add (parse : String → Option (List Node)) :
    templateParse parse defAddCardNotify = some addCardTree := by
  simp [templateParse]

theorem templateParse_modify (parse : String → Option (List Node)) :
    templateParse parse defModifyCardNotify = some modifyCardTree := by
  have h : defModifyCardNotify ≠ defAddCardNotify := by decide
  simp [templateParse, h]

theorem templateParse_delete (parse : String → Option (List Node)) :
    templateParse parse defDeleteCardNotify = some deleteCardTree := by
  have h1 : defDeleteCardNotify ≠ defAddCardNotify := by decide
  have h2 : defDeleteCardNotify ≠ defModifyCardNotify := by decide
  simp [templateParse, h1, h2]

/-- The card link builder that `getTemplate` binds on a cache miss. -/
theorem getTemplate_cases (parse : String → Option (List Node)) (name defn : String)
    (opts : DiffConvOpts) (cache : TemplateCache) (tree : List Node)
    (hparse : templateParse parse defn = some tree) :
    ∃ t cache1, getTemplate parse name opts defn cache = (.ok t, cache1) ∧
      (cache.lookup (name ++ "&" ++ opts.Language) = some t ∨
        (cache.lookup (name ++ "&" ++ opts.Language) = none ∧ t.tree = tree ∧
          t.name = name ++ "&" ++ opts.Language ∧
          t.makeCardLink = (match opts.MakeCardLink with
            | none => defaultMakeCardLink
            | some f => fun block board card => some (f block board card)))) := by
  cases hl : cache.lookup (name ++ "&" ++ opts.Language) with
  | some t => exact ⟨t, cache, by simp [getTemplate, hl]⟩
  | none => simp [getTemplate, hl, hparse]

theorem execNodes_isSome (t : Template) (d : Diff)
    (h : (t.makeCardLink d.NewBlock d.Board d.Card).isSome = true) (tree : List Node) :
    (execNodes t d tree).isSome = true := by
  induction tree with
  | nil => simp [execNodes]
  | cons n rest ih =>
    unfold execNodes
    obtain ⟨r, hr⟩ := Option.isSome_iff_exists.mp ih
    cases n <;> simp [execNode, hr]
    obtain ⟨l, hl⟩ := Option.isSome_iff_exists.mp h
    simp [hl]

theorem string_append_ne_empty_right (a b : String) (hb : b ≠ "") : a ++ b ≠ "" := by
  intro h
  have h2 := congrArg String.data h
  rw [String.data_append] at h2
  have h3 : b.data = [] := by
    have := List.append_eq_nil.mp h2
    exact this.2
  apply hb
  exact String.ext h3

theorem string_append_ne_empty_left (a b : String) (ha : a ≠ "") : a ++ b ≠ "" := by
  intro h
  have h2 := congrArg String.data h
  rw [String.data_append] at h2
  have h3 : a.data = [] := by
    have := List.append_eq_nil.mp h2
    exact this.1
  apply ha
  exact String.ext h3

theorem execNodes_addCardTree_ne_empty (t : Template) (d : Diff) (s : String)
    (h : execNodes t d addCardTree = some s) : s ≠ "" := by
  unfold addCardTree at h
  simp only [execNodes, execNode] at h
  cases hl : t.makeCardLink d.NewBlock d.Board d.Card with
  | none => simp [hl] at h
  | some l =>
    simp only [hl, Option.some.injEq] at h
    rw [← h]
    apply string_append_ne_empty_right
    apply string_append_ne_empty_left
    decide



/-! ### The loops of the field generators -/

theorem appendPropertyChange_eq (fields : List SlackAttachmentField) (p : PropDiff) :
    appendPropertyChange fields p = fields ++ (propertyField p).toList := by
  unfold appendPropertyChange propertyField
  by_cases h1 : p.NewValue = p.OldValue
  · simp [h1]
  · by_cases h2 : p.OldValue = ""
    · have h3 : p.NewValue ≠ "" := fun h => h1 (h.trans h2.symm)
      simp [h2, h3]
    · simp [h1, h2]

theorem foldl_appendPropertyChange (l : List PropDiff) (fields : List SlackAttachmentField) :
    l.foldl appendPropertyChange fields = fields ++ l.filterMap propertyField := by
  induction l generalizing fields with
  | nil => simp
  | cons p rest ih =>
    rw [List.foldl_cons, ih, appendPropertyChange_eq]
    cases h : propertyField p <;> simp [List.filterMap_cons, h]

theorem appendPropertyChanges_eq (fields : List SlackAttachmentField) (d : Diff) :
    appendPropertyChanges fields d = fields ++ d.PropDiffs.filterMap propertyField := by
  unfold appendPropertyChanges
  split
  · rename_i h
    have : d.PropDiffs = [] := List.length_eq_zero.mp h
    simp [this]
  · exact foldl_appendPropertyChange _ _

theorem foldl_appendContentChange (gen : String → String → String) (l : List Diff)
    (fields : List SlackAttachmentField) :
    l.foldl (appendContentChange gen) fields = fields ++ l.filterMap (contentChange gen) := by
  induction l generalizing fields with
  | nil => simp
  | cons c rest ih =>
    rw [List.foldl_cons, ih]
    unfold appendContentChange
    cases h : contentChange gen c <;> simp [List.filterMap_cons, h]

theorem appendContentChanges_eq (gen : String → String → String)
    (fields : List SlackAttachmentField) (d : Diff) :
    appendContentChanges gen fields d = fields ++ d.Diffs.filterMap (contentChange gen) :=
  foldl_appendContentChange gen d.Diffs fields

theorem appendAttachmentChange_append (fields : List SlackAttachmentField) (c : Diff) :
    appendAttachmentChange fields c = (appendAttachmentChange [] c).map (fields ++ ·) := by
  unfold appendAttachmentChange
  split
  · cases c.NewBlock <;> cases c.OldBlock <;> simp
  · simp

theorem foldlM_appendAttachmentChange (l : List Diff) (fields : List SlackAttachmentField) :
    l.foldlM appendAttachmentChange fields =
      (l.foldlM appendAttachmentChange []).map (fields ++ ·) := by
  induction l generalizing fields with
  | nil => simp
  | cons c rest ih =>
    rw [List.foldlM_cons, List.foldlM_cons, appendAttachmentChange_append fields c]
    cases h : appendAttachmentChange [] c with
    | none => simp
    | some fs =>
      simp only [Option.map_some', Option.some_bind, Option.bind_eq_bind]
      rw [ih (fields ++ fs), ih fs]
      cases List.foldlM appendAttachmentChange [] rest <;> simp

theorem appendAttachmentChanges_append (fields : List SlackAttachmentField) (d : Diff) :
    appendAttachmentChanges fields d = (appendAttachmentChanges [] d).map (fields ++ ·) :=
  foldlM_appendAttachmentChange d.Diffs fields

theorem appendTitleChanges_append (fields : List SlackAttachmentField) (d : Diff) :
    appendTitleChanges fields d = (appendTitleChanges [] d).map (fields ++ ·) := by
  unfold appendTitleChanges
  cases d.NewBlock <;> cases d.OldBlock <;> simp
  split <;> simp



/-! ### Rendering the pretext -/

theorem execTemplate_ok_of_isSome (parse : String → Option (List Node)) (name defn : String)
    (opts : DiffConvOpts) (d : Diff) (cache : TemplateCache) (tree : List Node)
    (hparse : templateParse parse defn = some tree)
    (hcached : ∀ t, cache.lookup (name ++ "&" ++ opts.Language) = some t →
      (t.makeCardLink d.NewBlock d.Board d.Card).isSome = true)
    (hbound : opts.MakeCardLink ≠ none ∨ d.NewBlock ≠ none) :
    ∃ pretext cache1, execTemplate parse name opts defn d cache = (.ok pretext, cache1) := by
  obtain ⟨t, cache1, hget, hcase⟩ := getTemplate_cases parse name defn opts cache tree hparse
  have hsome : (t.makeCardLink d.NewBlock d.Board d.Card).isSome = true := by
    rcases hcase with hc | ⟨_, _, _, hlink⟩
    · exact hcached t hc
    · rw [hlink]
      cases hm : opts.MakeCardLink with
      | some f => simp
      | none =>
        rcases hbound with h | h
        · exact absurd hm h
        · obtain ⟨b, hb⟩ := Option.ne_none_iff_exists'.mp h
          simp [hb, defaultMakeCardLink]
  obtain ⟨s, hs⟩ := Option.isSome_iff_exists.mp (execNodes_isSome t d hsome t.tree)
  exact ⟨s, cache1, by simp [execTemplate, hget, Template.Execute, hs]⟩



theorem execTemplate_add_pretext (parse : String → Option (List Node)) (opts : DiffConvOpts)
    (d : Diff) (cache cache1 : TemplateCache) (pretext : String)
    (hcache : CacheFromDefaults cache)
    (h : execTemplate parse "AddCardNotify" opts defAddCardNotify d cache = (.ok pretext, cache1)) :
    pretext ≠ "" := by
  obtain ⟨t, c1, hget, hcase⟩ :=
    getTemplate_cases parse "AddCardNotify" defAddCardNotify opts cache addCardTree
      (templateParse_add parse)
  have htree : t.tree = addCardTree := by
    rcases hcase with hc | ⟨_, ht, _, _⟩
    · exact hcache "AddCardNotify" addCardTree (by simp [notifyTemplates]) opts.Language t hc
    · exact ht
  simp only [execTemplate, hget, Template.Execute, htree] at h
  cases hs : execNodes t d addCardTree with
  | none => simp [hs] at h
  | some s =>
    simp only [hs, Prod.mk.injEq, Except.ok.injEq] at h
    rw [← h.1]
    exact execNodes_addCardTree_ne_empty t d s hs



theorem contentChange_divider_comment (gen : String → String → String) (c : Diff)
    (h : c.BlockType = .TypeComment ∨ c.BlockType = .TypeDivider) : contentChange gen c = none := by
  unfold contentChange contentTitles
  rcases h with h | h <;> simp [h]

theorem appendAttachmentChange_not_attachment (fields : List SlackAttachmentField) (c : Diff)
    (h : c.BlockType ≠ .TypeAttachment) : appendAttachmentChange fields c = some fields := by
  simp [appendAttachmentChange, h]

theorem foldlM_appendAttachmentChange_filter (l : List Diff) (fields : List SlackAttachmentField) :
    (l.filter (fun c => !isCommentChild c)).foldlM appendAttachmentChange fields =
      l.foldlM appendAttachmentChange fields := by
  induction l generalizing fields with
  | nil => simp
  | cons c rest ih =>
    by_cases hc : c.BlockType = .TypeComment
    · have h1 : appendAttachmentChange fields c = some fields :=
        appendAttachmentChange_not_attachment fields c (by simp [hc])
      have h2 : isCommentChild c = true := by simp [isCommentChild, hc]
      rw [List.filter_cons, List.foldlM_cons, h1]
      simp only [h2, Bool.not_true, Bool.false_eq_true, if_false]
      exact ih fields
    · have h2 : isCommentChild c = false := by simp [isCommentChild, hc]
      rw [List.filter_cons]
      simp only [h2, Bool.not_false, if_true, List.foldlM_cons]
      cases appendAttachmentChange fields c with
      | none => rfl
      | some fs => exact ih fs

theorem filterMap_contentChange_filter (gen : String → String → String) (l : List Diff) :
    (l.filter (fun c => !isCommentChild c)).filterMap (contentChange gen) =
      l.filterMap (contentChange gen) := by
  induction l with
  | nil => simp
  | cons c rest ih =>
    by_cases hc : c.BlockType = .TypeComment
    · have h2 : isCommentChild c = true := by simp [isCommentChild, hc]
      rw [List.filter_cons, List.filterMap_cons,
        contentChange_divider_comment gen c (Or.inl hc)]
      simp only [h2, Bool.not_true, Bool.false_eq_true, if_false]
      exact ih
    · have h2 : isCommentChild c = false := by simp [isCommentChild, hc]
      rw [List.filter_cons]
      simp only [h2, Bool.not_false, if_true, List.filterMap_cons]
      rw [ih]

theorem modifiedFields_withoutComments (gen : String → String → String) (d : Diff) :
    modifiedFields gen d.withoutComments = modifiedFields gen d := by
  simp only [modifiedFields, appendTitleChanges, appendPropertyChanges, appendAttachmentChanges,
    appendContentChanges_eq, Diff.withoutComments, foldlM_appendAttachmentChange_filter,
    filterMap_contentChange_filter]

theorem execTemplate_withoutComments (parse : String → Option (List Node)) (name defn : String)
    (opts : DiffConvOpts) (d : Diff) (cache : TemplateCache) :
    execTemplate parse name opts defn d.withoutComments cache =
      execTemplate parse name opts defn d cache := by
  have h : ∀ (t : Template) (tree : List Node),
      execNodes t d.withoutComments tree = execNodes t d tree := by
    intro t tree
    induction tree with
    | nil => rfl
    | cons n rest ih =>
      unfold execNodes
      rw [ih]
      cases n <;> rfl
  unfold execTemplate
  rcases getTemplate parse name opts defn cache with ⟨r, c1⟩
  cases r with
  | error e => rfl
  | ok t => simp [Template.Execute, h]

theorem modifiedFields_eq (gen : String → String → String) (d : Diff)
    (fields : List SlackAttachmentField) (h : modifiedFields gen d = some fields) :
    ∃ titleFields attachmentFields,
      appendTitleChanges [] d = some titleFields ∧
      appendAttachmentChanges [] d = some attachmentFields ∧
      fields = titleFields ++ appendPropertyChanges [] d ++ attachmentFields ++
        appendContentChanges gen [] d := by
  unfold modifiedFields at h
  cases ht : appendTitleChanges [] d with
  | none => simp [ht] at h
  | some tf =>
    simp only [ht] at h
    rw [appendAttachmentChanges_append] at h
    cases hat : appendAttachmentChanges [] d with
    | none => simp [hat] at h
    | some af =>
      simp only [hat, Option.map_some', Option.some.injEq] at h
      refine ⟨tf, af, rfl, rfl, ?_⟩
      rw [← h, appendContentChanges_eq, appendContentChanges_eq, appendPropertyChanges_eq,
        appendPropertyChanges_eq]
      simp

/-! ### The texts of a content child -/

theorem stripNewlines_empty : stripNewlines "" = "" := by decide

theorem contentTitles_text (child : Diff) (h1 : child.BlockType ≠ .TypeDivider)
    (h2 : child.BlockType ≠ .TypeComment) (h3 : child.BlockType ≠ .TypeImage)
    (h4 : child.BlockType ≠ .TypeAttachment) :
    contentTitles child =
      if (specTexts child).1 = (specTexts child).2 then none else some (specTexts child) := by
  have key : ∀ (o n : String), (if n = o then (none : Option (String × String)) else some (o, n)) =
      if o = n then none else some (o, n) := by
    intro o n
    by_cases h : o = n
    · simp [h]
    · have h' : ¬ n = o := fun e => h e.symm
      simp [h, h']
  unfold contentTitles specTexts
  cases hty : child.BlockType
  case TypeDivider => exact absurd hty h1
  case TypeComment => exact absurd hty h2
  case TypeImage => exact absurd hty h3
  case TypeAttachment => exact absurd hty h4
  all_goals
    cases ho : child.OldBlock with
    | none =>
      cases hn : child.NewBlock with
      | none => simp [nilOrDeleted, stripNewlines_empty]
      | some nb => simpa using key "" nb.Title
    | some ob =>
      cases hn : child.NewBlock with
      | none => simpa [nilOrDeleted, stripNewlines_empty] using key (stripNewlines ob.Title) ""
      | some nb =>
        by_cases hd : nb.DeleteAt = 0
        · simpa [nilOrDeleted, hd] using key (stripNewlines ob.Title) (stripNewlines nb.Title)
        · simpa [nilOrDeleted, hd, stripNewlines_empty] using key (stripNewlines ob.Title) ""

theorem contentTitles_image_attachment (child : Diff)
    (h : child.BlockType = .TypeImage ∨ child.BlockType = .TypeAttachment) :
    ∃ newTitle, contentTitles child = some ("", newTitle) ∧
      ∀ nb, child.NewBlock = some nb → nb.Title ≠ "" → newTitle = nb.Title := by
  unfold contentTitles
  rcases h with h | h
  · simp only [h]
    refine ⟨_, rfl, ?_⟩
    intro nb hnb hne
    simp [hnb, hne]
  · simp only [h]
    refine ⟨_, rfl, ?_⟩
    intro nb hnb hne
    simp [hnb, hne]

theorem specTexts_old (child : Diff) (ob : Block) (hob : child.OldBlock = some ob) :
    (specTexts child).1 = stripNewlines ob.Title := by
  unfold specTexts
  simp only [hob]
  split <;> rfl

theorem specTexts_new (child : Diff) (nb : Block) (hnb : child.NewBlock = some nb)
    (h : child.OldBlock = none ∨ nb.DeleteAt = 0) :
    (specTexts child).2 = nb.Title ∨ (specTexts child).2 = stripNewlines nb.Title := by
  unfold specTexts
  cases hob : child.OldBlock with
  | none => left; simp [hnb]
  | some ob =>
    rcases h with h | h
    · rw [hob] at h; exact absurd h (by simp)
    · right; simp [hnb, nilOrDeleted, h]

theorem contentField_mention (gen : String → String → String) (oldTitle newTitle : String)
    (h : mentionPatternMatchString newTitle = true ∨ mentionPatternMatchString oldTitle = true) :
    contentField gen oldTitle newTitle = none := by
  unfold contentField
  by_cases hm : gen oldTitle newTitle = ""
  · simp [hm]
  · rcases h with h | h <;> simp [hm, h]

theorem contentChange_mention (gen : String → String → String) (child : Diff)
    (oldTitle newTitle : String) (hct : contentTitles child = some (oldTitle, newTitle))
    (h : mentionPatternMatchString newTitle = true ∨ mentionPatternMatchString oldTitle = true) :
    contentChange gen child = none := by
  simp only [contentChange, hct]
  exact contentField_mention gen oldTitle newTitle h

theorem contentChange_text_mention (gen : String → String → String) (child : Diff)
    (h1 : child.BlockType ≠ .TypeDivider) (h2 : child.BlockType ≠ .TypeComment)
    (h3 : child.BlockType ≠ .TypeImage) (h4 : child.BlockType ≠ .TypeAttachment)
    (h : mentionPatternMatchString (specTexts child).2 = true ∨
      mentionPatternMatchString (specTexts child).1 = true) :
    contentChange gen child = none := by
  have hct := contentTitles_text child h1 h2 h3 h4
  by_cases heq : (specTexts child).1 = (specTexts child).2
  · rw [if_pos heq] at hct
    simp [contentChange, hct]
  · rw [if_neg heq] at hct
    exact contentChange_mention gen child _ _ hct h

theorem mention_ne_empty (s : String) (h : mentionPatternMatchString s = true) : s ≠ "" := by
  intro he
  subst he
  simp [mentionPatternMatchString, mentionMatchChars] at h

/-! ### The cache conditions are invariants -/

theorem notify_key_name (name name0 : String) (tree tree0 : List Node) (lang lang0 : String)
    (h : (name, tree) ∈ notifyTemplates) (h0 : (name0, tree0) ∈ notifyTemplates)
    (hkey : name ++ "&" ++ lang = name0 ++ "&" ++ lang0) : tree = tree0 := by
  have hd := congrArg String.data hkey
  simp only [String.data_append] at hd
  simp only [notifyTemplates, List.mem_cons, Prod.mk.injEq, List.mem_singleton, List.not_mem_nil,
    or_false] at h h0
  rcases h with ⟨h, ht⟩ | ⟨h, ht⟩ | ⟨h, ht⟩ <;> rcases h0 with ⟨h0, ht0⟩ | ⟨h0, ht0⟩ | ⟨h0, ht0⟩ <;>
    subst h h0 ht ht0 <;> first | rfl | (exfalso; revert hd; simp)

theorem cacheFromDefaults_nil : CacheFromDefaults [] := by
  intro name tree _ lang t h
  simp at h

theorem getTemplate_cacheFromDefaults (parse : String → Option (List Node)) (name defn : String)
    (tree : List Node) (opts : DiffConvOpts) (cache : TemplateCache)
    (hname : (name, tree) ∈ notifyTemplates) (hparse : templateParse parse defn = some tree)
    (h : CacheFromDefaults cache) :
    CacheFromDefaults (getTemplate parse name opts defn cache).2 := by
  unfold getTemplate
  cases hl : cache.lookup (name ++ "&" ++ opts.Language) with
  | some t => simpa [hl] using h
  | none =>
    simp only [hl, hparse]
    intro name1 tree1 hname1 lang t ht
    rw [List.lookup_cons] at ht
    split at ht
    · rename_i heq
      simp only [Option.some.injEq] at ht
      subst ht
      have hkey : name1 ++ "&" ++ lang = name ++ "&" ++ opts.Language := by simpa using heq
      exact (notify_key_name name1 name tree1 tree lang opts.Language hname1 hname hkey).symm
    · exact h name1 tree1 hname1 lang t ht

theorem cacheWF_nil : CacheWF [] := by
  intro key t h
  simp at h

theorem cacheSupplied_nil : CacheSupplied [] := by
  intro key t h
  simp at h

theorem getTemplate_cacheWF (parse : String → Option (List Node)) (name defn : String)
    (opts : DiffConvOpts) (cache : TemplateCache) (h : CacheWF cache) :
    CacheWF (getTemplate parse name opts defn cache).2 := by
  unfold getTemplate
  cases hl : cache.lookup (name ++ "&" ++ opts.Language) with
  | some t => simpa [hl] using h
  | none =>
    cases hp : templateParse parse defn with
    | none => simpa [hl, hp] using h
    | some tree =>
      simp only [hl, hp]
      intro key t ht b board card
      rw [List.lookup_cons] at ht
      split at ht
      · simp only [Option.some.injEq] at ht
        subst ht
        cases opts.MakeCardLink <;> simp [defaultMakeCardLink]
      · exact h key t ht b board card

theorem getTemplate_cacheSupplied (parse : String → Option (List Node)) (name defn : String)
    (opts : DiffConvOpts) (cache : TemplateCache) (hlink : opts.MakeCardLink ≠ none)
    (h : CacheSupplied cache) :
    CacheSupplied (getTemplate parse name opts defn cache).2 := by
  obtain ⟨f, hf⟩ := Option.ne_none_iff_exists'.mp hlink
  unfold getTemplate
  cases hl : cache.lookup (name ++ "&" ++ opts.Language) with
  | some t => simpa [hl] using h
  | none =>
    cases hp : templateParse parse defn with
    | none => simpa [hl, hp] using h
    | some tree =>
      simp only [hl, hp]
      intro key t ht b board card
      rw [List.lookup_cons] at ht
      split at ht
      · simp only [Option.some.injEq] at ht
        subst ht
        simp [hf]
      · exact h key t ht b board card

theorem execTemplate_cache (parse : String → Option (List Node)) (name defn : String)
    (opts : DiffConvOpts) (d : Diff) (cache : TemplateCache) :
    (execTemplate parse name opts defn d cache).2 = (getTemplate parse name opts defn cache).2 := by
  unfold execTemplate
  rcases getTemplate parse name opts defn cache with ⟨r, c1⟩
  cases r <;> rfl

theorem cardDiff2SlackAttachment_cache (parse : String → Option (List Node))
    (gen : String → String → String) (d : Diff) (opts : DiffConvOpts) (cache : TemplateCache) :
    (cardDiff2SlackAttachment parse gen d opts cache).2 = cache ∨
      ∃ name defn tree, (name, tree) ∈ notifyTemplates ∧ templateParse parse defn = some tree ∧
        (cardDiff2SlackAttachment parse gen d opts cache).2 =
          (getTemplate parse name opts defn cache).2 := by
  have hnotice : ∀ name defn, (renderNotice parse name defn d opts cache).2 =
      (getTemplate parse name opts defn cache).2 := by
    intro name defn
    rw [← execTemplate_cache parse name defn opts d cache]
    unfold renderNotice
    rcases execTemplate parse name opts defn d cache with ⟨r, c1⟩
    cases r with
    | error e => rfl
    | ok p => cases titleLink opts d <;> rfl
  have hmod : (renderModified parse gen d opts cache).2 =
      (getTemplate parse "ModifyCardNotify" opts defModifyCardNotify cache).2 := by
    rw [← execTemplate_cache parse "ModifyCardNotify" defModifyCardNotify opts d cache]
    unfold renderModified
    rcases execTemplate parse "ModifyCardNotify" opts defModifyCardNotify d cache with ⟨r, c1⟩
    cases r with
    | error e => rfl
    | ok p =>
      cases titleLink opts d with
      | none => rfl
      | some link =>
        cases modifiedFields gen d with
        | none => rfl
        | some fields => cases fields <;> rfl
  cases hs : transitionRule d with
  | SKIP =>
    obtain ⟨hn, ho⟩ := (transitionRule_skip_iff d).mp hs
    left
    simp [cardDiff2SlackAttachment, hn, ho]
  | ADDED =>
    obtain ⟨hn, ho⟩ := (transitionRule_added_iff d).mp hs
    right
    rw [cardDiff2SlackAttachment_added parse gen d opts cache hn ho]
    exact ⟨_, _, addCardTree, by simp [notifyTemplates], templateParse_add parse, hnotice _ _⟩
  | DELETED =>
    obtain ⟨hn, ho⟩ := (transitionRule_deleted_iff d).mp hs
    right
    rw [cardDiff2SlackAttachment_deleted parse gen d opts cache hn ho]
    exact ⟨_, _, deleteCardTree, by simp [notifyTemplates], templateParse_delete parse,
      hnotice _ _⟩
  | MODIFIED =>
    obtain ⟨nb, ob, hn, ho, hl⟩ := (transitionRule_modified_iff d).mp hs
    right
    rw [cardDiff2SlackAttachment_modified parse gen d opts cache nb ob hn ho hl]
    exact ⟨_, _, modifyCardTree, by simp [notifyTemplates], templateParse_modify parse, hmod⟩

/-- The invariant `CacheWF` holds after every call of
`cardDiff2SlackAttachment` when it holds before. -/
theorem cardDiff2SlackAttachment_cacheWF (parse : String → Option (List Node))
    (gen : String → String → String) (d : Diff) (opts : DiffConvOpts) (cache : TemplateCache)
    (h : CacheWF cache) : CacheWF (cardDiff2SlackAttachment parse gen d opts cache).2 := by
  rcases cardDiff2SlackAttachment_cache parse gen d opts cache with hc | ⟨name, defn, _, _, _, hc⟩
  · rw [hc]; exact h
  · rw [hc]; exact getTemplate_cacheWF parse name defn opts cache h

/-- The condition `CacheSupplied` holds after a call of
`cardDiff2SlackAttachment` with a supplied link builder when it holds before. -/
theorem cardDiff2SlackAttachment_cacheSupplied (parse : String → Option (List Node))
    (gen : String → String → String) (d : Diff) (opts : DiffConvOpts) (cache : TemplateCache)
    (hlink : opts.MakeCardLink ≠ none) (h : CacheSupplied cache) :
    CacheSupplied (cardDiff2SlackAttachment parse gen d opts cache).2 := by
  rcases cardDiff2SlackAttachment_cache parse gen d opts cache with hc | ⟨name, defn, _, _, _, hc⟩
  · rw [hc]; exact h
  · rw [hc]; exact getTemplate_cacheSupplied parse name defn opts cache hlink h

/-- The condition `CacheFromDefaults` holds after every call of
`cardDiff2SlackAttachment` when it holds before. -/
theorem cardDiff2SlackAttachment_cacheFromDefaults (parse : String → Option (List Node))
    (gen : String → String → String) (d : Diff) (opts : DiffConvOpts) (cache : TemplateCache)
    (h : CacheFromDefaults cache) :
    CacheFromDefaults (cardDiff2SlackAttachment parse gen d opts cache).2 := by
  rcases cardDiff2SlackAttachment_cache parse gen d opts cache with
    hc | ⟨name, defn, tree, hname, hparse, hc⟩
  · rw [hc]; exact h
  · rw [hc]; exact getTemplate_cacheFromDefaults parse name defn tree opts cache hname hparse h

/-! ### Attachment children -/

/-- What `appendAttachmentChanges` does for one child: nothing for another
block type; the added form for a child with a new block and no old block; the
removed form whenever the old block is present; a panic when both are null. -/
theorem appendAttachmentChange_cases (fields : List SlackAttachmentField) (child : Diff) :
    (child.BlockType ≠ .TypeAttachment → appendAttachmentChange fields child = some fields) ∧
    (child.BlockType = .TypeAttachment → ∀ nb, child.NewBlock = some nb → child.OldBlock = none →
      appendAttachmentChange fields child = some (fields ++
        [{ Title := makeAuthorsList child.Authors "알 수 없는 사용자" ++ "님이 변경함"
           Value := sprintf "첨부 파일 추가: **`%s`**" nb.Title
           Short := false }])) ∧
    (child.BlockType = .TypeAttachment → ∀ ob, child.OldBlock = some ob →
      appendAttachmentChange fields child = some (fields ++
        [{ Title := makeAuthorsList child.Authors "알 수 없는 사용자" ++ "님이 변경함"
           Value := sprintf "첨부 파일 삭제: ~~`%s`~~" (stripNewlines ob.Title)
           Short := false }])) ∧
    (child.BlockType = .TypeAttachment → child.NewBlock = none → child.OldBlock = none →
      appendAttachmentChange fields child = none) := by
  have hadd : ("첨부 파일 추가: **`%s`**" : String) ≠ "" := by decide
  have hdel : ("첨부 파일 삭제: ~~`%s`~~" : String) ≠ "" := by decide
  refine ⟨fun h => appendAttachmentChange_not_attachment fields child h, ?_, ?_, ?_⟩
  · intro ht nb hn ho
    simp [appendAttachmentChange, ht, hn, ho, hadd]
  · intro ht ob ho
    cases hn : child.NewBlock <;> simp [appendAttachmentChange, ht, hn, ho, hdel]
  · intro ht hn ho
    simp [appendAttachmentChange, ht, hn, ho]

/-! ### The author list -/

theorem foldl_authors (vs : List String) (hvs : vs ≠ []) (acc sep : String) :
    (vs.foldl
      (fun (acc : String × String) name => (acc.1 ++ acc.2 ++ "@" ++ trimSpace name, ", "))
      (acc, sep)).1 = acc ++ sep ++ authorsListSpec vs := by
  induction vs generalizing acc sep with
  | nil => exact absurd rfl hvs
  | cons v rest ih =>
    cases rest with
    | nil => simp [authorsListSpec, String.append_assoc]
    | cons w rest2 =>
      rw [List.foldl_cons]
      rw [ih (by simp)]
      simp [authorsListSpec, String.append_assoc]

theorem makeAuthorsList_nonempty (authors : StringMap) (empty : String) (h : authors ≠ []) :
    makeAuthorsList authors empty = authorsListSpec authors.Values := by
  have hlen : authors.length ≠ 0 := fun hl => h (List.length_eq_zero.mp hl)
  have hv : authors.Values ≠ [] := by
    intro hv
    apply h
    simpa [StringMap.Values] using hv
  unfold makeAuthorsList
  rw [if_neg hlen, foldl_authors authors.Values hv "" ""]
  simp

theorem authorsListSpec_head (vs : List String) (h : vs ≠ []) :
    (authorsListSpec vs).data.head? = some '@' := by
  cases vs with
  | nil => exact absurd rfl h
  | cons v rest =>
    cases rest with
    | nil => simp [authorsListSpec, String.data_append]
    | cons w rest2 => simp [authorsListSpec, String.data_append]

theorem authorsListSpec_cons (w : String) (l : List String) (h : l ≠ []) :
    authorsListSpec (w :: l) = "@" ++ trimSpace w ++ ", " ++ authorsListSpec l := by
  cases l with
  | nil => exact absurd rfl h
  | cons x rest => rfl

theorem authorsListSpec_last (vs : List String) (v : String) :
    ∃ pre : String, authorsListSpec (vs ++ [v]) = pre ++ "@" ++ trimSpace v ∧
      (vs = [] → pre = "") := by
  induction vs with
  | nil => exact ⟨"", by simp [authorsListSpec], fun _ => rfl⟩
  | cons w rest ih =>
    obtain ⟨pre, hpre, _⟩ := ih
    refine ⟨"@" ++ trimSpace w ++ ", " ++ pre, ?_, fun h => absurd h (by simp)⟩
    rw [List.cons_append, authorsListSpec_cons w (rest ++ [v]) (by simp), hpre]
    simp [String.append_assoc]

/-! ### The template cache -/

theorem cacheKey_language_inj (name lang1 lang2 : String)
    (h : cacheKey name lang1 = cacheKey name lang2) : lang1 = lang2 := by
  have hd := congrArg String.data h
  simp only [cacheKey, String.data_append, List.append_assoc] at hd
  have h2 := List.append_cancel_left hd
  have h3 := List.append_cancel_left h2
  exact String.ext h3

theorem chars_key_inj (n1 n2 l1 l2 : List Char) (h1 : '&' ∉ n1) (h2 : '&' ∉ n2)
    (h : n1 ++ '&' :: l1 = n2 ++ '&' :: l2) : n1 = n2 ∧ l1 = l2 := by
  induction n1 generalizing n2 with
  | nil =>
    cases n2 with
    | nil => simpa using h
    | cons d n2' =>
      simp only [List.nil_append, List.cons_append, List.cons.injEq] at h
      exact absurd (by rw [← h.1]; exact List.mem_cons_self _ _) h2
  | cons c n1' ih =>
    cases n2 with
    | nil =>
      simp only [List.nil_append, List.cons_append, List.cons.injEq] at h
      exact absurd (by rw [h.1]; exact List.mem_cons_self _ _) h1
    | cons d n2' =>
      simp only [List.cons_append, List.cons.injEq] at h
      have hc := ih n2' (fun hm => h1 (List.mem_cons_of_mem _ hm))
        (fun hm => h2 (List.mem_cons_of_mem _ hm)) h.2
      exact ⟨by rw [h.1, hc.1], hc.2⟩

theorem cacheKey_inj (name1 name2 lang1 lang2 : String) (h1 : '&' ∉ name1.data)
    (h2 : '&' ∉ name2.data) (h : cacheKey name1 lang1 = cacheKey name2 lang2) :
    name1 = name2 ∧ lang1 = lang2 := by
  have hd := congrArg String.data h
  simp only [cacheKey, String.data_append, List.append_assoc] at hd
  have := chars_key_inj name1.data name2.data lang1.data lang2.data h1 h2 (by simpa using hd)
  exact ⟨String.ext this.1, String.ext this.2⟩

theorem getTemplate_hit (parse : String → Option (List Node)) (name defn : String)
    (opts : DiffConvOpts) (cache : TemplateCache) (t : Template)
    (h : cache.lookup (cacheKey name opts.Language) = some t) :
    getTemplate parse name opts defn cache = (.ok t, cache) := by
  unfold cacheKey at h
  simp [getTemplate, h]

theorem getTemplate_miss_fail (parse : String → Option (List Node)) (name defn : String)
    (opts : DiffConvOpts) (cache : TemplateCache)
    (h : cache.lookup (cacheKey name opts.Language) = none)
    (hp : templateParse parse defn = none) :
    getTemplate parse name opts defn cache =
      (.error (.cannotParse (cacheKey name opts.Language)), cache) := by
  unfold cacheKey at h ⊢
  simp [getTemplate, h, hp]

theorem getTemplate_miss_ok (parse : String → Option (List Node)) (name defn : String)
    (opts : DiffConvOpts) (cache : TemplateCache) (tree : List Node)
    (h : cache.lookup (cacheKey name opts.Language) = none)
    (hp : templateParse parse defn = some tree) :
    ∃ t, getTemplate parse name opts defn cache =
        (.ok t, (cacheKey name opts.Language, t) :: cache) ∧
      t.tree = tree ∧ t.name = cacheKey name opts.Language ∧
      t.makeCardLink = (match opts.MakeCardLink with
        | none => defaultMakeCardLink
        | some f => fun block board card => some (f block board card)) ∧
      t.makeBoardLink = (match opts.MakeBoardLink with
        | none => defaultMakeBoardLink
        | some f => f) := by
  unfold cacheKey at h ⊢
  simp [getTemplate, h, hp]

theorem getTemplate_ok_lookup (parse : String → Option (List Node)) (name defn : String)
    (opts : DiffConvOpts) (cache cache1 : TemplateCache) (t : Template)
    (h : getTemplate parse name opts defn cache = (.ok t, cache1)) :
    cache1.lookup (cacheKey name opts.Language) = some t := by
  cases hl : cache.lookup (cacheKey name opts.Language) with
  | some t0 =>
    rw [getTemplate_hit parse name defn opts cache t0 hl] at h
    simp only [Prod.mk.injEq, Except.ok.injEq] at h
    rw [← h.1, ← h.2]
    exact hl
  | none =>
    cases hp : templateParse parse defn with
    | none =>
      rw [getTemplate_miss_fail parse name defn opts cache hl hp] at h
      simp at h
    | some tree =>
      obtain ⟨t1, ht1, _⟩ := getTemplate_miss_ok parse name defn opts cache tree hl hp
      rw [ht1] at h
      simp only [Prod.mk.injEq, Except.ok.injEq] at h
      rw [← h.1, ← h.2]
      simp [List.lookup_cons]

theorem getTemplate_lookup_mono (parse : String → Option (List Node)) (name defn : String)
    (opts : DiffConvOpts) (cache : TemplateCache) (k : String) (t : Template)
    (h : cache.lookup k = some t) :
    (getTemplate parse name opts defn cache).2.lookup k = some t := by
  cases hl : cache.lookup (cacheKey name opts.Language) with
  | some t0 =>
    rw [getTemplate_hit parse name defn opts cache t0 hl]
    exact h
  | none =>
    cases hp : templateParse parse defn with
    | none =>
      rw [getTemplate_miss_fail parse name defn opts cache hl hp]
      exact h
    | some tree =>
      obtain ⟨t1, ht1, _⟩ := getTemplate_miss_ok parse name defn opts cache tree hl hp
      rw [ht1]
      have hk : k ≠ cacheKey name opts.Language := by
        intro hk
        rw [hk, hl] at h
        exact absurd h (by simp)
      have hb : (k == cacheKey name opts.Language) = false := by simpa using hk
      rw [List.lookup_cons, hb]
      exact h

theorem getTemplate_lookup_other (parse : String → Option (List Node)) (name defn : String)
    (opts : DiffConvOpts) (cache : TemplateCache) (k : String)
    (hk : k ≠ cacheKey name opts.Language) :
    (getTemplate parse name opts defn cache).2.lookup k = cache.lookup k := by
  cases hl : cache.lookup (cacheKey name opts.Language) with
  | some t0 => rw [getTemplate_hit parse name defn opts cache t0 hl]
  | none =>
    cases hp : templateParse parse defn with
    | none => rw [getTemplate_miss_fail parse name defn opts cache hl hp]
    | some tree =>
      obtain ⟨t1, ht1, _⟩ := getTemplate_miss_ok parse name defn opts cache tree hl hp
      rw [ht1]
      have hb : (k == cacheKey name opts.Language) = false := by simpa using hk
      rw [List.lookup_cons, hb]

/-! ### The batch converter -/

theorem diffsLoop_eq (parse : String → Option (List Node)) (gen : String → String → String)
    (opts : DiffConvOpts) (diffs : List Diff) (attachments : List SlackAttachment)
    (merr : List Err) (cache : TemplateCache) :
    (diffsLoop parse gen opts diffs attachments merr cache).1 =
      if (cardOutcomes parse gen opts diffs cache).any Outcome.isPanic = true then none
      else some
        (attachments ++ (cardOutcomes parse gen opts diffs cache).filterMap Outcome.attachment?,
          merr ++ (cardOutcomes parse gen opts diffs cache).filterMap Outcome.error?) := by
  induction diffs generalizing attachments merr cache with
  | nil => simp [diffsLoop, cardOutcomes]
  | cons d rest ih =>
    by_cases hc : d.BlockType = .TypeCard
    · rcases hr : cardDiff2SlackAttachment parse gen d opts cache with ⟨r, c1⟩
      cases r with
      | panic => simp [diffsLoop, cardOutcomes, hc, hr, Outcome.isPanic]
      | err e =>
        simp [diffsLoop, cardOutcomes, hc, hr, ih, Outcome.isPanic, Outcome.attachment?,
          Outcome.error?]
      | ok v =>
        cases v with
        | none =>
          simp [diffsLoop, cardOutcomes, hc, hr, ih, Outcome.isPanic, Outcome.attachment?,
            Outcome.error?]
        | some a =>
          simp [diffsLoop, cardOutcomes, hc, hr, ih, Outcome.isPanic, Outcome.attachment?,
            Outcome.error?]
    · simp [diffsLoop, cardOutcomes, hc, ih]

theorem Diffs2SlackAttachments_eq (parse : String → Option (List Node))
    (gen : String → String → String) (diffs : List Diff) (opts : DiffConvOpts)
    (cache : TemplateCache) :
    (Diffs2SlackAttachments parse gen diffs opts cache).1 =
      if (cardOutcomes parse gen opts diffs cache).any Outcome.isPanic = true then none
      else some
        ((cardOutcomes parse gen opts diffs cache).filterMap Outcome.attachment?,
          (cardOutcomes parse gen opts diffs cache).filterMap Outcome.error?) := by
  unfold Diffs2SlackAttachments
  rw [diffsLoop_eq]
  simp

theorem diffsLoop_filter_card (parse : String → Option (List Node))
    (gen : String → String → String) (opts : DiffConvOpts) (diffs : List Diff)
    (attachments : List SlackAttachment) (merr : List Err) (cache : TemplateCache) :
    diffsLoop parse gen opts (diffs.filter (fun d => decide (d.BlockType = .TypeCard)))
        attachments merr cache =
      diffsLoop parse gen opts diffs attachments merr cache := by
  induction diffs generalizing attachments merr cache with
  | nil => rfl
  | cons d rest ih =>
    by_cases hc : d.BlockType = .TypeCard
    · have hf : (d :: rest).filter (fun d => decide (d.BlockType = .TypeCard)) =
          d :: rest.filter (fun d => decide (d.BlockType = .TypeCard)) := by
        simp [List.filter_cons, hc]
      rw [hf]
      simp only [diffsLoop, hc, if_true]
      rcases cardDiff2SlackAttachment parse gen d opts cache with ⟨r, c1⟩
      cases r with
      | panic => rfl
      | err e => exact ih _ _ _
      | ok v =>
        cases v with
        | none => exact ih _ _ _
        | some a => exact ih _ _ _
    · have hf : (d :: rest).filter (fun d => decide (d.BlockType = .TypeCard)) =
          rest.filter (fun d => decide (d.BlockType = .TypeCard)) := by
        simp [List.filter_cons, hc]
      rw [hf]
      simp only [diffsLoop, hc, if_false]
      exact ih _ _ _

/-! ### The shape of the fields -/

theorem appendTitleChanges_short (d : Diff) (fields : List SlackAttachmentField)
    (h : appendTitleChanges [] d = some fields) : ∀ f ∈ fields, f.Short = false := by
  unfold appendTitleChanges at h
  cases hn : d.NewBlock <;> cases ho : d.OldBlock <;> simp only [hn, ho] at h
  all_goals try (simp at h; done)
  split at h
  · simp only [List.nil_append, Option.some.injEq] at h
    intro f hf
    rw [← h] at hf
    simp only [List.mem_singleton] at hf
    rw [hf]
  · simp only [Option.some.injEq] at h
    intro f hf
    rw [← h] at hf
    simp at hf

theorem propertyField_short (p : PropDiff) (f : SlackAttachmentField)
    (h : propertyField p = some f) : f.Short = false := by
  unfold propertyField at h
  split at h
  · simp at h
  · split at h
    · simp only [Option.some.injEq] at h
      rw [← h]
    · simp only [Option.some.injEq] at h
      rw [← h]

theorem contentChange_short (gen : String → String → String) (c : Diff) (f : SlackAttachmentField)
    (h : contentChange gen c = some f) : f.Short = false := by
  unfold contentChange at h
  cases hct : contentTitles c with
  | none => simp [hct] at h
  | some p =>
    obtain ⟨o, n⟩ := p
    simp only [hct, contentField] at h
    split at h
    · simp at h
    · split at h
      · simp at h
      · simp only [Option.some.injEq] at h
        rw [← h]

theorem appendAttachmentChange_short (fields r : List SlackAttachmentField) (c : Diff)
    (hf : ∀ f ∈ fields, f.Short = false) (h : appendAttachmentChange fields c = some r) :
    ∀ f ∈ r, f.Short = false := by
  unfold appendAttachmentChange at h
  split at h
  · cases hn : c.NewBlock <;> cases ho : c.OldBlock <;> simp only [hn, ho] at h
    all_goals try (simp at h; done)
    all_goals
      split at h
      · simp only [Option.some.injEq] at h
        intro f hmem
        rw [← h] at hmem
        rcases List.mem_append.mp hmem with h1 | h1
        · exact hf f h1
        · simp only [List.mem_singleton] at h1
          rw [h1]
      · simp only [Option.some.injEq] at h
        rw [← h]
        exact hf
  · simp only [Option.some.injEq] at h
    rw [← h]
    exact hf

theorem foldlM_appendAttachmentChange_short (l : List Diff) (fields r : List SlackAttachmentField)
    (hf : ∀ f ∈ fields, f.Short = false) (h : l.foldlM appendAttachmentChange fields = some r) :
    ∀ f ∈ r, f.Short = false := by
  induction l generalizing fields with
  | nil =>
    simp only [List.foldlM_nil, Option.pure_def, Option.some.injEq] at h
    rw [← h]
    exact hf
  | cons c rest ih =>
    rw [List.foldlM_cons] at h
    cases hc : appendAttachmentChange fields c with
    | none => simp [hc] at h
    | some fs =>
      simp only [hc, Option.some_bind, Option.bind_eq_bind] at h
      exact ih fs (appendAttachmentChange_short fields fs c hf hc) h

theorem modifiedFields_short (gen : String → String → String) (d : Diff)
    (fields : List SlackAttachmentField) (h : modifiedFields gen d = some fields) :
    ∀ f ∈ fields, f.Short = false := by
  obtain ⟨tf, af, ht, ha, hfields⟩ := modifiedFields_eq gen d fields h
  intro f hf
  rw [hfields, appendPropertyChanges_eq, appendContentChanges_eq] at hf
  simp only [List.nil_append, List.mem_append, List.mem_filterMap] at hf
  rcases hf with ((h1 | ⟨p, _, hp⟩) | h3) | ⟨c, _, hc⟩
  · exact appendTitleChanges_short d tf ht f h1
  · exact propertyField_short p f hp
  · exact foldlM_appendAttachmentChange_short d.Diffs [] af (by simp) ha f h3
  · exact contentChange_short gen c f hc

/-! ### Conversion without a link builder -/

/-- Without a `MakeCardLink` the only call of `cardDiff2SlackAttachment` that
returns without an error is the one that skips a diff with both blocks null:
every other call returns an error or panics. -/
theorem cardDiff2SlackAttachment_no_link (parse : String → Option (List Node))
    (gen : String → String → String) (d : Diff) (opts : DiffConvOpts) (cache : TemplateCache)
    (hlink : opts.MakeCardLink = none) (r : Option SlackAttachment)
    (hres : (cardDiff2SlackAttachment parse gen d opts cache).1 = .ok r) :
    r = none ∧ d.NewBlock = none ∧ d.OldBlock = none := by
  have hnotice : ∀ name defn, (renderNotice parse name defn d opts cache).1 ≠ .ok r := by
    intro name defn h
    unfold renderNotice at h
    rcases hx : execTemplate parse name opts defn d cache with ⟨x, c1⟩
    rw [hx] at h
    cases x with
    | error e => simp at h
    | ok pretext => simp [titleLink, hlink] at h
  cases hs : transitionRule d with
  | SKIP =>
    obtain ⟨hn, ho⟩ := (transitionRule_skip_iff d).mp hs
    simp only [cardDiff2SlackAttachment, hn, ho, Option.isNone_none, Bool.and_self, if_true,
      Outcome.ok.injEq] at hres
    exact ⟨hres.symm, hn, ho⟩
  | ADDED =>
    obtain ⟨hn, ho⟩ := (transitionRule_added_iff d).mp hs
    rw [cardDiff2SlackAttachment_added parse gen d opts cache hn ho] at hres
    exact absurd hres (hnotice _ _)
  | DELETED =>
    obtain ⟨hn, ho⟩ := (transitionRule_deleted_iff d).mp hs
    rw [cardDiff2SlackAttachment_deleted parse gen d opts cache hn ho] at hres
    exact absurd hres (hnotice _ _)
  | MODIFIED =>
    obtain ⟨nb, ob, hn, ho, hl⟩ := (transitionRule_modified_iff d).mp hs
    rw [cardDiff2SlackAttachment_modified parse gen d opts cache nb ob hn ho hl] at hres
    unfold renderModified at hres
    rcases hx : execTemplate parse "ModifyCardNotify" opts defModifyCardNotify d cache with ⟨x, c1⟩
    rw [hx] at hres
    cases x with
    | error e => simp at hres
    | ok pretext => simp [titleLink, hlink] at hres

/-! ### Children with both blocks null -/

/-- What the two child generators do with a child whose blocks are both null:
`appendAttachmentChanges` skips it unless it is of type attachment, where it
panics; `appendContentChanges` skips it unless it is of type image or
attachment, where it diffs the placeholder sentence against the empty text. -/
theorem null_child_cases (gen : String → String → String)
    (fields : List SlackAttachmentField) (child : Diff)
    (hn : child.NewBlock = none) (ho : child.OldBlock = none) :
    (child.BlockType ≠ .TypeAttachment → appendAttachmentChange fields child = some fields) ∧
    (child.BlockType = .TypeAttachment → appendAttachmentChange fields child = none) ∧
    (child.BlockType ≠ .TypeImage → child.BlockType ≠ .TypeAttachment →
      contentChange gen child = none) ∧
    (child.BlockType = .TypeImage →
      contentTitles child = some ("", "이미지가 삭제됨.")) ∧
    (child.BlockType = .TypeAttachment →
      contentTitles child = some ("", "첨부 파일이 삭제됨.")) := by
  refine ⟨fun h => appendAttachmentChange_not_attachment fields child h, ?_, ?_, ?_, ?_⟩
  · intro ht
    simp [appendAttachmentChange, ht, hn, ho]
  · intro hi ha
    by_cases hdc : child.BlockType = .TypeComment ∨ child.BlockType = .TypeDivider
    · exact contentChange_divider_comment gen child hdc
    · have hct := contentTitles_text child (fun h => hdc (Or.inr h)) (fun h => hdc (Or.inl h))
        hi ha
      have hs : specTexts child = ("", "") := by
        simp [specTexts, hn, ho, nilOrDeleted, stripNewlines_empty]
      rw [hs] at hct
      simp [contentChange, hct]
  · intro ht
    simp only [contentTitles, ht, hn, ho]
    decide
  · intro ht
    simp only [contentTitles, ht, hn, ho]
    decide

/-! ### The text of the add-card notification -/

theorem execNodes_addCardTree (t : Template) (d : Diff) (link : String)
    (h : t.makeCardLink d.NewBlock d.Board d.Card = some link) :
    execNodes t d addCardTree =
      some (makeAuthorsList d.Authors "알 수 없는 사용자" ++ "님이 카드 [" ++ d.Card.Title ++ "](" ++
        link ++ ")를 추가했습니다.\n") := by
  simp [addCardTree, execNodes, execNode, h, String.append_assoc]

/-- The add-card notification when the template in use was compiled with the
link builder `f`. -/
theorem execTemplate_add_text (parse : String → Option (List Node)) (opts : DiffConvOpts)
    (d : Diff) (cache : TemplateCache) (f : Option Block → Board → Block → String)
    (hlink : opts.MakeCardLink = some f) (hcache : CacheFromDefaults cache)
    (hbound : ∀ t, cache.lookup (cacheKey "AddCardNotify" opts.Language) = some t →
      t.makeCardLink = fun block board card => some (f block board card)) :
    (execTemplate parse "AddCardNotify" opts defAddCardNotify d cache).1 =
      .ok (makeAuthorsList d.Authors "알 수 없는 사용자" ++ "님이 카드 [" ++ d.Card.Title ++ "](" ++
        f d.NewBlock d.Board d.Card ++ ")를 추가했습니다.\n") := by
  obtain ⟨t, c1, hget, hcase⟩ :=
    getTemplate_cases parse "AddCardNotify" defAddCardNotify opts cache addCardTree
      (templateParse_add parse)
  have htree : t.tree = addCardTree := by
    rcases hcase with hc | ⟨_, ht, _, _⟩
    · exact hcache "AddCardNotify" addCardTree (by simp [notifyTemplates]) opts.Language t hc
    · exact ht
  have hb : t.makeCardLink = fun block board card => some (f block board card) := by
    rcases hcase with hc | ⟨_, _, _, hl⟩
    · exact hbound t hc
    · rw [hl, hlink]
  have hx := execNodes_addCardTree t d (f d.NewBlock d.Board d.Card) (by rw [hb])
  simp [execTemplate, hget, Template.Execute, htree, hx]

/-! ### The fields of a modified card -/

theorem modified_result_fields (parse : String → Option (List Node))
    (gen : String → String → String) (d : Diff) (opts : DiffConvOpts) (cache : TemplateCache)
    (a : SlackAttachment)
    (hmod : ∃ nb ob, d.NewBlock = some nb ∧ d.OldBlock = some ob ∧ nb.DeleteAt = 0)
    (hres : (cardDiff2SlackAttachment parse gen d opts cache).1 = .ok (some a)) :
    modifiedFields gen d = some a.Fields := by
  obtain ⟨nb, ob, hnew, hold, hlive⟩ := hmod
  rw [cardDiff2SlackAttachment_modified parse gen d opts cache nb ob hnew hold hlive] at hres
  unfold renderModified at hres
  rcases hx : execTemplate parse "ModifyCardNotify" opts defModifyCardNotify d cache with ⟨r, c1⟩
  rw [hx] at hres
  cases r with
  | error e => simp at hres
  | ok pretext =>
    cases hl : titleLink opts d with
    | none => simp [hl] at hres
    | some link =>
      cases hmf : modifiedFields gen d with
      | none => simp [hl, hmf] at hres
      | some fields =>
        cases fields with
        | nil => simp [hl, hmf] at hres
        | cons f fs =>
          simp only [hl, hmf, Outcome.ok.injEq, Option.some.injEq] at hres
          rw [← hres]

theorem foldlM_appendAttachmentChange_subset (l : List Diff)
    (fields r : List SlackAttachmentField) (h : l.foldlM appendAttachmentChange fields = some r) :
    ∀ f ∈ fields, f ∈ r := by
  rw [foldlM_appendAttachmentChange] at h
  cases h0 : l.foldlM appendAttachmentChange [] with
  | none => simp [h0] at h
  | some r0 =>
    simp only [h0, Option.map_some', Option.some.injEq] at h
    intro f hf
    rw [← h]
    exact List.mem_append_left _ hf

theorem foldlM_appendAttachmentChange_mem (l : List Diff) (fields r : List SlackAttachmentField)
    (h : l.foldlM appendAttachmentChange fields = some r) (c : Diff) (hc : c ∈ l)
    (f : SlackAttachmentField) (hf : appendAttachmentChange [] c = some [f]) : f ∈ r := by
  induction l generalizing fields with
  | nil => simp at hc
  | cons c0 rest ih =>
    rw [List.foldlM_cons] at h
    cases h0 : appendAttachmentChange fields c0 with
    | none => simp [h0] at h
    | some fs =>
      simp only [h0, Option.some_bind, Option.bind_eq_bind] at h
      rcases List.mem_cons.mp hc with heq | hmem
      · subst heq
        rw [appendAttachmentChange_append, hf] at h0
        simp only [Option.map_some', Option.some.injEq] at h0
        apply foldlM_appendAttachmentChange_subset rest fs r h
        rw [← h0]
        simp
      · exact ih fs h hmem

/-! ### One entry per key -/

theorem lookup_none_not_mem_keys (cache : TemplateCache) (key : String)
    (h : cache.lookup key = none) : key ∉ cache.map Prod.fst := by
  induction cache with
  | nil => simp
  | cons e rest ih =>
    obtain ⟨k, t⟩ := e
    rw [List.lookup_cons] at h
    by_cases hk : key = k
    · subst hk
      simp at h
    · have hb : (key == k) = false := by simpa using hk
      rw [hb] at h
      simp only [List.map_cons, List.mem_cons, not_or]
      exact ⟨hk, ih h⟩

/-- In a run of calls one after the other, `getTemplate` never stores a second
template under a key: the keys of the cache stay pairwise different. -/
theorem getTemplate_keys_nodup (parse : String → Option (List Node)) (name defn : String)
    (opts : DiffConvOpts) (cache : TemplateCache) (h : (cache.map Prod.fst).Nodup) :
    ((getTemplate parse name opts defn cache).2.map Prod.fst).Nodup := by
  cases hl : cache.lookup (cacheKey name opts.Language) with
  | some t0 =>
    rw [getTemplate_hit parse name defn opts cache t0 hl]
    exact h
  | none =>
    cases hp : templateParse parse defn with
    | none =>
      rw [getTemplate_miss_fail parse name defn opts cache hl hp]
      exact h
    | some tree =>
      obtain ⟨t1, ht1, _⟩ := getTemplate_miss_ok parse name defn opts cache tree hl hp
      rw [ht1]
      simp only [List.map_cons, List.nodup_cons]
      exact ⟨lookup_none_not_mem_keys cache _ hl, h⟩

/-- What `strings.TrimSpace` removes: the characters split into leading white
space, the trimmed text and trailing white space, and the trimmed text neither
starts nor ends with white space. -/
theorem trimSpaceChars_spec (cs : List Char) :
    ∃ pre post : List Char, cs = pre ++ trimSpaceChars cs ++ post ∧
      (∀ c ∈ pre, isSpace c = true) ∧ (∀ c ∈ post, isSpace c = true) ∧
      (∀ c, (trimSpaceChars cs).head? = some c → isSpace c = false) ∧
      (∀ c, (trimSpaceChars cs).getLast? = some c → isSpace c = false) := by
  refine ⟨cs.takeWhile isSpace, ((cs.dropWhile isSpace).reverse.takeWhile isSpace).reverse,
    ?_, ?_, ?_, ?_, ?_⟩
  · unfold trimSpaceChars
    rw [List.append_assoc, ← List.reverse_append, List.takeWhile_append_dropWhile,
      List.reverse_reverse, List.takeWhile_append_dropWhile]
  · intro c hc
    exact List.mem_takeWhile_imp hc
  · intro c hc
    rw [List.mem_reverse] at hc
    exact List.mem_takeWhile_imp hc
  · intro c hc
    unfold trimSpaceChars at hc
    have hsplit : ((cs.dropWhile isSpace).reverse.dropWhile isSpace).reverse ++
        ((cs.dropWhile isSpace).reverse.takeWhile isSpace).reverse = cs.dropWhile isSpace := by
      rw [← List.reverse_append, List.takeWhile_append_dropWhile, List.reverse_reverse]
    have h0 := List.head?_dropWhile_not isSpace cs
    cases ht : ((cs.dropWhile isSpace).reverse.dropWhile isSpace).reverse with
    | nil =>
      rw [ht] at hc
      simp at hc
    | cons x rest =>
      rw [ht] at hc hsplit
      simp only [List.head?_cons, Option.some.injEq] at hc
      rw [← hsplit] at h0
      simpa [hc] using h0
  · intro c hc
    unfold trimSpaceChars at hc
    rw [List.getLast?_reverse] at hc
    have h0 := List.head?_dropWhile_not isSpace (cs.dropWhile isSpace).reverse
    rw [hc] at h0
    simpa using h0

/-! ## The claims -/

/-- C1. For every card diff `cardDiff2SlackAttachment` follows the transition
rule: the four states are characterised by the four conditions of the rule
(so they are mutually exclusive and exhaustive), and the result is no
attachment and no error for `SKIP`, the rendering of the add-card template for
`ADDED`, of the delete-card template for `DELETED` and of the modify-card
template for `MODIFIED`. -/
theorem cardDiff2SlackAttachment_transition (parse : String → Option (List Node))
    (gen : String → String → String) (d : Diff) (opts : DiffConvOpts) (cache : TemplateCache) :
    (transitionRule d = .SKIP ↔ d.NewBlock = none ∧ d.OldBlock = none) ∧
    (transitionRule d = .ADDED ↔ d.NewBlock ≠ none ∧ d.OldBlock = none) ∧
    (transitionRule d = .DELETED ↔
      (d.NewBlock = none ∨ ∃ b, d.NewBlock = some b ∧ b.DeleteAt ≠ 0) ∧ d.OldBlock ≠ none) ∧
    (transitionRule d = .MODIFIED ↔
      ∃ nb ob, d.NewBlock = some nb ∧ d.OldBlock = some ob ∧ nb.DeleteAt = 0) ∧
    cardDiff2SlackAttachment parse gen d opts cache =
      (match transitionRule d with
       | .SKIP => (.ok none, cache)
       | .ADDED => renderNotice parse "AddCardNotify" defAddCardNotify d opts cache
       | .DELETED => renderNotice parse "DeleteCardNotify" defDeleteCardNotify d opts cache
       | .MODIFIED => renderModified parse gen d opts cache) := by
  refine ⟨transitionRule_skip_iff d, transitionRule_added_iff d, transitionRule_deleted_iff d,
    transitionRule_modified_iff d, ?_⟩
  cases hs : transitionRule d with
  | SKIP =>
    obtain ⟨hn, ho⟩ := (transitionRule_skip_iff d).mp hs
    simp [cardDiff2SlackAttachment, hn, ho]
  | ADDED =>
    obtain ⟨hn, ho⟩ := (transitionRule_added_iff d).mp hs
    exact cardDiff2SlackAttachment_added parse gen d opts cache hn ho
  | DELETED =>
    obtain ⟨hn, ho⟩ := (transitionRule_deleted_iff d).mp hs
    exact cardDiff2SlackAttachment_deleted parse gen d opts cache hn ho
  | MODIFIED =>
    obtain ⟨nb, ob, hn, ho, hl⟩ := (transitionRule_modified_iff d).mp hs
    exact cardDiff2SlackAttachment_modified parse gen d opts cache nb ob hn ho hl

/-- C2 (as amended). For a card diff with `NewBlock` set and `OldBlock` null,
the attachment returned by `cardDiff2SlackAttachment` has an empty `Fields`
list and a non-empty `Pretext`, and its `TitleLink` is what the supplied
`MakeCardLink` answers on the card. The cache is one in which the entries of
the notification templates were compiled from their sources. -/
theorem added_attachment_shape (parse : String → Option (List Node))
    (gen : String → String → String) (d : Diff) (opts : DiffConvOpts) (cache : TemplateCache)
    (a : SlackAttachment)
    (hnew : d.NewBlock ≠ none) (hold : d.OldBlock = none) (hcache : CacheFromDefaults cache)
    (hres : (cardDiff2SlackAttachment parse gen d opts cache).1 = .ok (some a)) :
    a.Fields = [] ∧ a.Pretext ≠ "" ∧
      ∃ f, opts.MakeCardLink = some f ∧ a.TitleLink = f (some d.Card) d.Board d.Card := by
  obtain ⟨nb, hnb⟩ := Option.ne_none_iff_exists'.mp hnew
  unfold cardDiff2SlackAttachment at hres
  simp only [hnb, hold, Option.isNone_some, Option.isNone_none, Option.isSome_some,
    Bool.false_and, Bool.and_self, if_true, Bool.false_eq_true, if_false] at hres
  rcases hexec : execTemplate parse "AddCardNotify" opts defAddCardNotify d cache with ⟨r, c1⟩
  rw [hexec] at hres
  cases r with
  | error e => simp at hres
  | ok pretext =>
    have hne := execTemplate_add_pretext parse opts d cache c1 pretext hcache hexec
    cases hm : opts.MakeCardLink with
    | none => simp [titleLink, hm] at hres
    | some f =>
      simp only [titleLink, hm, Outcome.ok.injEq, Option.some.injEq] at hres
      subst hres
      exact ⟨rfl, hne, f, rfl, rfl⟩

/-- C2, the amended statement at the added card `exAddedDiff` with the options
`exOpts` and an empty cache. -/
theorem added_attachment_shape_witness :
    ([] : List SlackAttachmentField) = [] ∧
      "@alice님이 카드 [Fix bug](https://boards.example/c1)를 추가했습니다.\n" ≠ "" ∧
      ∃ f, exOpts.MakeCardLink = some f ∧
        "https://boards.example/c1" = f (some exAddedDiff.Card) exAddedDiff.Board exAddedDiff.Card :=
  added_attachment_shape exParse exMarkdownDiff exAddedDiff exOpts []
    { Fallback := "@alice님이 카드 [Fix bug](https://boards.example/c1)를 추가했습니다.\n"
      Pretext := "@alice님이 카드 [Fix bug](https://boards.example/c1)를 추가했습니다.\n"
      TitleLink := "https://boards.example/c1"
      Fields := [] }
    (by decide) rfl (fun _ _ _ _ t h => by simp at h) (by decide)

/-- C2 as stated fails: for the added card `exAddedDiff` and a link builder
that answers the empty string, an attachment is returned whose `TitleLink` is
empty. -/
theorem added_titleLink_empty :
    exAddedDiff.NewBlock ≠ none ∧ exAddedDiff.OldBlock = none ∧
      ∃ a, (cardDiff2SlackAttachment exParse exMarkdownDiff exAddedDiff exOptsEmptyLink []).1 =
          .ok (some a) ∧ a.TitleLink = "" :=
  ⟨by decide, rfl,
    { Fallback := "@alice님이 카드 [Fix bug]()를 추가했습니다.\n"
      Pretext := "@alice님이 카드 [Fix bug]()를 추가했습니다.\n"
      TitleLink := ""
      Fields := [] }, by decide, rfl⟩

/-- A card diff in the `ADDED` or `DELETED` state (a `DELETED` diff with a null
`NewBlock` included) when the link builders are supplied: with a `MakeCardLink`
and a cache whose templates were compiled with a supplied link builder,
`cardDiff2SlackAttachment` emits a non-null attachment with no error, and its
`Fields` list is empty whatever the titles, `PropDiffs` and child `Diffs` are.
When rendering the template of the state fails, the error is returned and no
attachment. -/
theorem added_deleted_emitted (parse : String → Option (List Node))
    (gen : String → String → String) (d : Diff) (opts : DiffConvOpts) (cache : TemplateCache)
    (hstate : (d.NewBlock ≠ none ∧ d.OldBlock = none) ∨
      ((d.NewBlock = none ∨ ∃ b, d.NewBlock = some b ∧ b.DeleteAt ≠ 0) ∧ d.OldBlock ≠ none)) :
    (d.OldBlock = none → ∀ e cache1,
      execTemplate parse "AddCardNotify" opts defAddCardNotify d cache = (.error e, cache1) →
      cardDiff2SlackAttachment parse gen d opts cache = (.err e, cache1)) ∧
    (d.OldBlock ≠ none → ∀ e cache1,
      execTemplate parse "DeleteCardNotify" opts defDeleteCardNotify d cache = (.error e, cache1) →
      cardDiff2SlackAttachment parse gen d opts cache = (.err e, cache1)) ∧
    (opts.MakeCardLink ≠ none → CacheSupplied cache →
      ∃ a, (cardDiff2SlackAttachment parse gen d opts cache).1 = .ok (some a) ∧ a.Fields = []) := by
  refine ⟨?_, ?_, ?_⟩
  · intro ho e cache1 he
    rcases hstate with ⟨hn, _⟩ | ⟨_, ho'⟩
    · rw [cardDiff2SlackAttachment_added parse gen d opts cache hn ho]
      simp [renderNotice, he]
    · exact absurd ho ho'
  · intro ho e cache1 he
    rcases hstate with ⟨_, ho'⟩ | ⟨hn, _⟩
    · exact absurd ho' ho
    · rw [cardDiff2SlackAttachment_deleted parse gen d opts cache hn ho]
      simp [renderNotice, he]
  · intro hlink hcache
    obtain ⟨f, hf⟩ := Option.ne_none_iff_exists'.mp hlink
    obtain ⟨p1, c1, h1⟩ := execTemplate_ok_of_isSome parse "AddCardNotify" defAddCardNotify opts d
      cache addCardTree (templateParse_add parse) (fun t ht => hcache _ t ht _ _ _) (Or.inl hlink)
    obtain ⟨p2, c2, h2⟩ := execTemplate_ok_of_isSome parse "DeleteCardNotify" defDeleteCardNotify
      opts d cache deleteCardTree (templateParse_delete parse) (fun t ht => hcache _ t ht _ _ _)
      (Or.inl hlink)
    rcases hstate with ⟨hn, ho⟩ | ⟨hn, ho⟩
    · rw [cardDiff2SlackAttachment_added parse gen d opts cache hn ho]
      simp [renderNotice, h1, titleLink, hf]
    · rw [cardDiff2SlackAttachment_deleted parse gen d opts cache hn ho]
      simp [renderNotice, h2, titleLink, hf]

/-- The removed card `exDeletedDiff`, whose new block is null, is emitted with
the options `exOpts` and an empty cache. -/
theorem added_deleted_emitted_witness :
    ∃ a, (cardDiff2SlackAttachment exParse exMarkdownDiff exDeletedDiff exOpts []).1 =
      .ok (some a) ∧ a.Fields = [] :=
  (added_deleted_emitted exParse exMarkdownDiff exDeletedDiff exOpts []
    (Or.inr ⟨Or.inl rfl, by decide⟩)).2.2 (by simp [exOpts]) (fun key t h => by simp at h)

/-- C3, the code at the failing inputs, with options that supply no link
builder. For the removed card `exDeletedDiff`, whose new block is null, the
delete-card template fails in the default link builder, which reads the title
of the null block, and the call returns an error and no attachment; the same
happens to a later call that supplies a link builder, because the cached
template keeps the default one. For the added card `exAddedDiff` the call
panics in the call of the nil `MakeCardLink`. With the link builder of `exOpts`
on an empty cache both cards are emitted with an empty `Fields` list. -/
theorem deleted_default_link_error :
    exDeletedDiff.NewBlock = none ∧ exDeletedDiff.OldBlock ≠ none ∧
      exOptsNoLinks.MakeCardLink = none ∧
      (cardDiff2SlackAttachment exParse exMarkdownDiff exDeletedDiff exOptsNoLinks []).1 =
        .err (.execute "DeleteCardNotify&en") ∧
      (cardDiff2SlackAttachment exParse exMarkdownDiff exDeletedDiff exOpts
        (cardDiff2SlackAttachment exParse exMarkdownDiff exDeletedDiff exOptsNoLinks []).2).1 =
        .err (.execute "DeleteCardNotify&en") ∧
      exAddedDiff.NewBlock ≠ none ∧ exAddedDiff.OldBlock = none ∧
      (cardDiff2SlackAttachment exParse exMarkdownDiff exAddedDiff exOptsNoLinks []).1 = .panic ∧
      (∃ a, (cardDiff2SlackAttachment exParse exMarkdownDiff exDeletedDiff exOpts []).1 =
        .ok (some a) ∧ a.Fields = []) ∧
      (∃ a, (cardDiff2SlackAttachment exParse exMarkdownDiff exAddedDiff exOpts []).1 =
        .ok (some a) ∧ a.Fields = []) :=
  ⟨rfl, by decide, rfl, by decide, by decide, by decide, rfl, by decide,
    (added_deleted_emitted exParse exMarkdownDiff exDeletedDiff exOpts []
      (Or.inr ⟨Or.inl rfl, by decide⟩)).2.2 (by simp [exOpts]) (fun key t h => by simp at h),
    (added_deleted_emitted exParse exMarkdownDiff exAddedDiff exOpts []
      (Or.inl ⟨by decide, rfl⟩)).2.2 (by simp [exOpts]) (fun key t h => by simp at h)⟩

/-- A `MODIFIED` card diff without changes when a `MakeCardLink` is supplied:
for both blocks present, `NewBlock` not deleted, equal titles, property diffs
that are absent or all have equal old and new value, and child diffs that are
absent or all of type comment or divider, `cardDiff2SlackAttachment` returns a
null attachment and no error, on every cache that satisfies the invariant
`CacheWF`. -/
theorem modified_without_changes_is_nil (parse : String → Option (List Node))
    (gen : String → String → String) (d : Diff) (opts : DiffConvOpts) (cache : TemplateCache)
    (nb ob : Block)
    (hnew : d.NewBlock = some nb) (hold : d.OldBlock = some ob) (hlive : nb.DeleteAt = 0)
    (htitle : nb.Title = ob.Title)
    (hprops : ∀ p ∈ d.PropDiffs, p.NewValue = p.OldValue)
    (hchildren : ∀ c ∈ d.Diffs, c.BlockType = .TypeComment ∨ c.BlockType = .TypeDivider)
    (hlink : opts.MakeCardLink ≠ none) (hcache : CacheWF cache) :
    (cardDiff2SlackAttachment parse gen d opts cache).1 = .ok none := by
  obtain ⟨f, hf⟩ := Option.ne_none_iff_exists'.mp hlink
  obtain ⟨p, c1, hexec⟩ := execTemplate_ok_of_isSome parse "ModifyCardNotify" defModifyCardNotify
    opts d cache modifyCardTree (templateParse_modify parse)
    (fun t ht => by rw [hnew]; exact hcache _ t ht nb _ _) (Or.inl hlink)
  have hprop : d.PropDiffs.filterMap propertyField = [] := by
    rw [List.filterMap_eq_nil_iff]
    intro p hp
    simp [propertyField, hprops p hp]
  have hcontent : d.Diffs.filterMap (contentChange gen) = [] := by
    rw [List.filterMap_eq_nil_iff]
    intro c hc
    exact contentChange_divider_comment gen c (hchildren c hc)
  have hattach : ∀ (l : List Diff), (∀ c ∈ l, c.BlockType = .TypeComment ∨ c.BlockType = .TypeDivider) →
      l.foldlM appendAttachmentChange ([] : List SlackAttachmentField) = some [] := by
    intro l
    induction l with
    | nil => intro _; rfl
    | cons c rest ih =>
      intro h
      have hc : c.BlockType ≠ .TypeAttachment := by
        rcases h c (List.mem_cons_self _ _) with h1 | h1 <;> simp [h1]
      rw [List.foldlM_cons, appendAttachmentChange_not_attachment [] c hc]
      exact ih (fun c' hc' => h c' (List.mem_cons_of_mem _ hc'))
  have hfields : modifiedFields gen d = some [] := by
    simp [modifiedFields, appendTitleChanges, hnew, hold, htitle, appendPropertyChanges_eq, hprop,
      appendAttachmentChanges, hattach d.Diffs hchildren, appendContentChanges_eq, hcontent]
  unfold cardDiff2SlackAttachment
  simp [hnew, hold, nilOrDeleted, hlive, hexec, titleLink, hf, hfields]

/-- The unchanged card `exUnchangedDiff` (equal titles, a property with equal
values, a comment and a divider as children) with the options `exOpts`. -/
theorem modified_without_changes_is_nil_witness :
    (cardDiff2SlackAttachment exParse exMarkdownDiff exUnchangedDiff exOpts []).1 = .ok none :=
  modified_without_changes_is_nil exParse exMarkdownDiff exUnchangedDiff exOpts [] exCard exCard
    rfl rfl rfl rfl (by decide) (by decide) (by simp [exOpts]) (fun key t h => by simp at h)

/-- C4, the code at the failing input. The card diff `exUnchangedDiff` is in
the `MODIFIED` state with equal titles, a property with equal values and only a
comment and a divider as children; with options that supply no `MakeCardLink`
the call panics in the call of the nil link builder for `TitleLink`, before the
fields are built, instead of returning a null attachment and no error; with the
link builder of `exOpts` it returns a null attachment and no error. -/
theorem modified_without_changes_no_link :
    exUnchangedDiff.NewBlock = some exCard ∧ exUnchangedDiff.OldBlock = some exCard ∧
      exCard.DeleteAt = 0 ∧
      (∀ p ∈ exUnchangedDiff.PropDiffs, p.NewValue = p.OldValue) ∧
      (∀ c ∈ exUnchangedDiff.Diffs, c.BlockType = .TypeComment ∨ c.BlockType = .TypeDivider) ∧
      exOptsNoLinks.MakeCardLink = none ∧
      (cardDiff2SlackAttachment exParse exMarkdownDiff exUnchangedDiff exOptsNoLinks []).1 =
        .panic ∧
      (cardDiff2SlackAttachment exParse exMarkdownDiff exUnchangedDiff exOpts []).1 = .ok none :=
  ⟨rfl, rfl, rfl, by decide, by decide, rfl, by decide, by decide⟩

/-- C5. For a `MODIFIED` card diff for which an attachment is returned, the
`Fields` list is the concatenation, in this order, of the fields of
`appendTitleChanges`, `appendPropertyChanges`, `appendAttachmentChanges` and
`appendContentChanges`, each applied to the empty list; comment children
contribute no field: the same attachment is returned for the diff without its
comment children. -/
theorem modified_fields_order (parse : String → Option (List Node))
    (gen : String → String → String) (d : Diff) (opts : DiffConvOpts) (cache : TemplateCache)
    (a : SlackAttachment)
    (hmod : ∃ nb ob, d.NewBlock = some nb ∧ d.OldBlock = some ob ∧ nb.DeleteAt = 0)
    (hres : (cardDiff2SlackAttachment parse gen d opts cache).1 = .ok (some a)) :
    (∃ titleFields attachmentFields,
      appendTitleChanges [] d = some titleFields ∧
      appendAttachmentChanges [] d = some attachmentFields ∧
      a.Fields = titleFields ++ appendPropertyChanges [] d ++ attachmentFields ++
        appendContentChanges gen [] d) ∧
    (cardDiff2SlackAttachment parse gen d.withoutComments opts cache).1 = .ok (some a) := by
  obtain ⟨nb, ob, hnew, hold, hlive⟩ := hmod
  refine ⟨?_, ?_⟩
  · rw [cardDiff2SlackAttachment_modified parse gen d opts cache nb ob hnew hold hlive] at hres
    unfold renderModified at hres
    rcases hx : execTemplate parse "ModifyCardNotify" opts defModifyCardNotify d cache with ⟨r, c1⟩
    rw [hx] at hres
    cases r with
    | error e => simp at hres
    | ok pretext =>
      cases hl : titleLink opts d with
      | none => simp [hl] at hres
      | some link =>
        cases hmf : modifiedFields gen d with
        | none => simp [hl, hmf] at hres
        | some fields =>
          cases fields with
          | nil => simp [hl, hmf] at hres
          | cons f fs =>
            simp only [hl, hmf, Outcome.ok.injEq, Option.some.injEq] at hres
            rw [← hres]
            exact modifiedFields_eq gen d (f :: fs) hmf
  · have hm := modifiedFields_withoutComments gen d
    have he := execTemplate_withoutComments parse "ModifyCardNotify" defModifyCardNotify opts d cache
    have ht : titleLink opts d.withoutComments = titleLink opts d := rfl
    rw [cardDiff2SlackAttachment_modified parse gen d opts cache nb ob hnew hold hlive] at hres
    rw [cardDiff2SlackAttachment_modified parse gen d.withoutComments opts cache nb ob hnew hold
      hlive]
    unfold renderModified at hres ⊢
    rw [he, ht, hm]
    exact hres

/-- C5 at `exModifiedDiff`, which has a comment child: the three fields are the
title field, the property field and the content field of the text child. -/
theorem modified_fields_order_witness :
    (∃ titleFields attachmentFields,
      appendTitleChanges [] exModifiedDiff = some titleFields ∧
      appendAttachmentChanges [] exModifiedDiff = some attachmentFields ∧
      [ ({ Title := "제목", Value := "T2  ~~`T1`~~", Short := false } : SlackAttachmentField),
        { Title := "Status", Value := "B  ~~`A`~~", Short := false },
        { Title := "설명", Value := "~~first¶ draft~~ final", Short := false } ] =
        titleFields ++ appendPropertyChanges [] exModifiedDiff ++ attachmentFields ++
          appendContentChanges exMarkdownDiff [] exModifiedDiff) ∧
    (cardDiff2SlackAttachment exParse exMarkdownDiff exModifiedDiff.withoutComments exOpts []).1 =
      .ok (some
        { Fallback := "###### @alice님이 보드 `Roadmap`에서 카드 [Fix bug](https://boards.example/c1)를 수정했습니다.\n"
          Pretext := "###### @alice님이 보드 `Roadmap`에서 카드 [Fix bug](https://boards.example/c1)를 수정했습니다.\n"
          TitleLink := "https://boards.example/c1"
          Fields :=
            [ { Title := "제목", Value := "T2  ~~`T1`~~", Short := false },
              { Title := "Status", Value := "B  ~~`A`~~", Short := false },
              { Title := "설명", Value := "~~first¶ draft~~ final", Short := false } ] }) :=
  modified_fields_order exParse exMarkdownDiff exModifiedDiff exOpts []
    { Fallback := "###### @alice님이 보드 `Roadmap`에서 카드 [Fix bug](https://boards.example/c1)를 수정했습니다.\n"
      Pretext := "###### @alice님이 보드 `Roadmap`에서 카드 [Fix bug](https://boards.example/c1)를 수정했습니다.\n"
      TitleLink := "https://boards.example/c1"
      Fields :=
        [ { Title := "제목", Value := "T2  ~~`T1`~~", Short := false },
          { Title := "Status", Value := "B  ~~`A`~~", Short := false },
          { Title := "설명", Value := "~~first¶ draft~~ final", Short := false } ] }
    ⟨_, _, rfl, rfl, rfl⟩ (by decide)

/-- C6 (as amended). `appendPropertyChanges` appends exactly one field per
property diff whose new value differs from the old one, in the order of
`PropDiffs`, and none for the others; the title of the field is the property
name and its value is the new value alone when the old value is empty, and
otherwise the normalized new value, two spaces and the normalized old value
struck through in backticks. A single property diff `Status` from `A` to `B`
yields the one field with value ``B  ~~`A`~~``. -/
theorem appendPropertyChanges_fields :
    (∀ (fields : List SlackAttachmentField) (d : Diff),
      appendPropertyChanges fields d = fields ++ d.PropDiffs.filterMap propertyField) ∧
    (∀ p : PropDiff, propertyField p = none ↔ p.NewValue = p.OldValue) ∧
    (∀ p : PropDiff, p.NewValue ≠ p.OldValue → p.OldValue = "" →
      propertyField p = some { Title := p.Name, Value := p.NewValue, Short := false }) ∧
    (∀ p : PropDiff, p.NewValue ≠ p.OldValue → p.OldValue ≠ "" →
      propertyField p = some
        { Title := p.Name
          Value := stripNewlines p.NewValue ++ "  ~~`" ++ stripNewlines p.OldValue ++ "`~~"
          Short := false }) ∧
    (∀ d : Diff, d.PropDiffs = [{ Name := "Status", OldValue := "A", NewValue := "B" }] →
      appendPropertyChanges [] d = [{ Title := "Status", Value := "B  ~~`A`~~", Short := false }]) := by
  refine ⟨appendPropertyChanges_eq, ?_, ?_, ?_, ?_⟩
  · intro p
    unfold propertyField
    by_cases h1 : p.NewValue = p.OldValue
    · simp [h1]
    · by_cases h2 : p.OldValue = "" <;> simp [h1, h2]
  · intro p h1 h2
    have h3 : p.NewValue ≠ "" := fun h => h1 (h.trans h2.symm)
    simp [propertyField, h2, h3]
  · intro p h1 h2
    simp [propertyField, h1, h2]
  · intro d hd
    rw [appendPropertyChanges_eq, hd]
    decide

/-- C6 as stated fails: for the property diff `Status` from `A` to `B\nC` the
value of the field is not the new value, two spaces and the old value struck
through; the newline of the new value has been replaced. -/
theorem appendPropertyChanges_normalizes :
    appendPropertyChanges [] exNewlinePropDiff ≠
        [{ Title := "Status", Value := "B\nC" ++ "  ~~`" ++ "A" ++ "`~~", Short := false }] ∧
      appendPropertyChanges [] exNewlinePropDiff =
        [{ Title := "Status", Value := "B¶ C  ~~`A`~~", Short := false }] :=
  ⟨by decide, by decide⟩

/-- C7. `appendTitleChanges` appends exactly one field when the titles of
`NewBlock` and `OldBlock` differ and nothing when they are equal; the value of
the field is the normalized new title, two spaces and the normalized old title
struck through in backticks, where normalization is `strings.TrimSpace` after
the replacement of every newline by the separator glyph, so that the value
contains no newline. Titles `T1` to `T2` with nothing else changed yield the
single field with value ``T2  ~~`T1`~~``. -/
theorem appendTitleChanges_field (fields : List SlackAttachmentField) (d : Diff) (nb ob : Block)
    (hnew : d.NewBlock = some nb) (hold : d.OldBlock = some ob) :
    (nb.Title = ob.Title → appendTitleChanges fields d = some fields) ∧
    (nb.Title ≠ ob.Title → appendTitleChanges fields d = some (fields ++
      [{ Title := "제목"
         Value := stripNewlines nb.Title ++ "  ~~`" ++ stripNewlines ob.Title ++ "`~~"
         Short := false }])) ∧
    '\n' ∉ (stripNewlines nb.Title ++ "  ~~`" ++ stripNewlines ob.Title ++ "`~~").data ∧
    (∀ s : String, stripNewlines s = trimSpace ⟨replaceNewlinesChars s.data⟩) ∧
    (∀ gen : String → String → String, nb.Title = "T2" → ob.Title = "T1" → d.PropDiffs = [] →
      d.Diffs = [] →
      modifiedFields gen d = some [{ Title := "제목", Value := "T2  ~~`T1`~~", Short := false }]) := by
  refine ⟨?_, ?_, ?_, ?_, ?_⟩
  · intro h
    simp [appendTitleChanges, hnew, hold, h]
  · intro h
    simp [appendTitleChanges, hnew, hold, h]
  · simp only [String.data_append, List.mem_append, not_or]
    exact ⟨⟨⟨not_mem_stripNewlines _, by decide⟩, not_mem_stripNewlines _⟩, by decide⟩
  · intro s
    rfl
  · intro gen h2 h1 hp hd
    have e1 : stripNewlines "T2" = "T2" := by decide
    have e2 : stripNewlines "T1" = "T1" := by decide
    have e3 : ("T2" : String) ≠ "T1" := by decide
    simp [modifiedFields, appendTitleChanges, hnew, hold, h2, h1, e1, e2, e3,
      appendPropertyChanges, hp, appendAttachmentChanges, hd, appendContentChanges]

/-- C7 at `exModifiedDiff`, whose title changes from `T1` to `T2`. -/
theorem appendTitleChanges_field_witness :
    appendTitleChanges [] exModifiedDiff = some
      [{ Title := "제목"
         Value := stripNewlines "T2" ++ "  ~~`" ++ stripNewlines "T1" ++ "`~~"
         Short := false }] :=
  (appendTitleChanges_field [] exModifiedDiff { ID := "c1", Title := "T2", DeleteAt := 0 }
    { ID := "c1", Title := "T1", DeleteAt := 0 } rfl rfl).2.1 (by decide)

/-- C8 (as amended). No content field is emitted for a child diff when one of
the two texts that `appendContentChanges` hands to the text diff contains a
mention. In terms of the blocks: a mention in `NewBlock.Title` suppresses the
field for image and attachment children, and for the other types unless the
child is a deletion; a mention in `OldBlock.Title` suppresses the field for
every type other than image and attachment. -/
theorem content_mention_suppressed (gen : String → String → String) (child : Diff) :
    (∀ oldTitle newTitle, contentTitles child = some (oldTitle, newTitle) →
      mentionPatternMatchString newTitle = true ∨ mentionPatternMatchString oldTitle = true →
      contentChange gen child = none) ∧
    (∀ nb, child.NewBlock = some nb → mentionPatternMatchString nb.Title = true →
      (child.BlockType = .TypeImage ∨ child.BlockType = .TypeAttachment ∨
        child.OldBlock = none ∨ nb.DeleteAt = 0) →
      contentChange gen child = none) ∧
    (∀ ob, child.OldBlock = some ob → mentionPatternMatchString ob.Title = true →
      child.BlockType ≠ .TypeImage → child.BlockType ≠ .TypeAttachment →
      contentChange gen child = none) := by
  refine ⟨fun o n hct h => contentChange_mention gen child o n hct h, ?_, ?_⟩
  · intro nb hnb hm hcase
    by_cases hdc : child.BlockType = .TypeComment ∨ child.BlockType = .TypeDivider
    · exact contentChange_divider_comment gen child hdc
    · by_cases hia : child.BlockType = .TypeImage ∨ child.BlockType = .TypeAttachment
      · obtain ⟨n, hct, hn⟩ := contentTitles_image_attachment child hia
        refine contentChange_mention gen child "" n hct (Or.inl ?_)
        rw [hn nb hnb (mention_ne_empty _ hm)]
        exact hm
      · have hold : child.OldBlock = none ∨ nb.DeleteAt = 0 := by
          rcases hcase with h | h | h | h
          · exact absurd (Or.inl h) hia
          · exact absurd (Or.inr h) hia
          · exact Or.inl h
          · exact Or.inr h
        refine contentChange_text_mention gen child (fun h => hdc (Or.inr h))
          (fun h => hdc (Or.inl h)) (fun h => hia (Or.inl h)) (fun h => hia (Or.inr h)) (Or.inl ?_)
        rcases specTexts_new child nb hnb hold with h | h
        · rw [h]; exact hm
        · rw [h]; exact mention_stripNewlines _ hm
  · intro ob hob hm hni hna
    by_cases hdc : child.BlockType = .TypeComment ∨ child.BlockType = .TypeDivider
    · exact contentChange_divider_comment gen child hdc
    · refine contentChange_text_mention gen child (fun h => hdc (Or.inr h))
        (fun h => hdc (Or.inl h)) hni hna (Or.inr ?_)
      rw [specTexts_old child ob hob]
      exact mention_stripNewlines _ hm

/-- C8 as stated fails: the old caption of the image child `exImageChild`
contains the mention `@bob`, and yet a content field is emitted for it. -/
theorem content_mention_in_old_image_title :
    exImageChild.OldBlock = some { ID := "k4", Title := "photo by @bob", DeleteAt := 0 } ∧
      mentionPatternMatchString "photo by @bob" = true ∧
      contentChange exMarkdownDiff exImageChild =
        some { Title := "설명", Value := "~~~~ photo", Short := false } ∧
      appendContentChanges exMarkdownDiff []
          { exUnchangedDiff with Diffs := [exImageChild] } =
        [{ Title := "설명", Value := "~~~~ photo", Short := false }] :=
  ⟨rfl, by decide, by decide, by decide⟩

/-- C9. For a card diff whose child diffs are all of block type divider or
comment, `appendContentChanges` returns its input field list unchanged,
whatever the blocks of the children are. -/
theorem appendContentChanges_divider_comment (gen : String → String → String)
    (fields : List SlackAttachmentField) (d : Diff)
    (h : ∀ c ∈ d.Diffs, c.BlockType = .TypeDivider ∨ c.BlockType = .TypeComment) :
    appendContentChanges gen fields d = fields := by
  rw [appendContentChanges_eq]
  have hnil : d.Diffs.filterMap (contentChange gen) = [] := by
    rw [List.filterMap_eq_nil_iff]
    intro c hc
    exact contentChange_divider_comment gen c ((h c hc).symm)
  rw [hnil, List.append_nil]

/-- C9 at `exUnchangedDiff`, whose children are an added comment and a removed
divider, with a field already in the list. -/
theorem appendContentChanges_divider_comment_witness :
    appendContentChanges exMarkdownDiff [{ Title := "제목", Value := "v", Short := false }]
        exUnchangedDiff =
      [{ Title := "제목", Value := "v", Short := false }] :=
  appendContentChanges_divider_comment exMarkdownDiff _ exUnchangedDiff (by decide)

/-- C10. For a child diff of a block type other than divider, comment, image
and attachment, the texts handed to the text diff are those of the
specification (`specTexts`: the raw titles with an empty old text for an
addition; otherwise both normalized, the new one empty for a deletion); the
child yields at most one field, none when the two texts are equal or the
markdown is empty, and an emitted field has the description title and the
markdown of the two texts as value. -/
theorem content_text_child (gen : String → String → String) (child : Diff)
    (h1 : child.BlockType ≠ .TypeDivider) (h2 : child.BlockType ≠ .TypeComment)
    (h3 : child.BlockType ≠ .TypeImage) (h4 : child.BlockType ≠ .TypeAttachment) :
    (contentTitles child =
      if (specTexts child).1 = (specTexts child).2 then none else some (specTexts child)) ∧
    (contentChange gen child = none ∨
      contentChange gen child = some
        { Title := "설명", Value := gen (specTexts child).1 (specTexts child).2, Short := false }) ∧
    ((specTexts child).1 = (specTexts child).2 ∨ gen (specTexts child).1 (specTexts child).2 = "" →
      contentChange gen child = none) ∧
    (∀ fields : List SlackAttachmentField,
      appendContentChange gen fields child = fields ++ (contentChange gen child).toList ∧
      (appendContentChange gen fields child).length ≤ fields.length + 1) ∧
    (∀ (fields : List SlackAttachmentField) (d : Diff),
      appendContentChanges gen fields d = fields ++ d.Diffs.filterMap (contentChange gen)) := by
  have hct := contentTitles_text child h1 h2 h3 h4
  refine ⟨hct, ?_, ?_, ?_, appendContentChanges_eq gen⟩
  · by_cases heq : (specTexts child).1 = (specTexts child).2
    · left
      rw [if_pos heq] at hct
      simp [contentChange, hct]
    · rw [if_neg heq] at hct
      simp only [contentChange, hct, contentField]
      split
      · left; rfl
      · split
        · left; rfl
        · right; rfl
  · intro h
    by_cases heq : (specTexts child).1 = (specTexts child).2
    · rw [if_pos heq] at hct
      simp [contentChange, hct]
    · rw [if_neg heq] at hct
      rcases h with h | h
      · exact absurd h heq
      · simp [contentChange, hct, contentField, h]
  · intro fields
    unfold appendContentChange
    cases contentChange gen child <;> simp

/-- C10 at the edited text block `exTextChild`: the old text is normalized and
the one field carries the markdown of the two texts. -/
theorem content_text_child_witness :
    specTexts exTextChild = ("first¶ draft", "final") ∧
      contentChange exMarkdownDiff exTextChild =
        some { Title := "설명", Value := "~~first¶ draft~~ final", Short := false } :=
  ⟨by decide,
    ((content_text_child exMarkdownDiff exTextChild (by decide) (by decide) (by decide)
      (by decide)).2.1).resolve_left (by decide)⟩

/-- C11, the code at the failing input: for the renamed attachment child
`exRenamedAttachmentChild`, whose two blocks are present and whose new block is
not deleted, `appendAttachmentChanges` emits the removed form with the old
title. -/
theorem attachment_renamed_reported_removed :
    exRenamedAttachmentChild.BlockType = .TypeAttachment ∧
      exRenamedAttachmentChild.NewBlock =
        some { ID := "f1", Title := "final.pdf", DeleteAt := 0 } ∧
      exRenamedAttachmentChild.OldBlock =
        some { ID := "f1", Title := "draft.pdf", DeleteAt := 0 } ∧
      appendAttachmentChanges [] { exUnchangedDiff with Diffs := [exRenamedAttachmentChild] } =
        some [{ Title := "@alice님이 변경함", Value := "첨부 파일 삭제: ~~`draft.pdf`~~",
                Short := false }] :=
  ⟨rfl, rfl, rfl, by decide⟩

/-- C12, the code at the failing inputs: for an attachment child with both
blocks null `appendAttachmentChanges` panics, and so does the conversion of the
card; for an image child with both blocks null `appendContentChanges` emits a
field. A text child with both blocks null is skipped. -/
theorem null_child_not_skipped :
    appendAttachmentChanges [] { exUnchangedDiff with Diffs := [exNullAttachmentChild] } = none ∧
      (cardDiff2SlackAttachment exParse exMarkdownDiff
        { exUnchangedDiff with Diffs := [exNullAttachmentChild] } exOpts []).1 = .panic ∧
      appendContentChanges exMarkdownDiff []
          { exUnchangedDiff with Diffs := [exNullImageChild] } =
        [{ Title := "설명", Value := "~~~~ 이미지가 삭제됨.", Short := false }] ∧
      appendContentChanges exMarkdownDiff []
          { exUnchangedDiff with Diffs := [exNullAttachmentChild] } =
        [{ Title := "설명", Value := "~~~~ 첨부 파일이 삭제됨.", Short := false }] ∧
      appendContentChanges exMarkdownDiff []
          { exUnchangedDiff with Diffs := [exNullTextChild] } = [] :=
  ⟨by decide, by decide, by decide, by decide, by decide⟩

/-- C13, the code at the failing inputs: with options that supply no link
builder, the conversion of the added card `exAddedDiff` and of the modified
card `exModifiedDiff` panics in the call of the nil `MakeCardLink`, and the
conversion of the removed card `exDeletedDiff` returns the error of the default
link builder on the nil new block. -/
theorem no_link_builder_fails :
    exOptsNoLinks.MakeCardLink = none ∧ exOptsNoLinks.MakeBoardLink = none ∧
      (cardDiff2SlackAttachment exParse exMarkdownDiff exAddedDiff exOptsNoLinks []).1 = .panic ∧
      (cardDiff2SlackAttachment exParse exMarkdownDiff exModifiedDiff exOptsNoLinks []).1 = .panic ∧
      (cardDiff2SlackAttachment exParse exMarkdownDiff exDeletedDiff exOptsNoLinks []).1 =
        .err (.execute "DeleteCardNotify&en") :=
  ⟨rfl, rfl, by decide, by decide, by decide⟩

/-- C14 (as amended). `makeAuthorsList` returns the fallback for the empty
author set; for a non-empty set whose values are yielded in the order
`v1..vn` it returns `@` and the trimmed `vi` for each of them in that order,
separated by a comma and a space, so that the text starts with `@` and ends
with the last trimmed value; trimming removes the leading and the trailing
white space of a value and nothing else; the result is the fallback exactly
when the set is empty or the fallback is itself the rendered list, hence
exactly when the set is empty for a fallback that does not start with `@`, as
the one the code passes. -/
theorem makeAuthorsList_spec :
    (∀ empty : String, makeAuthorsList [] empty = empty) ∧
    (∀ (authors : StringMap) (empty : String), authors ≠ [] →
      makeAuthorsList authors empty = authorsListSpec authors.Values) ∧
    (∀ (authors : StringMap) (empty : String), authors ≠ [] →
      (makeAuthorsList authors empty).data.head? = some '@') ∧
    (∀ (authors : StringMap) (k v empty : String), ∃ pre : String,
      makeAuthorsList (authors ++ [(k, v)]) empty = pre ++ "@" ++ trimSpace v ∧
        (authors = [] → pre = "")) ∧
    (∀ v : String, ∃ pre post : List Char, v.data = pre ++ (trimSpace v).data ++ post ∧
      (∀ c ∈ pre, isSpace c = true) ∧ (∀ c ∈ post, isSpace c = true) ∧
      (∀ c, (trimSpace v).data.head? = some c → isSpace c = false) ∧
      (∀ c, (trimSpace v).data.getLast? = some c → isSpace c = false)) ∧
    (∀ (authors : StringMap) (empty : String),
      makeAuthorsList authors empty = empty ↔
        authors = [] ∨ empty = authorsListSpec authors.Values) ∧
    (∀ (authors : StringMap) (empty : String), empty.data.head? ≠ some '@' →
      (makeAuthorsList authors empty = empty ↔ authors = [])) ∧
    (∀ authors : StringMap,
      makeAuthorsList authors "알 수 없는 사용자" = "알 수 없는 사용자" ↔ authors = []) ∧
    makeAuthorsList [("u1", "  alice "), ("u2", "bob\n"), ("u3", "\tcarol d")]
      "알 수 없는 사용자" = "@alice, @bob, @carol d" := by
  have hnil : ∀ empty : String, makeAuthorsList [] empty = empty := by
    intro empty
    simp [makeAuthorsList]
  have hhead : ∀ (authors : StringMap) (empty : String), authors ≠ [] →
      (makeAuthorsList authors empty).data.head? = some '@' := by
    intro authors empty h
    rw [makeAuthorsList_nonempty authors empty h]
    apply authorsListSpec_head
    intro hv
    apply h
    simpa [StringMap.Values] using hv
  have hiff : ∀ (authors : StringMap) (empty : String), empty.data.head? ≠ some '@' →
      (makeAuthorsList authors empty = empty ↔ authors = []) := by
    intro authors empty hne
    constructor
    · intro heq
      by_contra h
      have := hhead authors empty h
      rw [heq] at this
      exact hne this
    · intro h
      rw [h]
      exact hnil empty
  refine ⟨hnil, makeAuthorsList_nonempty, hhead, ?_, ?_, ?_, hiff, ?_, by decide⟩
  · intro authors k v empty
    rw [makeAuthorsList_nonempty _ _ (by simp)]
    obtain ⟨pre, hpre, hp⟩ := authorsListSpec_last authors.Values v
    refine ⟨pre, ?_, ?_⟩
    · simpa [StringMap.Values] using hpre
    · intro h
      apply hp
      simp [h, StringMap.Values]
  · intro v
    exact trimSpaceChars_spec v.data
  · intro authors empty
    by_cases h : authors = []
    · simp [h, hnil]
    · rw [makeAuthorsList_nonempty authors empty h]
      constructor
      · intro heq
        exact Or.inr heq.symm
      · intro heq
        rcases heq with h1 | h1
        · exact absurd h1 h
        · exact h1.symm
  · intro authors
    exact hiff authors _ (by decide)

/-- C14 as stated fails. The author set with the entries `u1: alice` and
`u2: bob` gives `@alice, @bob` when its values are yielded in one order and
`@bob, @alice` when they are yielded in the other, so the result is not a
function of the set and the fallback; and for the non-empty set with the one
author `bob` and the fallback `@bob` the result is the fallback. -/
theorem makeAuthorsList_order_and_fallback :
    List.Perm ([("u1", "alice"), ("u2", "bob")] : StringMap) [("u2", "bob"), ("u1", "alice")] ∧
      makeAuthorsList [("u1", "alice"), ("u2", "bob")] "알 수 없는 사용자" = "@alice, @bob" ∧
      makeAuthorsList [("u2", "bob"), ("u1", "alice")] "알 수 없는 사용자" = "@bob, @alice" ∧
      ([("u2", "bob")] : StringMap) ≠ [] ∧
      makeAuthorsList [("u2", "bob")] "@bob" = "@bob" :=
  ⟨List.Perm.swap _ _ _, by decide, by decide, by decide, by decide⟩

/-- C15. After a successful `getTemplate` for a name and a language, every
further call with the same name and language returns the stored template
without compiling (whatever the parser, the source and the link builders of
that call are) and leaves the cache unchanged; a call with the same name and
another language that is not cached yet compiles its own source and adds its
own entry in front of the cache; and no call ever removes or replaces an
entry. -/
theorem getTemplate_reuse (parse : String → Option (List Node)) (name defn : String)
    (opts : DiffConvOpts) (cache cache1 : TemplateCache) (t : Template)
    (hfirst : getTemplate parse name opts defn cache = (.ok t, cache1)) :
    (∀ (parse2 : String → Option (List Node)) (opts2 : DiffConvOpts) (defn2 : String),
      opts2.Language = opts.Language →
      getTemplate parse2 name opts2 defn2 cache1 = (.ok t, cache1)) ∧
    (∀ (parse2 : String → Option (List Node)) (opts2 : DiffConvOpts) (defn2 : String)
      (tree2 : List Node), opts2.Language ≠ opts.Language →
      cache.lookup (cacheKey name opts2.Language) = none →
      templateParse parse2 defn2 = some tree2 →
      ∃ t2, getTemplate parse2 name opts2 defn2 cache1 =
          (.ok t2, (cacheKey name opts2.Language, t2) :: cache1) ∧
        t2.tree = tree2 ∧ t2.name = cacheKey name opts2.Language) ∧
    (∀ (parse2 : String → Option (List Node)) (name2 : String) (opts2 : DiffConvOpts)
      (defn2 k : String) (t0 : Template), cache1.lookup k = some t0 →
      (getTemplate parse2 name2 opts2 defn2 cache1).2.lookup k = some t0) := by
  have hstored := getTemplate_ok_lookup parse name defn opts cache cache1 t hfirst
  refine ⟨?_, ?_, ?_⟩
  · intro parse2 opts2 defn2 hlang
    apply getTemplate_hit
    rw [hlang]
    exact hstored
  · intro parse2 opts2 defn2 tree2 hlang hmiss hparse
    have hkey : cacheKey name opts2.Language ≠ cacheKey name opts.Language :=
      fun h => hlang (cacheKey_language_inj name _ _ h)
    have hc1 : cache1.lookup (cacheKey name opts2.Language) = none := by
      have h1 := getTemplate_lookup_other parse name defn opts cache _ hkey
      rw [hfirst] at h1
      rw [h1]
      exact hmiss
    obtain ⟨t2, ht2, htree, hname, _⟩ :=
      getTemplate_miss_ok parse2 name defn2 opts2 cache1 tree2 hc1 hparse
    exact ⟨t2, ht2, htree, hname⟩
  · intro parse2 name2 opts2 defn2 k t0 hk
    exact getTemplate_lookup_mono parse2 name2 defn2 opts2 cache1 k t0 hk

/-- C15 at the add-card template: compiled for `exOpts` on the empty cache, it
is returned to a second call in the same language although that call brings a
source that does not parse and another link builder. -/
theorem getTemplate_reuse_witness :
    getTemplate exParse "AddCardNotify" exOptsEmptyLink exBadSource
        [("AddCardNotify&en", exAddTemplate)] =
      (.ok exAddTemplate, [("AddCardNotify&en", exAddTemplate)]) :=
  (getTemplate_reuse exParse "AddCardNotify" defAddCardNotify exOpts []
    [("AddCardNotify&en", exAddTemplate)] exAddTemplate rfl).1 exParse exOptsEmptyLink
    exBadSource rfl

/-- C16. When the key is not cached and the supplied source does not compile,
`getTemplate` returns an error and no template and leaves the cache as it was,
without an entry for the key; a later call with the same name and language and
a source that compiles then compiles it, returns the template and stores it. -/
theorem getTemplate_compile_failure (parse : String → Option (List Node)) (name defn : String)
    (opts : DiffConvOpts) (cache : TemplateCache)
    (hmiss : cache.lookup (cacheKey name opts.Language) = none)
    (hfail : templateParse parse defn = none) :
    getTemplate parse name opts defn cache =
      (.error (.cannotParse (cacheKey name opts.Language)), cache) ∧
    (getTemplate parse name opts defn cache).2.lookup (cacheKey name opts.Language) = none ∧
    (∀ (parse2 : String → Option (List Node)) (opts2 : DiffConvOpts) (defn2 : String)
      (tree2 : List Node), opts2.Language = opts.Language →
      templateParse parse2 defn2 = some tree2 →
      ∃ t, getTemplate parse2 name opts2 defn2 (getTemplate parse name opts defn cache).2 =
          (.ok t, (cacheKey name opts.Language, t) :: cache) ∧ t.tree = tree2) := by
  have h1 := getTemplate_miss_fail parse name defn opts cache hmiss hfail
  refine ⟨h1, ?_, ?_⟩
  · rw [h1]
    exact hmiss
  · intro parse2 opts2 defn2 tree2 hlang hparse
    rw [h1]
    have hmiss2 : cache.lookup (cacheKey name opts2.Language) = none := by
      rw [hlang]
      exact hmiss
    obtain ⟨t, ht, htree, _⟩ := getTemplate_miss_ok parse2 name defn2 opts2 cache tree2 hmiss2 hparse
    rw [hlang] at ht
    exact ⟨t, ht, htree⟩

/-- C16 on the empty cache with the source `exBadSource`, whose action is not
closed: the call returns the parse error and the cache stays empty. -/
theorem getTemplate_compile_failure_witness :
    getTemplate exParse "AddCardNotify" exOpts exBadSource [] =
      (.error (.cannotParse "AddCardNotify&en"), []) :=
  (getTemplate_compile_failure exParse "AddCardNotify" exBadSource exOpts [] rfl
    (by decide)).1

/-- C17 (as amended). For two different pairs (name, language) whose names
contain no `&`, as the three template names of this package, the cache keys of
`getTemplate` differ, and compiling a template for one pair does not change
what the cache holds for the other. -/
theorem cacheKey_distinct (name1 name2 lang1 lang2 : String) (h1 : '&' ∉ name1.data)
    (h2 : '&' ∉ name2.data) (hne : (name1, lang1) ≠ (name2, lang2)) :
    cacheKey name1 lang1 ≠ cacheKey name2 lang2 ∧
    (∀ (parse : String → Option (List Node)) (opts1 : DiffConvOpts) (defn1 : String)
      (cache : TemplateCache), opts1.Language = lang1 →
      (getTemplate parse name1 opts1 defn1 cache).2.lookup (cacheKey name2 lang2) =
        cache.lookup (cacheKey name2 lang2)) ∧
    (∀ name tree, (name, tree) ∈ notifyTemplates → '&' ∉ name.data) := by
  have hkey : cacheKey name1 lang1 ≠ cacheKey name2 lang2 := by
    intro h
    obtain ⟨hn, hl⟩ := cacheKey_inj name1 name2 lang1 lang2 h1 h2 h
    exact hne (by rw [hn, hl])
  refine ⟨hkey, ?_, ?_⟩
  · intro parse opts1 defn1 cache hlang
    apply getTemplate_lookup_other
    rw [hlang]
    exact fun h => hkey h.symm
  · intro name tree hmem
    simp only [notifyTemplates, List.mem_cons, Prod.mk.injEq, List.mem_singleton,
      List.not_mem_nil, or_false] at hmem
    rcases hmem with ⟨h, _⟩ | ⟨h, _⟩ | ⟨h, _⟩ <;> subst h <;> decide

/-- C17, the amended statement at the add-card and the delete-card template in
the language `en`. -/
theorem cacheKey_distinct_witness :
    cacheKey "AddCardNotify" "en" ≠ cacheKey "DeleteCardNotify" "en" :=
  (cacheKey_distinct "AddCardNotify" "DeleteCardNotify" "en" "en" (by decide) (by decide)
    (by decide)).1

/-- C17 as stated fails: the pairs (`Card`, `ko&v2`) and (`Card&ko`, `v2`)
differ and have the same cache key, so that the template compiled for the first
pair is returned to a call for the second pair. -/
theorem cacheKey_collision :
    (("Card", "ko&v2") : String × String) ≠ ("Card&ko", "v2") ∧
      cacheKey "Card" "ko&v2" = cacheKey "Card&ko" "v2" ∧
      (getTemplate exParse "Card&ko" exOptsV2 defDeleteCardNotify
          (getTemplate exParse "Card" exOptsKoV2 defAddCardNotify []).2).1 =
        (getTemplate exParse "Card" exOptsKoV2 defAddCardNotify []).1 ∧
      (match (getTemplate exParse "Card&ko" exOptsV2 defDeleteCardNotify
          (getTemplate exParse "Card" exOptsKoV2 defAddCardNotify []).2).1 with
        | .ok t => t.tree = addCardTree
        | .error _ => False) :=
  ⟨by decide, by decide, rfl, rfl⟩

/-- C18. `Diffs2SlackAttachments` returns, in input order, exactly the
attachments of the outcomes of `cardDiff2SlackAttachment` for the card diffs of
the batch (it returns unless one of these calls panics); diffs of other block
types contribute nothing, so that the batch without them gives the same result;
and an outcome that is an error contributes no attachment and leaves the
attachments of the outcomes before and after it in place. -/
theorem Diffs2SlackAttachments_attachments (parse : String → Option (List Node))
    (gen : String → String → String) (diffs : List Diff) (opts : DiffConvOpts)
    (cache : TemplateCache) :
    ((Diffs2SlackAttachments parse gen diffs opts cache).1 =
      if (cardOutcomes parse gen opts diffs cache).any Outcome.isPanic = true then none
      else some
        ((cardOutcomes parse gen opts diffs cache).filterMap Outcome.attachment?,
          (cardOutcomes parse gen opts diffs cache).filterMap Outcome.error?)) ∧
    (∀ attachments errs,
      (Diffs2SlackAttachments parse gen diffs opts cache).1 = some (attachments, errs) →
      attachments = (cardOutcomes parse gen opts diffs cache).filterMap Outcome.attachment?) ∧
    (Diffs2SlackAttachments parse gen
        (diffs.filter (fun d => decide (d.BlockType = .TypeCard))) opts cache =
      Diffs2SlackAttachments parse gen diffs opts cache) ∧
    (∀ (before after : List (Outcome (Option SlackAttachment))) (e : Err),
      (before ++ [Outcome.err e] ++ after).filterMap Outcome.attachment? =
        before.filterMap Outcome.attachment? ++ after.filterMap Outcome.attachment?) := by
  have heq := Diffs2SlackAttachments_eq parse gen diffs opts cache
  refine ⟨heq, ?_, ?_, ?_⟩
  · intro attachments errs h
    rw [heq] at h
    split at h
    · simp at h
    · simp only [Option.some.injEq, Prod.mk.injEq] at h
      exact h.1.symm
  · unfold Diffs2SlackAttachments
    exact diffsLoop_filter_card parse gen opts diffs [] [] cache
  · intro before after e
    simp [List.filterMap_append, Outcome.attachment?]

/-- C19. When `Diffs2SlackAttachments` returns, its error aggregates, in input
order, one error for each card diff whose conversion returned an error; it is
nil if and only if no conversion returned an error, in particular when every
conversion yields no attachment and no error, and for the empty batch. -/
theorem Diffs2SlackAttachments_error (parse : String → Option (List Node))
    (gen : String → String → String) (diffs : List Diff) (opts : DiffConvOpts)
    (cache : TemplateCache) (attachments : List SlackAttachment) (errs : List Err)
    (h : (Diffs2SlackAttachments parse gen diffs opts cache).1 = some (attachments, errs)) :
    errs = (cardOutcomes parse gen opts diffs cache).filterMap Outcome.error? ∧
    (errs = [] ↔ ∀ o ∈ cardOutcomes parse gen opts diffs cache, ∀ e, o ≠ .err e) ∧
    errs.length =
      (cardOutcomes parse gen opts diffs cache).countP (fun o => o.error?.isSome) ∧
    ((∀ o ∈ cardOutcomes parse gen opts diffs cache, o = .ok none) →
      errs = [] ∧ attachments = []) ∧
    (Diffs2SlackAttachments parse gen [] opts cache).1 = some ([], []) := by
  have heq := Diffs2SlackAttachments_eq parse gen diffs opts cache
  rw [heq] at h
  split at h
  · simp at h
  simp only [Option.some.injEq, Prod.mk.injEq] at h
  obtain ⟨hatt, herr⟩ := h
  refine ⟨herr.symm, ?_, ?_, ?_, rfl⟩
  · rw [← herr, List.filterMap_eq_nil_iff]
    constructor
    · intro hall o ho e hoe
      have := hall o ho
      rw [hoe] at this
      simp [Outcome.error?] at this
    · intro hall o ho
      cases o with
      | err e => exact absurd rfl (hall _ ho e)
      | ok v => rfl
      | panic => rfl
  · rw [← herr]
    generalize cardOutcomes parse gen opts diffs cache = outs
    induction outs with
    | nil => rfl
    | cons o rest ih =>
      cases o with
      | err e => simp [Outcome.error?, List.filterMap_cons, List.countP_cons, ih]
      | ok v => simp [Outcome.error?, List.filterMap_cons, List.countP_cons, ih]
      | panic => simp [Outcome.error?, List.filterMap_cons, List.countP_cons, ih]
  · intro hall
    rw [← herr, ← hatt, List.filterMap_eq_nil_iff, List.filterMap_eq_nil_iff]
    constructor
    · intro o ho
      rw [hall o ho]
      rfl
    · intro o ho
      rw [hall o ho]
      rfl

/-- C19 at a batch of an added, a removed and a modified card, on a cache in
which the delete-card template was compiled without a link builder: the removed
card fails, its error is the only one, and the attachments of the cards before
and after it are returned. -/
theorem Diffs2SlackAttachments_error_witness :
    [Err.execute "DeleteCardNotify&en"] =
        (cardOutcomes exParse exMarkdownDiff exOpts [exAddedDiff, exDeletedDiff, exModifiedDiff]
          (cardDiff2SlackAttachment exParse exMarkdownDiff exDeletedDiff exOptsNoLinks []).2).filterMap
          Outcome.error? :=
  (Diffs2SlackAttachments_error exParse exMarkdownDiff
    [exAddedDiff, exDeletedDiff, exModifiedDiff] exOpts
    (cardDiff2SlackAttachment exParse exMarkdownDiff exDeletedDiff exOptsNoLinks []).2
    [ { Fallback := "@alice님이 카드 [Fix bug](https://boards.example/c1)를 추가했습니다.\n"
        Pretext := "@alice님이 카드 [Fix bug](https://boards.example/c1)를 추가했습니다.\n"
        TitleLink := "https://boards.example/c1"
        Fields := [] },
      { Fallback := "###### @alice님이 보드 `Roadmap`에서 카드 [Fix bug](https://boards.example/c1)를 수정했습니다.\n"
        Pretext := "###### @alice님이 보드 `Roadmap`에서 카드 [Fix bug](https://boards.example/c1)를 수정했습니다.\n"
        TitleLink := "https://boards.example/c1"
        Fields :=
          [ { Title := "제목", Value := "T2  ~~`T1`~~", Short := false },
            { Title := "Status", Value := "B  ~~`A`~~", Short := false },
            { Title := "설명", Value := "~~first¶ draft~~ final", Short := false } ] } ]
    [Err.execute "DeleteCardNotify&en"] (by decide)).1

/-- C20. Every attachment that `cardDiff2SlackAttachment` returns, in whatever
state, has `Fallback` equal to `Pretext`, and every one of its fields has
`Short` false. -/
theorem attachment_fallback_short (parse : String → Option (List Node))
    (gen : String → String → String) (d : Diff) (opts : DiffConvOpts) (cache : TemplateCache)
    (a : SlackAttachment)
    (hres : (cardDiff2SlackAttachment parse gen d opts cache).1 = .ok (some a)) :
    a.Fallback = a.Pretext ∧ ∀ f ∈ a.Fields, f.Short = false := by
  have hnotice : ∀ name defn, (renderNotice parse name defn d opts cache).1 = .ok (some a) →
      a.Fallback = a.Pretext ∧ ∀ f ∈ a.Fields, f.Short = false := by
    intro name defn h
    unfold renderNotice at h
    rcases hx : execTemplate parse name opts defn d cache with ⟨r, c1⟩
    rw [hx] at h
    cases r with
    | error e => simp at h
    | ok pretext =>
      cases hl : titleLink opts d with
      | none => simp [hl] at h
      | some link =>
        simp only [hl, Outcome.ok.injEq, Option.some.injEq] at h
        rw [← h]
        exact ⟨rfl, by simp⟩
  cases hs : transitionRule d with
  | SKIP =>
    obtain ⟨hn, ho⟩ := (transitionRule_skip_iff d).mp hs
    simp [cardDiff2SlackAttachment, hn, ho] at hres
  | ADDED =>
    obtain ⟨hn, ho⟩ := (transitionRule_added_iff d).mp hs
    rw [cardDiff2SlackAttachment_added parse gen d opts cache hn ho] at hres
    exact hnotice _ _ hres
  | DELETED =>
    obtain ⟨hn, ho⟩ := (transitionRule_deleted_iff d).mp hs
    rw [cardDiff2SlackAttachment_deleted parse gen d opts cache hn ho] at hres
    exact hnotice _ _ hres
  | MODIFIED =>
    obtain ⟨nb, ob, hn, ho, hl⟩ := (transitionRule_modified_iff d).mp hs
    rw [cardDiff2SlackAttachment_modified parse gen d opts cache nb ob hn ho hl] at hres
    unfold renderModified at hres
    rcases hx : execTemplate parse "ModifyCardNotify" opts defModifyCardNotify d cache with ⟨r, c1⟩
    rw [hx] at hres
    cases r with
    | error e => simp at hres
    | ok pretext =>
      cases hlink : titleLink opts d with
      | none => simp [hlink] at hres
      | some link =>
        cases hmf : modifiedFields gen d with
        | none => simp [hlink, hmf] at hres
        | some fields =>
          cases fields with
          | nil => simp [hlink, hmf] at hres
          | cons f fs =>
            simp only [hlink, hmf, Outcome.ok.injEq, Option.some.injEq] at hres
            rw [← hres]
            exact ⟨rfl, modifiedFields_short gen d (f :: fs) hmf⟩

/-- C20 at the modified card `exModifiedDiff`, whose attachment has three
fields. -/
theorem attachment_fallback_short_witness :
    List.all
        [ ({ Title := "제목", Value := "T2  ~~`T1`~~", Short := false } : SlackAttachmentField),
          { Title := "Status", Value := "B  ~~`A`~~", Short := false },
          { Title := "설명", Value := "~~first¶ draft~~ final", Short := false } ]
        (fun f => !f.Short) = true :=
  List.all_eq_true.mpr (fun f hf => by
    simp [(attachment_fallback_short exParse exMarkdownDiff exModifiedDiff exOpts []
      { Fallback := "###### @alice님이 보드 `Roadmap`에서 카드 [Fix bug](https://boards.example/c1)를 수정했습니다.\n"
        Pretext := "###### @alice님이 보드 `Roadmap`에서 카드 [Fix bug](https://boards.example/c1)를 수정했습니다.\n"
        TitleLink := "https://boards.example/c1"
        Fields :=
          [ { Title := "제목", Value := "T2  ~~`T1`~~", Short := false },
            { Title := "Status", Value := "B  ~~`A`~~", Short := false },
            { Title := "설명", Value := "~~first¶ draft~~ final", Short := false } ] }
      (by decide)).2 f hf])

/-- C21 (as amended). For an `ADDED` card diff, when a `MakeCardLink` is
supplied and the add-card template in use was compiled with it, the `Pretext`
is the rendered author list (the unknown-user placeholder when the author set
is empty), followed by the added-card sentence with the markdown link
`[C](L)`, where `C` is the title of the card that the diff refers to and `L` is
the link builder applied to the new block, the board and the card of the diff;
`Fields` is empty. -/
theorem added_pretext_text (parse : String → Option (List Node))
    (gen : String → String → String) (d : Diff) (opts : DiffConvOpts) (cache : TemplateCache)
    (nb : Block) (f : Option Block → Board → Block → String)
    (hnew : d.NewBlock = some nb) (hold : d.OldBlock = none)
    (hlink : opts.MakeCardLink = some f) (hcache : CacheFromDefaults cache)
    (hbound : ∀ t, cache.lookup (cacheKey "AddCardNotify" opts.Language) = some t →
      t.makeCardLink = fun block board card => some (f block board card)) :
    (cardDiff2SlackAttachment parse gen d opts cache).1 = .ok (some
      { Pretext := makeAuthorsList d.Authors "알 수 없는 사용자" ++ "님이 카드 [" ++ d.Card.Title ++
          "](" ++ f (some nb) d.Board d.Card ++ ")를 추가했습니다.\n"
        Fallback := makeAuthorsList d.Authors "알 수 없는 사용자" ++ "님이 카드 [" ++ d.Card.Title ++
          "](" ++ f (some nb) d.Board d.Card ++ ")를 추가했습니다.\n"
        TitleLink := f (some d.Card) d.Board d.Card
        Fields := [] }) ∧
    (d.Authors = [] → makeAuthorsList d.Authors "알 수 없는 사용자" = "알 수 없는 사용자") ∧
    (d.Authors ≠ [] →
      makeAuthorsList d.Authors "알 수 없는 사용자" = authorsListSpec d.Authors.Values) := by
  refine ⟨?_, ?_, makeAuthorsList_nonempty d.Authors _⟩
  · have hx := execTemplate_add_text parse opts d cache f hlink hcache hbound
    rw [cardDiff2SlackAttachment_added parse gen d opts cache (by simp [hnew]) hold]
    unfold renderNotice
    rcases hr : execTemplate parse "AddCardNotify" opts defAddCardNotify d cache with ⟨r, c1⟩
    rw [hr] at hx
    simp only at hx
    rw [hx, hnew]
    simp [titleLink, hlink]
  · intro h
    simp [makeAuthorsList, h]

/-- C21, the amended statement at the added card `exAddedDiff` with the options
`exOpts` and an empty cache. -/
theorem added_pretext_text_witness :
    (cardDiff2SlackAttachment exParse exMarkdownDiff exAddedDiff exOpts []).1 = .ok (some
      { Pretext := "@alice님이 카드 [Fix bug](https://boards.example/c1)를 추가했습니다.\n"
        Fallback := "@alice님이 카드 [Fix bug](https://boards.example/c1)를 추가했습니다.\n"
        TitleLink := "https://boards.example/c1"
        Fields := [] }) :=
  (added_pretext_text exParse exMarkdownDiff exAddedDiff exOpts [] exCard
    (fun _ _ card => "https://boards.example/" ++ card.ID) rfl rfl rfl
    (fun _ _ _ _ t h => by simp at h) (fun t h => by simp at h)).1

/-- C21 as stated fails: for the added card `exAddedOtherTitleDiff`, whose new
block has the title `Renamed` while the card it refers to has the title
`Fix bug`, the link text of the pretext is the title of the card, and the
pretext does not contain a link with the title of the new block. -/
theorem added_pretext_uses_card_title :
    exAddedOtherTitleDiff.NewBlock = some { ID := "c1", Title := "Renamed", DeleteAt := 0 } ∧
      exAddedOtherTitleDiff.OldBlock = none ∧
      (cardDiff2SlackAttachment exParse exMarkdownDiff exAddedOtherTitleDiff exOpts []).1 =
        .ok (some
          { Pretext := "@alice님이 카드 [Fix bug](https://boards.example/c1)를 추가했습니다.\n"
            Fallback := "@alice님이 카드 [Fix bug](https://boards.example/c1)를 추가했습니다.\n"
            TitleLink := "https://boards.example/c1"
            Fields := [] }) ∧
      ¬ ("[Renamed](".data <:+:
        "@alice님이 카드 [Fix bug](https://boards.example/c1)를 추가했습니다.\n".data) :=
  ⟨rfl, rfl, by decide, by decide⟩

/-- C22. `BlockSuiteDoc.IsValid` returns no error if and only if `DocID`,
`CardID` and `BoardID` are non-empty and `Snapshot` is not nil (an empty
snapshot that is not nil is valid); otherwise it returns the error of the
first failing check in the order doc_id, card_id, board_id, snapshot; and
`UpsertBlockSuiteDoc` returns that error without issuing a query. -/
theorem isValid_spec :
    (∀ d : BlockSuiteDoc, d.IsValid = none ↔
      d.DocID ≠ "" ∧ d.CardID ≠ "" ∧ d.BoardID ≠ "" ∧ d.Snapshot ≠ none) ∧
    (∀ d : BlockSuiteDoc, d.DocID = "" →
      d.IsValid = some { msg := "doc_id cannot be empty" }) ∧
    (∀ d : BlockSuiteDoc, d.DocID ≠ "" → d.CardID = "" →
      d.IsValid = some { msg := "card_id cannot be empty" }) ∧
    (∀ d : BlockSuiteDoc, d.DocID ≠ "" → d.CardID ≠ "" → d.BoardID = "" →
      d.IsValid = some { msg := "board_id cannot be empty" }) ∧
    (∀ d : BlockSuiteDoc, d.DocID ≠ "" → d.CardID ≠ "" → d.BoardID ≠ "" → d.Snapshot = none →
      d.IsValid = some { msg := "snapshot cannot be nil" }) ∧
    (∀ d : BlockSuiteDoc, d.DocID ≠ "" → d.CardID ≠ "" → d.BoardID ≠ "" → d.Snapshot = some [] →
      d.IsValid = none) ∧
    (∀ (db : Database) (dbType : DBType) (d : BlockSuiteDoc) (e : ErrInvalidBlockSuiteDoc),
      d.IsValid = some e → UpsertBlockSuiteDoc db dbType d = (some (.invalid e), [])) ∧
    (∀ (db : Database) (dbType : DBType) (d : BlockSuiteDoc), d.IsValid = none →
      (UpsertBlockSuiteDoc db dbType d).2.head? = some (.cardExists d.CardID)) := by
  refine ⟨?_, ?_, ?_, ?_, ?_, ?_, ?_, ?_⟩
  · intro d
    unfold BlockSuiteDoc.IsValid
    by_cases h1 : d.DocID = "" <;> by_cases h2 : d.CardID = "" <;>
      by_cases h3 : d.BoardID = "" <;> by_cases h4 : d.Snapshot = none <;>
      simp [h1, h2, h3, h4]
  · intro d h1
    simp [BlockSuiteDoc.IsValid, h1, NewErrInvalidBlockSuiteDoc]
  · intro d h1 h2
    simp [BlockSuiteDoc.IsValid, h1, h2, NewErrInvalidBlockSuiteDoc]
  · intro d h1 h2 h3
    simp [BlockSuiteDoc.IsValid, h1, h2, h3, NewErrInvalidBlockSuiteDoc]
  · intro d h1 h2 h3 h4
    simp [BlockSuiteDoc.IsValid, h1, h2, h3, h4, NewErrInvalidBlockSuiteDoc]
  · intro d h1 h2 h3 h4
    simp [BlockSuiteDoc.IsValid, h1, h2, h3, h4]
  · intro db dbType d e h
    simp [UpsertBlockSuiteDoc, h]
  · intro db dbType d h
    unfold UpsertBlockSuiteDoc
    simp only [h]
    cases hq : db.cardExists d.CardID with
    | error msg => rfl
    | ok b =>
      cases b with
      | false => rfl
      | true =>
        cases dbType with
        | other name => rfl
        | PostgresDBType => cases db.exec .PostgresDBType d <;> rfl
        | MysqlDBType => cases db.exec .MysqlDBType d <;> rfl
        | SqliteDBType => cases db.exec .SqliteDBType d <;> rfl

/-- C23. `BlockSuiteDoc.Patch` sets `Snapshot`, `UpdatedAt` and `UpdatedBy` to
the value a patch field points to when that field is not nil and leaves them
as they are otherwise; `DocID`, `CardID`, `BoardID`, `CreatedAt` and
`CreatedBy` are unchanged for every patch; the patch with all fields nil is the
identity; and applying a patch twice equals applying it once. -/
theorem patch_spec :
    (∀ (d : BlockSuiteDoc) (p : BlockSuiteDocPatch),
      (d.Patch p).Snapshot = (match p.Snapshot with | some s => s | none => d.Snapshot) ∧
      (d.Patch p).UpdatedAt = (match p.UpdatedAt with | some t => t | none => d.UpdatedAt) ∧
      (d.Patch p).UpdatedBy = (match p.UpdatedBy with | some u => u | none => d.UpdatedBy)) ∧
    (∀ (d : BlockSuiteDoc) (p : BlockSuiteDocPatch),
      (d.Patch p).DocID = d.DocID ∧ (d.Patch p).CardID = d.CardID ∧
      (d.Patch p).BoardID = d.BoardID ∧ (d.Patch p).CreatedAt = d.CreatedAt ∧
      (d.Patch p).CreatedBy = d.CreatedBy) ∧
    (∀ d : BlockSuiteDoc,
      d.Patch { Snapshot := none, UpdatedAt := none, UpdatedBy := none } = d) ∧
    (∀ (d : BlockSuiteDoc) (p : BlockSuiteDocPatch), (d.Patch p).Patch p = d.Patch p) := by
  refine ⟨?_, ?_, ?_, ?_⟩
  · intro d p
    unfold BlockSuiteDoc.Patch
    cases p.Snapshot <;> cases p.UpdatedAt <;> cases p.UpdatedBy <;> simp
  · intro d p
    unfold BlockSuiteDoc.Patch
    cases p.Snapshot <;> cases p.UpdatedAt <;> cases p.UpdatedBy <;> simp
  · intro d
    rfl
  · intro d p
    unfold BlockSuiteDoc.Patch
    cases p.Snapshot <;> cases p.UpdatedAt <;> cases p.UpdatedBy <;> rfl

/-- C25. `formatMessage` uses the comment template when the type of the changed
block is comment and the description template otherwise; the result is `@` and
the author, `@` and the mentioned user, the card as the markdown link
`[card](link)`, the board as `[board](boardLink)`, and the extract on a last
line that starts with `> `. -/
theorem formatMessage_spec (author mentionedUser extract card link boardLink board : String)
    (b : Block) :
    (b.BlockType = .TypeComment →
      formatMessage author mentionedUser extract card link (some b) boardLink board =
        some ("@" ++ author ++ "님이 @" ++ mentionedUser ++ "님을 카드 [" ++ card ++ "](" ++ link ++
          ") 댓글에서 언급했습니다 (보드: [" ++ board ++ "](" ++ boardLink ++ "))\n> " ++ extract)) ∧
    (b.BlockType ≠ .TypeComment →
      formatMessage author mentionedUser extract card link (some b) boardLink board =
        some ("@" ++ author ++ "님이 @" ++ mentionedUser ++ "님을 카드 [" ++ card ++ "](" ++ link ++
          ")에서 언급했습니다 (보드: [" ++ board ++ "](" ++ boardLink ++ "))\n> " ++ extract)) ∧
    (b.BlockType = .TypeComment ↔
      formatMessage author mentionedUser extract card link (some b) boardLink board =
        some (sprintfArgs defCommentTemplate
          [author, mentionedUser, card, link, board, boardLink, extract])) := by
  have hc : sprintfArgs defCommentTemplate
      [author, mentionedUser, card, link, board, boardLink, extract] =
      "@" ++ author ++ "님이 @" ++ mentionedUser ++ "님을 카드 [" ++ card ++ "](" ++ link ++
        ") 댓글에서 언급했습니다 (보드: [" ++ board ++ "](" ++ boardLink ++ "))\n> " ++ extract := by
    apply String.ext
    simp [sprintfArgs, String.data_append, defCommentTemplate, sprintfArgsChars]
  have hd : sprintfArgs defDescriptionTemplate
      [author, mentionedUser, card, link, board, boardLink, extract] =
      "@" ++ author ++ "님이 @" ++ mentionedUser ++ "님을 카드 [" ++ card ++ "](" ++ link ++
        ")에서 언급했습니다 (보드: [" ++ board ++ "](" ++ boardLink ++ "))\n> " ++ extract := by
    apply String.ext
    simp [sprintfArgs, String.data_append, defDescriptionTemplate, sprintfArgsChars]
  refine ⟨?_, ?_, ?_⟩
  · intro h
    simp [formatMessage, h, hc]
  · intro h
    simp [formatMessage, h, hd]
  · constructor
    · intro h
      simp [formatMessage, h]
    · intro h
      by_contra hne
      simp only [formatMessage, hne, if_false, Option.some.injEq] at h
      rw [hc, hd] at h
      have h2 := congrArg String.data h
      simp only [String.data_append, List.append_assoc] at h2
      have h3 := List.append_cancel_left h2
      have h4 := List.append_cancel_left h3
      have h5 := List.append_cancel_left h4
      have h6 := List.append_cancel_left h5
      have h7 := List.append_cancel_left h6
      have h8 := List.append_cancel_left h7
      have h9 := List.append_cancel_left h8
      have h10 := List.append_cancel_left h9
      revert h10
      simp

/-- C26. Once `getTemplate` has succeeded for a name and a language, a later
call for the same name and language returns the template of the first call and
leaves the cache as it is, whatever parser, default source and link builders the
later call brings. For the add-card template compiled by a first caller, the
conversion of an added card by a later caller puts into `Pretext` the link built
by the `MakeCardLink` of the first caller, while `TitleLink` is built by the
`MakeCardLink` of the current call. -/
theorem first_caller_links (parse : String → Option (List Node))
    (gen : String → String → String) (opts1 opts2 : DiffConvOpts)
    (f1 f2 : Option Block → Board → Block → String) (cache cache1 : TemplateCache)
    (t : Template) (d : Diff) (nb : Block)
    (hmiss : cache.lookup (cacheKey "AddCardNotify" opts1.Language) = none)
    (hfirst : getTemplate parse "AddCardNotify" opts1 defAddCardNotify cache = (.ok t, cache1))
    (hl1 : opts1.MakeCardLink = some f1) (hl2 : opts2.MakeCardLink = some f2)
    (hlang : opts2.Language = opts1.Language)
    (hnew : d.NewBlock = some nb) (hold : d.OldBlock = none) :
    (∀ (name defn : String) (c0 c1 : TemplateCache) (t0 : Template),
      getTemplate parse name opts1 defn c0 = (.ok t0, c1) →
      ∀ (parse2 : String → Option (List Node)) (defn2 : String),
        getTemplate parse2 name opts2 defn2 c1 = (.ok t0, c1)) ∧
    cardDiff2SlackAttachment parse gen d opts2 cache1 = (.ok (some
      { Pretext := makeAuthorsList d.Authors "알 수 없는 사용자" ++ "님이 카드 [" ++ d.Card.Title ++
          "](" ++ f1 (some nb) d.Board d.Card ++ ")를 추가했습니다.\n"
        Fallback := makeAuthorsList d.Authors "알 수 없는 사용자" ++ "님이 카드 [" ++ d.Card.Title ++
          "](" ++ f1 (some nb) d.Board d.Card ++ ")를 추가했습니다.\n"
        TitleLink := f2 (some d.Card) d.Board d.Card
        Fields := [] }), cache1) := by
  obtain ⟨t1, ht1, htree, _, hb, _⟩ :=
    getTemplate_miss_ok parse "AddCardNotify" defAddCardNotify opts1 cache addCardTree hmiss
      (templateParse_add parse)
  rw [ht1] at hfirst
  simp only [Prod.mk.injEq, Except.ok.injEq] at hfirst
  obtain ⟨htt, hcc⟩ := hfirst
  subst htt
  have hstored : cache1.lookup (cacheKey "AddCardNotify" opts2.Language) = some t1 := by
    rw [hlang, ← hcc]
    simp [List.lookup_cons]
  have hreuse : ∀ (parse2 : String → Option (List Node)) (defn2 : String),
      getTemplate parse2 "AddCardNotify" opts2 defn2 cache1 = (.ok t1, cache1) :=
    fun parse2 defn2 => getTemplate_hit parse2 "AddCardNotify" defn2 opts2 cache1 t1 hstored
  refine ⟨?_, ?_⟩
  · intro name defn c0 c1 t0 h0 parse2 defn2
    apply getTemplate_hit
    rw [hlang]
    exact getTemplate_ok_lookup parse name defn opts1 c0 c1 t0 h0
  have hlinkfn : t1.makeCardLink d.NewBlock d.Board d.Card = some (f1 (some nb) d.Board d.Card) := by
    rw [hb, hl1, hnew]
  have hx := execNodes_addCardTree t1 d _ hlinkfn
  rw [cardDiff2SlackAttachment_added parse gen d opts2 cache1 (by simp [hnew]) hold]
  simp [renderNotice, execTemplate, hreuse parse defAddCardNotify, Template.Execute, htree, hx,
    titleLink, hl2]

/-- C26 at the added card `exAddedDiff`: the first caller compiles the template
with the link builder of `exOpts`; for the second caller, whose link builder
answers the empty string, the link of the pretext is the one of the first
caller and the title link is empty. -/
theorem first_caller_links_witness :
    cardDiff2SlackAttachment exParse exMarkdownDiff exAddedDiff exOptsEmptyLink
        [("AddCardNotify&en", exAddTemplate)] = (.ok (some
      { Pretext := "@alice님이 카드 [Fix bug](https://boards.example/c1)를 추가했습니다.\n"
        Fallback := "@alice님이 카드 [Fix bug](https://boards.example/c1)를 추가했습니다.\n"
        TitleLink := ""
        Fields := [] }), [("AddCardNotify&en", exAddTemplate)]) :=
  (first_caller_links exParse exMarkdownDiff exOpts exOptsEmptyLink
    (fun _ _ card => "https://boards.example/" ++ card.ID) (fun _ _ _ => "") []
    [("AddCardNotify&en", exAddTemplate)] exAddTemplate exAddedDiff exCard rfl rfl rfl rfl rfl
    rfl rfl).2

/-- C27. In a `MODIFIED` card diff for which an attachment is returned, a newly
added attachment child whose title is non-empty, contains no mention and has a
non-empty markdown against the empty text yields two fields: the field of
`appendAttachmentChanges` in the added form and a description field of
`appendContentChanges`; when it is the only child they are the last two fields.
For every attachment child the content generator hands the empty text as old
text to the text diff and to the mention check. -/
theorem attachment_child_two_fields (parse : String → Option (List Node))
    (gen : String → String → String) (d : Diff) (opts : DiffConvOpts) (cache : TemplateCache)
    (a : SlackAttachment) (child : Diff) (nb : Block)
    (hmod : ∃ n o, d.NewBlock = some n ∧ d.OldBlock = some o ∧ n.DeleteAt = 0)
    (hres : (cardDiff2SlackAttachment parse gen d opts cache).1 = .ok (some a))
    (hchild : child ∈ d.Diffs) (htype : child.BlockType = .TypeAttachment)
    (hnew : child.NewBlock = some nb) (hold : child.OldBlock = none)
    (htitle : nb.Title ≠ "") (hmention : mentionPatternMatchString nb.Title = false)
    (hmd : gen "" nb.Title ≠ "") :
    ({ Title := makeAuthorsList child.Authors "알 수 없는 사용자" ++ "님이 변경함"
       Value := sprintf "첨부 파일 추가: **`%s`**" nb.Title
       Short := false } : SlackAttachmentField) ∈ a.Fields ∧
    ({ Title := "설명", Value := gen "" nb.Title, Short := false } : SlackAttachmentField) ∈
      a.Fields ∧
    (d.Diffs = [child] → ∃ before, a.Fields = before ++
      [{ Title := makeAuthorsList child.Authors "알 수 없는 사용자" ++ "님이 변경함"
         Value := sprintf "첨부 파일 추가: **`%s`**" nb.Title
         Short := false },
       { Title := "설명", Value := gen "" nb.Title, Short := false }]) ∧
    (∀ c : Diff, c.BlockType = .TypeAttachment → ∃ newTitle,
      contentTitles c = some ("", newTitle) ∧
      contentChange gen c = contentField gen "" newTitle) := by
  have hfields := modified_result_fields parse gen d opts cache a hmod hres
  obtain ⟨tf, af, _, haf, heq⟩ := modifiedFields_eq gen d a.Fields hfields
  have hadd := (appendAttachmentChange_cases [] child).2.1 htype nb hnew hold
  simp only [List.nil_append] at hadd
  have hct : contentTitles child = some ("", nb.Title) := by
    obtain ⟨n, hn, hnt⟩ := contentTitles_image_attachment child (Or.inr htype)
    rw [hn, hnt nb hnew htitle]
  have hdesc : contentChange gen child =
      some { Title := "설명", Value := gen "" nb.Title, Short := false } := by
    have hm0 : mentionPatternMatchString "" = false := by decide
    simp [contentChange, hct, contentField, hmd, hmention, hm0]
  refine ⟨?_, ?_, ?_, ?_⟩
  · rw [heq]
    apply List.mem_append_left
    apply List.mem_append_right
    exact foldlM_appendAttachmentChange_mem d.Diffs [] af haf child hchild _ hadd
  · rw [heq, appendContentChanges_eq]
    apply List.mem_append_right
    simp only [List.nil_append, List.mem_filterMap]
    exact ⟨child, hchild, hdesc⟩
  · intro hd
    refine ⟨tf ++ appendPropertyChanges [] d, ?_⟩
    unfold appendAttachmentChanges at haf
    rw [hd] at haf
    simp only [List.foldlM_cons, List.foldlM_nil, hadd, Option.some_bind, Option.bind_eq_bind,
      Option.pure_def, Option.some.injEq] at haf
    rw [heq, appendContentChanges_eq, hd, ← haf]
    simp [List.filterMap_cons, hdesc]
  · intro c hc
    obtain ⟨n, hn, _⟩ := contentTitles_image_attachment c (Or.inr hc)
    exact ⟨n, hn, by simp [contentChange, hn]⟩

/-- C27 at `exAttachmentAddedDiff`, whose only change is the added attachment
`spec.pdf`: the attachment has the two fields of that child. -/
theorem attachment_child_two_fields_witness :
    ∃ before,
      [ ({ Title := "@alice님이 변경함", Value := "첨부 파일 추가: **`spec.pdf`**", Short := false } :
          SlackAttachmentField),
        { Title := "설명", Value := "~~~~ spec.pdf", Short := false } ] =
      before ++
        [ { Title := makeAuthorsList exNewAttachmentChild.Authors "알 수 없는 사용자" ++ "님이 변경함"
            Value := sprintf "첨부 파일 추가: **`%s`**" "spec.pdf"
            Short := false },
          { Title := "설명", Value := exMarkdownDiff "" "spec.pdf", Short := false } ] :=
  (attachment_child_two_fields exParse exMarkdownDiff exAttachmentAddedDiff exOpts []
    { Fallback := "###### @alice님이 보드 `Roadmap`에서 카드 [Fix bug](https://boards.example/c1)를 수정했습니다.\n"
      Pretext := "###### @alice님이 보드 `Roadmap`에서 카드 [Fix bug](https://boards.example/c1)를 수정했습니다.\n"
      TitleLink := "https://boards.example/c1"
      Fields :=
        [ { Title := "@alice님이 변경함", Value := "첨부 파일 추가: **`spec.pdf`**", Short := false },
          { Title := "설명", Value := "~~~~ spec.pdf", Short := false } ] }
    exNewAttachmentChild { ID := "f2", Title := "spec.pdf", DeleteAt := 0 }
    ⟨exCard, exCard, rfl, rfl, rfl⟩ (by decide) (List.Mem.head _) rfl rfl rfl (by decide) (by decide)
    (by decide)).2.2.1 rfl

end Boards
